import Mathlib

/-!
# sud: the client/daemon transport and the exec transition

A shallow embedding of `src/src/daemon.c`, `src/src/su.c` and `src/include/su.h`.

Conventions of the embedding.

* A C `int` is a Lean `Int`; values that pass through memory or the wire are
  wrapped to 32 bits with `to_int32`.
* A byte is a `Nat` below 256; a C string in `daemon.c` is the list of its
  bytes without the terminating NUL.  In `su.c` and `su.h` a C string is the
  list of its characters.
* The kernel and the C library are not part of the repository.  Their calls are
  modelled by the `sys_*` functions and the library routines below, which act on
  explicit state; outcomes the program cannot influence (fork, waitpid, the
  account database) are fields of an environment record.
* A function of `daemon.c` that may call `exit` returns a `Res`: either it
  returns a value and the new process state, or the process has exited with the
  argument given to `exit`, or it has faulted on a null pointer.  A run of
  `su_main` ends in a `SuResult`.
* Logging (`LOGD`, `LOGE`, `PLOGE`) has no effect on the state and is left out.
* The members `from` and `to` of `struct su_context` are spelled `from_` and
  `to_`, since the plain words are reserved in Lean.
-/

namespace Sud

/-! ## Machine integers and system constants -/

/-- The value held by a 32-bit two's complement `int` after storing `z`. -/
def to_int32 (z : Int) : Int := (z + 2147483648) % 4294967296 - 2147483648

def INT32_MAX : Int := 2147483647

def INT32_MIN : Int := -2147483648

/-- The constant `PATH_MAX` of `<limits.h>` on Linux and Android. -/
def PATH_MAX : Nat := 4096

/-- The status a parent observes for `exit(code)`: the low eight bits. -/
def exit_status (code : Int) : Int := code % 256

/-- The macro `WEXITSTATUS` of `<sys/wait.h>`: bits 8..15 of the wait status. -/
def WEXITSTATUS (status : Int) : Int := (status / 256) % 256

/-- Byte order of the host that runs both ends of the loopback connection. -/
inductive ByteOrder where
  | little
  | big
deriving DecidableEq, Repr

/-- The four bytes of the object representation of an `int`, lowest address first. -/
def int_bytes (bo : ByteOrder) (v : Int) : List Nat :=
  let u := (v % 4294967296).toNat
  match bo with
  | .little => [u % 256, u / 256 % 256, u / 65536 % 256, u / 16777216 % 256]
  | .big => [u / 16777216 % 256, u / 65536 % 256, u / 256 % 256, u % 256]

/-- The `int` whose object representation is the given four bytes. -/
def bytes_int (bo : ByteOrder) (bs : List Nat) : Int :=
  match bo, bs with
  | .little, [b0, b1, b2, b3] =>
      to_int32 ((b0 : Int) + 256 * b1 + 65536 * b2 + 16777216 * b3)
  | .big, [b3, b2, b1, b0] =>
      to_int32 ((b0 : Int) + 256 * b1 + 65536 * b2 + 16777216 * b3)
  | _, _ => 0

/-! ## Ancillary data (`<sys/socket.h>`, LP64 Linux) -/

def SOL_SOCKET : Int := 1

def SCM_RIGHTS : Int := 1

/-- The size of `struct cmsghdr`. -/
def sizeof_cmsghdr : Nat := 16

/-- The macro `CMSG_ALIGN`: round up to a multiple of `sizeof(size_t)`. -/
def CMSG_ALIGN (n : Nat) : Nat := (n + 7) / 8 * 8

/-- The macro `CMSG_LEN`. -/
def CMSG_LEN (n : Nat) : Nat := CMSG_ALIGN sizeof_cmsghdr + n

/-- The macro `CMSG_SPACE`. -/
def CMSG_SPACE (n : Nat) : Nat := CMSG_ALIGN sizeof_cmsghdr + CMSG_ALIGN n

/-- The size of `int`. -/
def sizeof_int : Nat := 4

/-- The size of a pointer. -/
def sizeof_ptr : Nat := 8

/-- One control message: the header fields and the `int` stored at `CMSG_DATA`. -/
structure cmsghdr where
  cmsg_len : Nat
  cmsg_level : Int
  cmsg_type : Int
  cmsg_data : Int
deriving DecidableEq, Repr

/-- The parts of `struct msghdr` the program uses: the bytes described by
`msg_iov`, the control buffer (`none` when `msg_control` is null or
`msg_controllen` is too small for a header, which is what `CMSG_FIRSTHDR` tests)
and `msg_controllen`. -/
structure msghdr where
  msg_iov : List Nat
  msg_control : Option cmsghdr
  msg_controllen : Nat
deriving DecidableEq, Repr

/-! ## The connection and the process state -/

/-- One byte in flight on the connection, with the open file that travels with
it when the sender attached an `SCM_RIGHTS` record.  The file is named by the
descriptor number it had in the sender. -/
structure Cell where
  byte : Nat
  rights : Option Int
deriving DecidableEq, Repr

/-- A byte written by `write`, with no ancillary data. -/
def Cell.plain (b : Nat) : Cell := { byte := b, rights := none }

/-- The state of one process with one connected socket. -/
structure Proc where
  /-- Byte order of the host. -/
  order : ByteOrder
  /-- What remains to be received from the peer, in order. -/
  inbox : List Cell
  /-- What has been sent to the peer so far, in order. -/
  outbox : List Cell
  /-- The descriptor numbers that are open in this process. -/
  fds : List Int
  /-- Bytes the allocator can still hand out. -/
  heap_free : Nat
  /-- Sizes of the blocks handed out by `malloc`, oldest first. -/
  mallocs : List Nat
deriving DecidableEq, Repr

/-- The result of running a piece of the program from a process state. -/
inductive Res (α : Type) where
  /-- The code returned `val`. -/
  | ret (val : α) (s : Proc)
  /-- The code called `exit(code)`. -/
  | exit (code : Int) (s : Proc)
  /-- The code dereferenced a null pointer. -/
  | fault (s : Proc)
deriving DecidableEq, Repr

/-- Sequencing: run `k` on the value and state of a returned result. -/
def Res.bind {α β : Type} (r : Res α) (k : α → Proc → Res β) : Res β :=
  match r with
  | .ret a s => k a s
  | .exit c s => .exit c s
  | .fault s => .fault s

/-- The state in which a result leaves the process. -/
def Res.state {α : Type} : Res α → Proc
  | .ret _ s => s
  | .exit _ s => s
  | .fault s => s

/-! ## System calls -/

/-- The call `read(fd, buf, n)` on the connection: the next `n` bytes, or fewer
when the peer has sent fewer before closing.  Returns the bytes stored in `buf`;
the return value of `read` is their number. -/
def sys_read (s : Proc) (n : Nat) : List Nat × Proc :=
  ((s.inbox.take n).map Cell.byte, { s with inbox := s.inbox.drop n })

/-- The call `write(fd, buf, n)` on the connection: all `n` bytes are sent.
Returns the return value of `write`. -/
def sys_write (s : Proc) (buf : List Nat) : Int × Proc :=
  (buf.length, { s with outbox := s.outbox ++ buf.map Cell.plain })

/-- The call `malloc(n)`: `true` and the block is recorded when `n` bytes are
available, `false` (a null pointer) otherwise. -/
def sys_malloc (s : Proc) (n : Nat) : Bool × Proc :=
  if n ≤ s.heap_free then
    (true, { s with heap_free := s.heap_free - n, mallocs := s.mallocs ++ [n] })
  else (false, s)

/-- The result of `fcntl(fd, F_GETFD)`: the descriptor flags, or -1 with `errno`. -/
inductive FcntlResult where
  | flags (v : Int)
  | error (errno : Int)
deriving DecidableEq, Repr

def EBADF : Int := 9

/-- The call `fcntl(fd, F_GETFD)`: fails with `EBADF` exactly when `fd` is not open. -/
def sys_fcntl_getfd (s : Proc) (fd : Int) : FcntlResult :=
  if fd ∈ s.fds then .flags 0 else .error EBADF

/-- The call `sendmsg(sockfd, &msg, 0)`: the payload bytes are queued, the first
one carrying the file of an `SCM_RIGHTS` record when the message has one.
Returns the number of payload bytes sent. -/
def sys_sendmsg (s : Proc) (msg : msghdr) : Int × Proc :=
  let file : Option Int :=
    match msg.msg_control with
    | some c =>
        if c.cmsg_level = SOL_SOCKET ∧ c.cmsg_type = SCM_RIGHTS then some c.cmsg_data
        else none
    | none => none
  match msg.msg_iov with
  | [] => (0, s)
  | b :: bs =>
      (((b :: bs).length : Nat),
        { s with outbox := s.outbox ++ { byte := b, rights := file } :: bs.map Cell.plain })

/-- The lowest descriptor number that is not open. -/
def lowest_free (fds : List Int) : Nat :=
  ((List.range (fds.length + 1)).filter (fun (n : Nat) => decide (Int.ofNat n ∉ fds))).headD fds.length

/-- The call `recvmsg(sockfd, &msg, MSG_WAITALL)` with a one-byte buffer and a
control buffer of `CMSG_SPACE(sizeof(int))` bytes.  Returns the return value (the
number of payload bytes received) and the message header as the kernel leaves
it: a file that arrives with the byte is installed at the lowest free descriptor
number, which is stored in an `SCM_RIGHTS` record. -/
def sys_recvmsg (s : Proc) : Int × msghdr × Proc :=
  match s.inbox with
  | [] => (0, { msg_iov := [], msg_control := none, msg_controllen := 0 }, s)
  | c :: rest =>
      match c.rights with
      | none =>
          (1, { msg_iov := [c.byte], msg_control := none, msg_controllen := 0 },
            { s with inbox := rest })
      | some _ =>
          let fd : Int := lowest_free s.fds
          (1,
            { msg_iov := [c.byte],
              msg_control := some
                { cmsg_len := CMSG_LEN sizeof_int, cmsg_level := SOL_SOCKET,
                  cmsg_type := SCM_RIGHTS, cmsg_data := fd },
              msg_controllen := CMSG_SPACE sizeof_int },
            { s with inbox := rest, fds := fd :: s.fds })

/-! ## daemon.c: descriptor transfer -/

/-- The function `recv_fd` (daemon.c, lines 68-114). -/
def recv_fd (s : Proc) : Res Int :=
  let r := sys_recvmsg s
  if r.1 ≠ 1 then .exit (-1) r.2.2
  else if r.2.1.msg_controllen = 0 then .ret (-1) r.2.2
  else if r.2.1.msg_controllen = CMSG_SPACE sizeof_int then
    match r.2.1.msg_control with
    | none => .exit (-1) r.2.2
    | some cmsg =>
        if cmsg.cmsg_len ≠ CMSG_LEN sizeof_int ∨ cmsg.cmsg_level ≠ SOL_SOCKET ∨
            cmsg.cmsg_type ≠ SCM_RIGHTS then .exit (-1) r.2.2
        else .ret cmsg.cmsg_data r.2.2
  else .exit (-1) r.2.2

/-- The message header `send_fd` has built when it reaches `sendmsg` (daemon.c,
lines 127-159), or `none` when it jumps to `error` because `fcntl` failed with
an `errno` other than `EBADF`. -/
def send_fd_msg (s : Proc) (fd : Int) : Option msghdr :=
  let msg : msghdr := { msg_iov := [0], msg_control := none, msg_controllen := 0 }
  if fd ≠ -1 then
    match sys_fcntl_getfd s fd with
    | .error errno => if errno ≠ EBADF then none else some msg
    | .flags _ =>
        some { msg with
          msg_control := some
            { cmsg_len := CMSG_LEN sizeof_int, cmsg_level := SOL_SOCKET,
              cmsg_type := SCM_RIGHTS, cmsg_data := fd },
          msg_controllen := CMSG_SPACE sizeof_int }
  else some msg

/-- The function `send_fd` (daemon.c, lines 125-166). -/
def send_fd (s : Proc) (fd : Int) : Res Unit :=
  match send_fd_msg s fd with
  | none => .exit (-1) s
  | some msg =>
      let r := sys_sendmsg s msg
      if r.1 ≠ 1 then .exit (-1) r.2 else .ret () r.2

/-! ## daemon.c: the framed wire codec -/

/-- The function `read_int` (daemon.c, lines 168-176). -/
def read_int (s : Proc) : Res Int :=
  let r := sys_read s sizeof_int
  if r.1.length ≠ sizeof_int then .exit (-1) r.2
  else .ret (bytes_int s.order r.1) r.2

/-- The function `write_int` (daemon.c, lines 178-184). -/
def write_int (s : Proc) (val : Int) : Res Unit :=
  let r := sys_write s (int_bytes s.order val)
  if r.1 ≠ sizeof_int then .exit (-1) r.2 else .ret () r.2

/-- The function `read_string` (daemon.c, lines 186-204).  The value returned is
the `len` bytes read into the buffer; the buffer's last byte, set to NUL, is
left implicit. -/
def read_string (s : Proc) : Res (List Nat) :=
  (read_int s).bind fun len s1 =>
    if len > PATH_MAX ∨ len < 0 then .exit (-1) s1
    else
      let m := sys_malloc s1 (len.toNat + 1)
      if m.1 = false then .exit (-1) m.2
      else
        let r := sys_read m.2 len.toNat
        if (r.1.length : Int) ≠ len then .exit (-1) r.2
        else .ret r.1 r.2

/-- The function `strlen`: the number of bytes before the first NUL. -/
def strlen (val : List Nat) : Nat := (val.takeWhile (fun b => b ≠ 0)).length

/-- The function `write_string` (daemon.c, lines 206-214). -/
def write_string (s : Proc) (val : List Nat) : Res Unit :=
  let len : Int := to_int32 (strlen val)
  (write_int s len).bind fun _ s1 =>
    let r := sys_write s1 (val.take len.toNat)
    if r.1 ≠ len then .exit (-1) r.2 else .ret () r.2

/-! ## daemon.c: the connection handler -/

/-- Outcomes of the system calls in `daemon_accept` that the program does not
control. -/
structure DaemonEnv where
  /-- Whether `getsockopt(SO_PEERCRED)` succeeds (returns 0). -/
  peercred_ok : Bool
  /-- The return value of `fork`. -/
  fork_ret : Int
  /-- The return value of `waitpid`. -/
  waitpid_ret : Int
  /-- The wait status `waitpid` stores. -/
  wait_status : Int
  /-- Whether `open(pts_slave, O_RDWR)` succeeds. -/
  open_ok : Bool
deriving DecidableEq, Repr

/-- The local variables of `daemon_accept` that are set before the argument
count is read (daemon.c, lines 241-270). -/
structure Header where
  pid : Int
  pts_slave : List Nat
  from_uid : Int
  from_pid : Int
  infd : Int
  outfd : Int
  errfd : Int
deriving DecidableEq, Repr

/-- The local variables of `daemon_accept` once the request has been read. -/
structure Request extends Header where
  argc : Int
  argv : List (List Nat)
deriving DecidableEq, Repr

/-- The loop `for (i = 0; i < argc; i++) argv[i] = read_string(fd);` (daemon.c,
lines 281-283), run for `n` iterations. -/
def read_args : Nat → Proc → Res (List (List Nat))
  | 0, s => .ret [] s
  | n + 1, s =>
      (read_string s).bind fun a s1 =>
        (read_args n s1).bind fun rest s2 => .ret (a :: rest) s2

/-- The part of `daemon_accept` that reads the argument count and the arguments
(daemon.c, lines 272-283).  The result of `malloc` for the array is used
unchecked. -/
def daemon_accept_args (s : Proc) : Res (Int × List (List Nat)) :=
  (read_int s).bind fun argc s1 =>
    if argc < 0 ∨ argc > 512 then .exit (-1) s1
    else
      let m := sys_malloc s1 (sizeof_ptr * (argc.toNat + 1))
      if m.1 = false then .fault m.2
      else (read_args argc.toNat m.2).bind fun argv s2 => .ret (argc, argv) s2

/-- The part of `daemon_accept` that reads the fixed fields and receives the
three descriptors (daemon.c, lines 240-270).  The globals `is_daemon`,
`daemon_from_uid` and `daemon_from_pid` are only read by code outside the
sources at hand; the two values stored in them are kept in the header. -/
def daemon_accept_header (env : DaemonEnv) (s : Proc) : Res Header :=
  (read_int s).bind fun pid s1 =>
  (read_string s1).bind fun pts_slave s2 =>
  (read_int s2).bind fun from_uid s3 =>
  (read_int s3).bind fun from_pid s4 =>
    if env.peercred_ok = false then .exit (-1) s4
    else
      (recv_fd s4).bind fun infd s5 =>
      (recv_fd s5).bind fun outfd s6 =>
      (recv_fd s6).bind fun errfd s7 =>
        .ret { pid := pid, pts_slave := pts_slave, from_uid := from_uid,
               from_pid := from_pid, infd := infd, outfd := outfd, errfd := errfd } s7

/-- The part of `daemon_accept` that reads the request (daemon.c, lines 240-283). -/
def daemon_accept_request (env : DaemonEnv) (s : Proc) : Res Request :=
  (daemon_accept_header env s).bind fun h s7 =>
    (daemon_accept_args s7).bind fun a s8 =>
      .ret { toHeader := h, argc := a.1, argv := a.2 } s8

/-! ### The wire format, as the spec words it -/

/-- An integer on the wire: four bytes in host order, no ancillary data. -/
def wire_int (bo : ByteOrder) (v : Int) : List Cell := (int_bytes bo v).map Cell.plain

/-- A string on the wire: `[int32 length][length raw bytes]`, no terminator. -/
def wire_string (bo : ByteOrder) (a : List Nat) : List Cell :=
  wire_int bo a.length ++ a.map Cell.plain

/-- A sequence of strings on the wire, one after the other. -/
def wire_args (bo : ByteOrder) : List (List Nat) → List Cell
  | [] => []
  | a :: rest => wire_string bo a ++ wire_args bo rest

/-- The sizes of the buffers `read_string` allocates for a sequence of strings. -/
def args_blocks (args : List (List Nat)) : List Nat := args.map (fun a => a.length + 1)

/-- The call `open(pts_slave, O_RDWR)`: the lowest free descriptor, or -1. -/
def sys_open (s : Proc) (ok : Bool) : Int × Proc :=
  if ok then ((lowest_free s.fds : Int), { s with fds := (lowest_free s.fds : Int) :: s.fds })
  else (-1, s)

/-- How `daemon_accept` ends: it returns a code in the processes that stay
behind, and in the worker child it calls `run_daemon_child` with the resolved
descriptors and the argument vector. -/
inductive Accepted where
  | returned (code : Int)
  | child (infd outfd errfd : Int) (argc : Int) (argv : List (List Nat))
deriving DecidableEq, Repr

/-- The part of `daemon_accept` after the request has been read (daemon.c, lines
285-367).  The calls that do not change what is written to the connection or
which descriptors are handed on are left out: `close`, `free`, `setsid` (whose
failure is only logged) and the `isatty`/`ioctl(TIOCSCTTY)` pair. -/
def daemon_accept_serve (env : DaemonEnv) (req : Request) (s : Proc) : Res Accepted :=
  (write_int s 1).bind fun _ s1 =>
    let child := env.fork_ret
    if child < 0 then
      let w := sys_write s1 (int_bytes s1.order child)
      .ret (.returned child) w.2
    else if child ≠ 0 then
      let code : Int := if env.waitpid_ret > 0 then WEXITSTATUS env.wait_status else -1
      let w := sys_write s1 (int_bytes s1.order code)
      .ret (.returned code) w.2
    else if (req.pts_slave ++ [0]).head? ≠ some 0 then
      let o := sys_open s1 env.open_ok
      let ptsfd := o.1
      if ptsfd = -1 then .exit (-1) o.2
      else
        let infd := if req.infd < 0 then ptsfd else req.infd
        let outfd := if req.outfd < 0 then ptsfd else req.outfd
        let errfd := if req.errfd < 0 then ptsfd else req.errfd
        .ret (.child infd outfd errfd req.argc req.argv) o.2
    else
      .ret (.child req.infd req.outfd req.errfd req.argc req.argv) s1

/-- The function `daemon_accept` (daemon.c, lines 239-367). -/
def daemon_accept (env : DaemonEnv) (s : Proc) : Res Accepted :=
  (daemon_accept_request env s).bind fun req s1 => daemon_accept_serve env req s1

/-! ## daemon.c: the client -/

def ATTY_IN : Nat := 1

def ATTY_OUT : Nat := 2

def ATTY_ERR : Nat := 4

def STDIN_FILENO : Int := 0

def STDOUT_FILENO : Int := 1

def STDERR_FILENO : Int := 2

/-- What `connect_daemon` learns from its surroundings. -/
structure ClientEnv where
  /-- The value of `getpid()`. -/
  pid : Int
  /-- The value of `getuid()`. -/
  uid : Int
  /-- Whether `socket`, `fcntl(FD_CLOEXEC)` and `connect` all succeed. -/
  connect_ok : Bool
  /-- Whether `getenv("SUPERUSER_SEND_TTY")` is not null. -/
  send_tty : Bool
  /-- The value of `isatty(STDIN_FILENO)`. -/
  isatty_in : Bool
  /-- The value of `isatty(STDOUT_FILENO)`. -/
  isatty_out : Bool
  /-- The value of `isatty(STDERR_FILENO)`. -/
  isatty_err : Bool
  /-- Modelled from the spec: `pts_open` of `pts.c`, which is not among the
  sources; the spec gives it as `allocate_pty() -> (master_fd, slave_path)`.
  `none` when it fails (returns a negative value), otherwise the master
  descriptor and the slave path it stores in the buffer. -/
  pts_open : Option (Int × List Nat)
deriving DecidableEq, Repr

/-- The bit field `atty` of `connect_daemon` (daemon.c, lines 533-541). -/
def connect_daemon_atty (env : ClientEnv) : Nat :=
  if env.send_tty = false then
    let a0 : Nat := 0
    let a1 := if env.isatty_in then a0 ||| ATTY_IN else a0
    let a2 := if env.isatty_out then a1 ||| ATTY_OUT else a1
    if env.isatty_err then a2 ||| ATTY_ERR else a2
  else 0

/-- The loop `for (i = 0; i < argc; i++) write_string(socketfd, argv[i]);`
(daemon.c, lines 596-598), over the arguments still to be written. -/
def write_args : List (List Nat) → Proc → Res Unit
  | [], s => .ret () s
  | a :: rest, s => (write_string s a).bind fun _ s1 => write_args rest s1

/-- The part of `connect_daemon` that sends the request (daemon.c, lines
554-598), given the bit field `atty` and the contents of `pts_slave`. -/
def connect_daemon_send (env : ClientEnv) (atty : Nat) (pts_slave : List Nat)
    (argv : List (List Nat)) (ppid : Int) (s : Proc) : Res Unit :=
  (write_int s env.pid).bind fun _ s1 =>
  (write_string s1 pts_slave).bind fun _ s2 =>
  (write_int s2 env.uid).bind fun _ s3 =>
  (write_int s3 ppid).bind fun _ s4 =>
  (send_fd s4 (if atty &&& ATTY_IN ≠ 0 then -1 else STDIN_FILENO)).bind fun _ s5 =>
  (send_fd s5 (if atty &&& ATTY_OUT ≠ 0 then -1 else STDOUT_FILENO)).bind fun _ s6 =>
  (send_fd s6 (if atty &&& ATTY_ERR ≠ 0 then -1 else STDERR_FILENO)).bind fun _ s7 =>
  (write_int s7 (to_int32 argv.length)).bind fun _ s8 =>
    write_args argv s8

/-- The part of `connect_daemon` that fills `pts_slave` (daemon.c, lines
543-552): the number of calls of `pts_open`, and the contents of the buffer
afterwards, `none` when `pts_open` fails and the process exits. -/
def connect_daemon_pts (env : ClientEnv) (atty : Nat) : Nat × Option (List Nat) :=
  if atty ≠ 0 then (1, env.pts_open.map (fun p => p.2)) else (0, some [])

/-- The function `connect_daemon` (daemon.c, lines 503-617).  The terminal pumps
that run between the acknowledgement and the exit code do not use the
connection and are left out. -/
def connect_daemon (env : ClientEnv) (argv : List (List Nat)) (ppid : Int) (s : Proc) :
    Res Int :=
  if env.connect_ok = false then .exit (-1) s
  else
    let atty := connect_daemon_atty env
    match (connect_daemon_pts env atty).2 with
    | none => .exit (-1) s
    | some pts_slave =>
        (connect_daemon_send env atty pts_slave argv ppid s).bind fun _ s1 =>
        (read_int s1).bind fun _ s2 =>
        (read_int s2).bind fun code s3 => .ret code s3

/-! ## The C library routines used by su.c -/

/-- The characters of a C string held in a buffer: those before the first NUL. -/
def c_str (buf : List Char) : List Char := buf.takeWhile (fun c => c ≠ Char.ofNat 0)

/-- Whether `strcmp(a, b)` is 0. -/
def strcmp_eq (a b : List Char) : Bool := decide (c_str a = c_str b)

/-- Whether `strncmp(a, b, n)` is 0. -/
def strncmp_eq (a b : List Char) (n : Nat) : Bool :=
  decide ((c_str a).take n = (c_str b).take n)

/-- The function `strrchr`: the part of `s` that starts at the last occurrence
of `c`, or `none` (a null pointer) when `c` does not occur. -/
def strrchr : List Char → Char → Option (List Char)
  | [], _ => none
  | x :: rest, c =>
      match strrchr rest c with
      | some p => some p
      | none => if x = c then some (x :: rest) else none

/-- One account of the password database (`struct passwd`). -/
structure passwd where
  pw_name : List Char
  pw_uid : Nat
  pw_dir : List Char
deriving DecidableEq, Repr

/-- The function `getpwnam` on a database. -/
def getpwnam (db : List passwd) (name : List Char) : Option passwd :=
  db.find? (fun pw => decide (pw.pw_name = name))

/-- The function `getpwuid` on a database. -/
def getpwuid (db : List passwd) (uid : Nat) : Option passwd :=
  db.find? (fun pw => decide (pw.pw_uid = uid))

/-- The environment variables of a process, most recently set first. -/
abbrev Environ := List (List Char × List Char)

/-- The function `getenv`. -/
def getenv (e : Environ) (name : List Char) : Option (List Char) :=
  (e.find? (fun kv => decide (kv.1 = name))).map (fun kv => kv.2)

/-- The function `unsetenv`. -/
def unsetenv (e : Environ) (name : List Char) : Environ :=
  e.filter (fun kv => decide (kv.1 ≠ name))

/-- The function `setenv(name, value, 1)`. -/
def setenv (e : Environ) (name value : List Char) : Environ :=
  (name, value) :: unsetenv e name

/-- The value of a decimal digit, or `none`. -/
def digit_value (c : Char) : Option Nat :=
  if '0' ≤ c ∧ c ≤ '9' then some (c.toNat - '0'.toNat) else none

/-- The function `isspace` in the C locale. -/
def isspace (c : Char) : Bool :=
  c = ' ' || (9 ≤ c.toNat && c.toNat ≤ 13)

/-- The digits at the start of a string: their value, their number and what
follows them. -/
def scan_digits : List Char → Nat → Nat → Nat × Nat × List Char
  | [], acc, n => (acc, n, [])
  | c :: rest, acc, n =>
      match digit_value c with
      | some d => scan_digits rest (acc * 10 + d) (n + 1)
      | none => (acc, n, c :: rest)

def ULONG_MAX : Nat := 18446744073709551615

/-- The function `strtoul(s, &endptr, 10)`: the value returned, whether `errno`
is set (to `ERANGE`), and the string `endptr` points to. -/
def strtoul (s : List Char) : Nat × Bool × List Char :=
  let body := s.dropWhile isspace
  let neg := body.head? = some '-'
  let digits := if body.head? = some '-' ∨ body.head? = some '+' then body.tail else body
  let r := scan_digits digits 0 0
  if r.2.1 = 0 then (0, false, s)
  else if r.1 > ULONG_MAX then (ULONG_MAX, true, r.2.2)
  else if neg then ((ULONG_MAX + 1 - r.1) % (ULONG_MAX + 1), false, r.2.2)
  else (r.1, false, r.2.2)

/-! ### getopt_long

The routine belongs to the C library.  It is modelled after the implementation
in Android's libc for the case su.c uses: an option string that starts with
`+` (scanning stops at the first argument that is not an option), long options
without flag pointers, and error messages left out.  One call of `getopt_long`
yields one pair of a return value and `optarg`; the model lists the pairs of the
successive calls up to the call that returns -1, and the value of `optind` at
that point. -/

/-- One entry of the table of long options (`struct option` with a null `flag`);
`has_arg` is 0 for `no_argument`, 1 for `required_argument`. -/
structure long_option where
  name : List Char
  has_arg : Nat
  val : Char
deriving DecidableEq, Repr

/-- What `strchr(options, c)` finds: `none` when `c` is not an option character,
otherwise the number of colons that follow it (at most 2). -/
def optstring_lookup : List Char → Char → Option Nat
  | [], _ => none
  | o :: rest, c =>
      if o = c then
        some (match rest with
          | ':' :: ':' :: _ => 2
          | ':' :: _ => 1
          | _ => 0)
      else optstring_lookup rest c

/-- The loop of `parse_long_options` that looks for the option named `nm`: the
match so far and whether a second, different partial match was seen. -/
def long_match : List Char → List long_option → Option long_option → Bool →
    Option long_option × Bool
  | _, [], m, amb => (m, amb)
  | nm, o :: rest, m, amb =>
      if o.name.take nm.length = nm then
        if o.name.length = nm.length then (some o, false)
        else
          match m with
          | none => long_match nm rest (some o) amb
          | some p =>
              if o.has_arg ≠ p.has_arg ∨ o.val ≠ p.val then long_match nm rest m true
              else long_match nm rest m amb
      else long_match nm rest m amb

/-- The routine `parse_long_options` on the text after `--`, with the next
element of the vector when there is one: the return value, `optarg`, and whether
the next element was taken as the argument. -/
def parse_long_options (long_options : List long_option) (current_argv : List Char)
    (next : Option (List Char)) : Char × Option (List Char) × Bool :=
  let nm := current_argv.takeWhile (fun c => c ≠ '=')
  let has_equal : Option (List Char) :=
    if '=' ∈ current_argv then some (current_argv.dropWhile (fun c => c ≠ '=')).tail else none
  match long_match nm long_options none false with
  | (_, true) => ('?', none, false)
  | (none, false) => ('?', none, false)
  | (some o, false) =>
      if o.has_arg = 0 then
        if has_equal.isSome then ('?', none, false) else (o.val, none, false)
      else
        match has_equal with
        | some v => (o.val, some v, false)
        | none =>
            if o.has_arg = 1 then
              match next with
              | some a => (o.val, some a, true)
              | none => ('?', none, false)
            else (o.val, none, false)

/-- The calls of `getopt_long` that scan one element of the vector from `place`
on: the pairs of return value and `optarg`, and whether the next element was
taken as an argument. -/
def scan_place (options : List Char) (long_options : List long_option)
    (next : Option (List Char)) : List Char → List (Char × Option (List Char)) × Bool
  | [] => ([], false)
  | ch :: rest =>
      if ch = '-' then
        let r := parse_long_options long_options rest next
        ([(r.1, r.2.1)], r.2.2)
      else
        match (if ch = ':' then none else optstring_lookup options ch) with
        | none =>
            let t := scan_place options long_options next rest
            (('?', none) :: t.1, t.2)
        | some 0 =>
            let t := scan_place options long_options next rest
            ((ch, none) :: t.1, t.2)
        | some k =>
            if rest ≠ [] then ([(ch, some rest)], false)
            else if k = 2 then ([(ch, none)], false)
            else
              match next with
              | some a => ([(ch, some a)], true)
              | none => ([('?', none)], false)

/-- The calls of `getopt_long` over the elements of the vector from index
`optind` on: the pairs of return value and `optarg` up to the call that returns
-1, and `optind` after that call. -/
def getopt_scan (options : List Char) (long_options : List long_option) :
    List (List Char) → Nat → List (Char × Option (List Char)) × Nat
  | [], optind => ([], optind)
  | [arg], optind =>
      match arg with
      | ['-', '-'] => ([], optind + 1)
      | '-' :: c :: more =>
          ((scan_place options long_options none (c :: more)).1, optind + 1)
      | _ => ([], optind)
  | arg :: next :: rest, optind =>
      match arg with
      | ['-', '-'] => ([], optind + 1)
      | '-' :: c :: more =>
          let r := scan_place options long_options (some next) (c :: more)
          if r.2 then
            let t := getopt_scan options long_options rest (optind + 2)
            (r.1 ++ t.1, t.2)
          else
            let t := getopt_scan options long_options (next :: rest) (optind + 1)
            (r.1 ++ t.1, t.2)
      | _ => ([], optind)

/-! ## su.h -/

def PORT : Nat := 3523

def AID_ROOT : Nat := 2000

def DEFAULT_SHELL : List Char := "/system/bin/sh".toList

def VERSION_CODE : Int := 16

def PROTO_VERSION : Int := 1

def EXIT_SUCCESS : Int := 0

def EXIT_FAILURE : Int := 1

/-- The contents of a cell of memory that holds a `char *`. -/
inductive Slot where
  /-- A pointer to a string. -/
  | ptr (s : List Char)
  /-- The null pointer. -/
  | null
  /-- Memory the program neither received nor wrote. -/
  | unknown
deriving DecidableEq, Repr

/-- The memory around the argument vector, addressed by the index relative to
`argv`: the array `argv[0..argc]` as it was received (`argv[argc]` is null), and
the stores the program has made since, newest first, at whatever index. -/
structure ArgMem where
  orig : List (List Char)
  writes : List (Int × List Char)
deriving DecidableEq, Repr

/-- The value of `argv[i]`. -/
def ArgMem.get (m : ArgMem) (i : Int) : Slot :=
  match m.writes.lookup i with
  | some v => .ptr v
  | none =>
      if i < 0 then .unknown
      else
        match m.orig[i.toNat]? with
        | some a => .ptr a
        | none => if i.toNat = m.orig.length then .null else .unknown

/-- The store `argv[i] = v`. -/
def ArgMem.set (m : ArgMem) (i : Int) (v : List Char) : ArgMem :=
  { m with writes := (i, v) :: m.writes }

/-- The strings of the null-terminated array that starts at `argv + i`, read
through at most `n` cells; `none` when a cell of unknown contents is reached. -/
def ArgMem.read : ArgMem → Nat → Int → Option (List (List Char))
  | _, 0, _ => none
  | m, n + 1, i =>
      match m.get i with
      | .ptr s => (ArgMem.read m n (i + 1)).map (fun t => s :: t)
      | .null => some []
      | .unknown => none

/-- The strings of the null-terminated array that starts at `argv + start`. -/
def ArgMem.vector (m : ArgMem) (start : Int) : Option (List (List Char)) :=
  m.read ((m.orig.length : Int) + 1 - start).toNat start

/-- The structure `su_initiator`. -/
structure su_initiator where
  pid : Int
  uid : Nat
  user : Nat
  name : List Char
  bin : List Char
  args : List Char
deriving DecidableEq, Repr

/-- The structure `su_request`; a null `shell` or `command` is `none`. -/
structure su_request where
  uid : Nat
  name : List Char
  login : Bool
  keepenv : Bool
  shell : Option (List Char)
  command : Option (List Char)
  argv : ArgMem
  argc : Int
  optind : Int
deriving DecidableEq, Repr

/-- The structure `su_user_info`. -/
structure su_user_info where
  android_user_id : Nat
deriving DecidableEq, Repr

/-- The structure `su_context`. -/
structure su_context where
  from_ : su_initiator
  to_ : su_request
  user : su_user_info
  umask : Nat
  sock_path : List Char
deriving DecidableEq, Repr

/-- The function `get_command` (su.h, lines 104-114); `none` when it reads a cell
of unknown contents. -/
def get_command (to_ : su_request) : Option (List Char) :=
  match to_.command with
  | some c => some c
  | none =>
      match to_.shell with
      | some s => some s
      | none =>
          match to_.argv.get to_.optind with
          | .ptr ret => some ret
          | .null => some DEFAULT_SHELL
          | .unknown => none

/-! ## su.c -/

/-- The identity of a process. -/
structure Creds where
  ruid : Nat
  euid : Nat
  rgid : Nat
  egid : Nat
deriving DecidableEq, Repr

/-- The state of the process that runs `su_main`. -/
structure SuProc where
  environ : Environ
  umask : Nat
  creds : Creds
deriving DecidableEq, Repr

/-- What `su_main` learns from its surroundings. -/
structure SuEnv where
  /-- The password database behind `getpwnam` and `getpwuid`. -/
  passwd_db : List passwd
  /-- The value of `getppid()`. -/
  ppid : Int
  /-- The return value of `fork` in `fork_for_samsung`. -/
  fork_ret : Int
  /-- The return value of `wait` in `fork_for_samsung`. -/
  wait_ret : Int
  /-- The wait status `wait` stores in `fork_for_samsung`. -/
  wait_status : Int
  /-- Whether `malloc` in `allow` returns a block. -/
  malloc_ok : Bool
deriving DecidableEq, Repr

/-- The call `execvp(binary, argv + start)` and the process state it is made in. -/
structure ExecCall where
  /-- The first argument of `execvp`. -/
  binary : List Char
  /-- The index, relative to the received vector, the second argument points to. -/
  start : Int
  /-- The strings of the null-terminated array the second argument points to. -/
  args : List (List Char)
  /-- The indices of the argument vector `allow` has stored to, in order. -/
  stores : List Int
  /-- The process state at the call. -/
  proc : SuProc
deriving DecidableEq, Repr

/-- How a run of `su_main` ends. -/
inductive SuResult where
  /-- The process called `exit(code)`. -/
  | exit (code : Int)
  /-- The process called `execvp`; when the call fails, `allow` goes on to
  `exit(EXIT_FAILURE)`. -/
  | exec (call : ExecCall)
  /-- The function returned the value of `run_daemon()`. -/
  | run_daemon
  /-- The function returned the value of `connect_daemon(argc, argv, ppid)`. -/
  | connect_daemon (argv : List (List Char)) (ppid : Int)
  /-- The process dereferenced a null pointer or read a cell of unknown contents. -/
  | undefined
deriving DecidableEq, Repr

/-- The function `populate_environment` (su.c, lines 45-63). -/
def populate_environment (ctx : su_context) (db : List passwd) (e : Environ) : Environ :=
  if ctx.to_.keepenv then e
  else
    match getpwuid db ctx.to_.uid with
    | some pw =>
        let e1 := setenv e "HOME".toList pw.pw_dir
        let e2 :=
          match ctx.to_.shell with
          | some sh => setenv e1 "SHELL".toList sh
          | none => setenv e1 "SHELL".toList DEFAULT_SHELL
        if ctx.to_.login ∨ ctx.to_.uid ≠ 0 then
          setenv (setenv e2 "USER".toList pw.pw_name) "LOGNAME".toList pw.pw_name
        else e2
    | none => e

/-- The function `fail` (su.c, lines 226-232). -/
def fail (_ctx : su_context) : SuResult := .exit EXIT_FAILURE

/-- The value `allow` computes for `arg0` (su.c, lines 259-271), or `none` when
`malloc` fails and it calls `exit(EXIT_FAILURE)`. -/
def allow_arg0 (binary : List Char) (login : Bool) (malloc_ok : Bool) : Option (List Char) :=
  let arg0 :=
    match strrchr binary '/' with
    | some p => p.tail
    | none => binary
  if login then
    if malloc_ok = false then none else some ('-' :: arg0)
  else some arg0

/-- The last steps of `allow` (su.c, lines 259-290), once `binary` is resolved,
the argument vector is `argv` and the local `argc` has the given value. -/
def allow_exec (ctx : su_context) (binary : List Char) (argv : ArgMem) (argc : Int)
    (stores : List Int) (p : SuProc) (env : SuEnv) : SuResult :=
  match allow_arg0 binary ctx.to_.login env.malloc_ok with
  | none => .exit EXIT_FAILURE
  | some arg0 =>
      let e := populate_environment ctx env.passwd_db p.environ
      let argv1 := argv.set (argc - 1) arg0
      match argv1.vector (argc - 1) with
      | none => .undefined
      | some args =>
          .exec { binary := binary, start := argc - 1, args := args,
                  stores := stores ++ [argc - 1],
                  proc := { p with environ := e } }

/-- The function `allow` (su.c, lines 234-291). -/
def allow (ctx : su_context) (p : SuProc) (env : SuEnv) : SuResult :=
  let p1 : SuProc := { p with umask := ctx.umask }
  let argc : Int := ctx.to_.optind
  match ctx.to_.command with
  | some command =>
      match ctx.to_.shell with
      | none => .undefined
      | some binary =>
          let argv1 := ctx.to_.argv.set (argc - 1) command
          let argv2 := argv1.set (argc - 2) "-c".toList
          allow_exec ctx binary argv2 (argc - 2) [argc - 1, argc - 2] p1 env
  | none =>
      match ctx.to_.shell with
      | some binary => allow_exec ctx binary ctx.to_.argv argc [] p1 env
      | none =>
          match ctx.to_.argv.get argc with
          | .ptr binary => allow_exec ctx binary ctx.to_.argv (argc + 1) [] p1 env
          | .null => allow_exec ctx DEFAULT_SHELL ctx.to_.argv argc [] p1 env
          | .unknown => .undefined

/-- The variables `unsec_vars` of `su_main` (su.c, lines 330-358). -/
def unsec_vars : List (List Char) :=
  ["GCONV_PATH", "GETCONF_DIR", "HOSTALIASES", "LD_AUDIT", "LD_DEBUG", "LD_DEBUG_OUTPUT",
   "LD_DYNAMIC_WEAK", "LD_LIBRARY_PATH", "LD_ORIGIN_PATH", "LD_PRELOAD", "LD_PROFILE",
   "LD_SHOW_AUXV", "LD_USE_LOAD_BIAS", "LOCALDOMAIN", "LOCPATH", "MALLOC_TRACE",
   "MALLOC_CHECK_", "NIS_PATH", "NLSPATH", "RESOLV_HOST_CONF", "RES_OPTIONS", "TMPDIR",
   "TZDIR", "LD_AOUT_LIBRARY_PATH", "LD_AOUT_PRELOAD", "IFS"].map String.toList

/-- The table `long_opts` of `su_main` (su.c, lines 394-402). -/
def long_opts : List long_option :=
  [{ name := "command".toList, has_arg := 1, val := 'c' },
   { name := "help".toList, has_arg := 0, val := 'h' },
   { name := "login".toList, has_arg := 0, val := 'l' },
   { name := "preserve-environment".toList, has_arg := 0, val := 'p' },
   { name := "shell".toList, has_arg := 1, val := 's' },
   { name := "version".toList, has_arg := 0, val := 'v' }]

/-- The context `su_main` starts from (su.c, lines 368-390); members the
initialiser does not name are zero. -/
def su_main_context (argv : List (List Char)) : su_context :=
  { from_ := { pid := -1, uid := 2000, user := 0, name := [], bin := [], args := [] },
    to_ := { uid := 2000, name := [], login := false, keepenv := false, shell := none,
             command := none, argv := { orig := argv, writes := [] },
             argc := argv.length, optind := 0 },
    user := { android_user_id := 0 },
    umask := 0,
    sock_path := [] }

/-- The body of the loop over `getopt_long` in `su_main` (su.c, lines 404-433),
run on the successive return values: the request afterwards, or the code the
process exits with. -/
def su_main_options : su_request → List (Char × Option (List Char)) → Except Int su_request
  | to_, [] => .ok to_
  | to_, (c, optarg) :: rest =>
      if c = 'c' then
        su_main_options { to_ with shell := some DEFAULT_SHELL, command := optarg } rest
      else if c = 'h' then .error EXIT_SUCCESS
      else if c = 'l' then su_main_options { to_ with login := true } rest
      else if c = 'm' ∨ c = 'p' then su_main_options { to_ with keepenv := true } rest
      else if c = 's' then su_main_options { to_ with shell := optarg } rest
      else if c = 'V' then .error EXIT_SUCCESS
      else if c = 'v' then .error EXIT_SUCCESS
      else .error 2

/-- The part of `su_main` between the option loop and the call of `allow` (su.c,
lines 440-469): the login dash, the target user and the `--` separator.  Takes
the request and `optind` after the option loop. -/
def su_main_target (to_ : su_request) (argv : List (List Char)) (optind : Nat)
    (env : SuEnv) : Except Int su_request :=
  let dash := decide (optind < argv.length) && strcmp_eq (argv.getD optind []) "-".toList
  let to1 := if dash then { to_ with login := true } else to_
  let optind1 := if dash then optind + 1 else optind
  let named := decide (optind1 < argv.length) &&
    !strcmp_eq (argv.getD optind1 []) "--".toList
  let r : Except Int su_request :=
    if named then
      match getpwnam env.passwd_db (argv.getD optind1 []) with
      | none =>
          let n := strtoul (argv.getD optind1 [])
          if n.2.1 ∨ n.2.2 ≠ [] then .error EXIT_FAILURE
          else .ok { to1 with uid := n.1 % 4294967296 }
      | some pw => .ok { to1 with uid := pw.pw_uid % 4294967296, name := pw.pw_name.take 64 }
    else .ok to1
  let optind2 := if named then optind1 + 1 else optind1
  let sep := decide (optind2 < argv.length) && strcmp_eq (argv.getD optind2 []) "--".toList
  let optind3 := if sep then optind2 + 1 else optind2
  match r with
  | .error c => .error c
  | .ok to2 => .ok { to2 with optind := optind3 }

/-- The function `su_main` (su.c, lines 319-475), followed in the process that
goes on after `fork_for_samsung`.  The statements after the call of `allow`,
which does not return, are `su_main_handshake` and `su_main_finish`. -/
def su_main (argv : List (List Char)) (need_client : Bool) (p : SuProc) (env : SuEnv) :
    SuResult :=
  if argv.length = 2 ∧ strcmp_eq (argv.getD 1 []) "--daemon".toList then .run_daemon
  else if env.fork_ret = -1 then .exit 1
  else if env.fork_ret ≠ 0 then
    (if env.wait_ret < 0 then .exit 1 else .exit (WEXITSTATUS env.wait_status))
  else
    let p1 : SuProc := { p with environ := unsec_vars.foldl unsetenv p.environ }
    let ctx := su_main_context argv
    let g := getopt_scan "c:hlmps:Vv".toList long_opts (argv.drop 1) 1
    match su_main_options ctx.to_ g.1 with
    | .error c => .exit c
    | .ok to1 =>
        if need_client then .connect_daemon argv env.ppid
        else
          match su_main_target to1 argv g.2 env with
          | .error c => .exit c
          | .ok to2 => allow { ctx with to_ := to2 } p1 env

/-- Which of `allow` and `fail` the last statements of `su_main` call. -/
inductive Verdict where
  | grant
  | deny
deriving DecidableEq, Repr

/-- The macro `SOCKET_RESPONSE` (su.c, line 530). -/
def SOCKET_RESPONSE : List Char := "socket:".toList

/-- The choice made by the last statements of `su_main` (su.c, lines 528-543)
from the buffer `socket_receive_result` filled: `grant` when they call `allow`,
`deny` when they call `fail`. -/
def su_main_verdict (buf : List Char) : Verdict :=
  let result :=
    if strncmp_eq buf SOCKET_RESPONSE SOCKET_RESPONSE.length = false then buf
    else buf.drop SOCKET_RESPONSE.length
  if strcmp_eq result "fail".toList then .deny
  else if strcmp_eq result "ALLOW".toList then .grant
  else .deny

/-- The last statements of `su_main` (su.c, lines 528-543).  They follow the
unconditional call of `allow` at line 474, which does not return. -/
def su_main_finish (ctx : su_context) (buf : List Char) (p : SuProc) (env : SuEnv) :
    SuResult :=
  match su_main_verdict buf with
  | .grant => allow ctx p env
  | .deny => fail ctx

/-! ## Listening sockets -/

def AF_INET : Nat := 2

/-- The address `INADDR_ANY`, 0.0.0.0: a socket bound to it accepts connections
addressed to every address of the host. -/
def INADDR_ANY : Nat := 0

/-- The number a run of decimal digits denotes. -/
def decimal_value (s : List Char) : Nat :=
  s.foldl (fun acc c => acc * 10 + (c.toNat - '0'.toNat)) 0

/-- The fields of a dotted address, given the characters of the current field. -/
def dotted_fields : List Char → List Char → List (List Char)
  | [], cur => [cur]
  | c :: rest, cur => if c = '.' then cur :: dotted_fields rest [] else dotted_fields rest (cur ++ [c])

/-- The function `inet_addr` on a dotted quad `a.b.c.d`: the IPv4 address as
the number `a * 2^24 + b * 2^16 + c * 2^8 + d`. -/
def inet_addr (s : List Char) : Nat :=
  (dotted_fields s []).foldl (fun acc f => acc * 256 + decimal_value f) 0

/-- The parts of `struct sockaddr_in`, as the address and the port they denote
(the byte swaps of `htons` and `inet_addr` are left out). -/
structure sockaddr_in where
  sin_family : Nat
  sin_port : Nat
  sin_addr : Nat
deriving DecidableEq, Repr

/-- Whether a socket bound to `local_addr` receives a connection addressed to the
address `dest` and the port `port`. -/
def bound_to (local_addr : sockaddr_in) (dest port : Nat) : Bool :=
  decide (local_addr.sin_port = port) &&
    (decide (local_addr.sin_addr = INADDR_ANY) || decide (local_addr.sin_addr = dest))

/-- Outcomes of the calls that set up a listening socket. -/
structure SocketEnv where
  /-- The return value of `socket`. -/
  socket_ret : Int
  /-- Whether `fcntl(fd, F_SETFD, FD_CLOEXEC)` returns 0. -/
  cloexec_ok : Bool
  /-- Whether `bind` succeeds. -/
  bind_ok : Bool
  /-- Whether `listen` succeeds. -/
  listen_ok : Bool
deriving DecidableEq, Repr

/-- The function `socket_create_temp` (su.c, lines 89-121): the value returned
and, when `bind` was reached, the address passed to it. -/
def socket_create_temp (k : SocketEnv) : Int × Option sockaddr_in :=
  let fd := k.socket_ret
  if fd < 0 then (-1, none)
  else if k.cloexec_ok = false then (-1, none)
  else
    let sun : sockaddr_in := { sin_family := AF_INET, sin_addr := INADDR_ANY, sin_port := PORT }
    if k.bind_ok = false then (-1, some sun)
    else if k.listen_ok = false then (-1, some sun)
    else (fd, some sun)

/-- The part of `run_daemon` that sets up the listening socket (daemon.c, lines
394-421): the descriptor, or -1 when the function returns -1 at this stage, and,
when `bind` was reached, the address passed to it. -/
def run_daemon_listen (k : SocketEnv) : Int × Option sockaddr_in :=
  let fd := k.socket_ret
  if fd < 0 then (-1, none)
  else if k.cloexec_ok = false then (-1, none)
  else
    let sun : sockaddr_in := { sin_family := AF_INET, sin_addr := INADDR_ANY, sin_port := PORT }
    if k.bind_ok = false then (-1, some sun)
    else if k.listen_ok = false then (-1, some sun)
    else (fd, some sun)

/-- The address `connect_daemon` passes to `connect` (daemon.c, lines 521-525). -/
def connect_daemon_addr : sockaddr_in :=
  { sin_family := AF_INET, sin_port := PORT, sin_addr := inet_addr "127.0.0.1".toList }

/-! ## Signal handlers -/

/-- Signal numbers of `<signal.h>` on Linux. -/
def SIGHUP : Int := 1

def SIGINT : Int := 2

def SIGQUIT : Int := 3

def SIGABRT : Int := 6

def SIGPIPE : Int := 13

def SIGALRM : Int := 14

def SIGTERM : Int := 15

/-- The array `quit_signals` (daemon.c, line 450), without its terminating 0. -/
def quit_signals : List Int := [SIGALRM, SIGHUP, SIGPIPE, SIGQUIT, SIGTERM, SIGINT]

/-- The part of a process that the signal handlers read and write. -/
structure SigProc where
  /-- The context the global pointer `su_ctx` points to, `none` when it is null. -/
  su_ctx : Option su_context
  /-- The paths passed to `unlink` so far. -/
  unlinked : List (List Char)
  /-- Whether `atexit(cleanup)` has been called. -/
  atexit_cleanup : Bool
  /-- Modelled from the spec: the terminal mode that `restore_stdin` of `pts.c`,
  which is not among the sources, puts back; the spec gives it as terminal mode
  restoration.  Whether stdin is still in raw mode. -/
  stdin_raw : Bool
  /-- The open descriptors. -/
  fds : List Int
  /-- The signals whose disposition is a handler of this program. -/
  caught : List Int
deriving DecidableEq, Repr

/-- How a signal handler ends: in `exit`, or by returning to the interrupted
code. -/
inductive HandlerResult where
  | exited (code : Int) (s : SigProc)
  | returned (s : SigProc)
deriving DecidableEq, Repr

/-- The exit status with which a handler terminates the process, `none` when the
handler returns. -/
def HandlerResult.status : HandlerResult → Option Int
  | .exited code _ => some (exit_status code)
  | .returned _ => none

/-- The function `socket_cleanup` (su.c, lines 65-71), called on the context
`su_ctx` points to. -/
def socket_cleanup (s : SigProc) : SigProc :=
  match s.su_ctx with
  | none => s
  | some ctx =>
      if ctx.sock_path.head? ≠ none ∧ ctx.sock_path.head? ≠ some (Char.ofNat 0) then
        { s with
          unlinked := s.unlinked ++ [c_str ctx.sock_path],
          su_ctx := some { ctx with sock_path := Char.ofNat 0 :: ctx.sock_path.tail } }
      else s

/-- The function `cleanup` (su.c, lines 80-82). -/
def cleanup (s : SigProc) : SigProc := socket_cleanup s

/-- The call `exit(code)`: the function registered with `atexit` runs first. -/
def sys_exit (code : Int) (s : SigProc) : HandlerResult :=
  .exited code (if s.atexit_cleanup then cleanup s else s)

/-- The function `cleanup_signal` (su.c, lines 84-87). -/
def cleanup_signal (sig : Int) (s : SigProc) : HandlerResult :=
  sys_exit (128 + sig) (socket_cleanup s)

/-- The function `sighandler` (daemon.c, lines 452-478): it restores the terminal
mode, closes the three standard streams, gives every signal of `quit_signals` its
default disposition, and returns. -/
def sighandler (_sig : Int) (s : SigProc) : HandlerResult :=
  let s1 := { s with stdin_raw := false }
  let s2 := { s1 with fds := s1.fds.filter (fun fd => fd ≠ STDIN_FILENO) }
  let s3 := { s2 with fds := s2.fds.filter (fun fd => fd ≠ STDOUT_FILENO) }
  let s4 := { s3 with fds := s3.fds.filter (fun fd => fd ≠ STDERR_FILENO) }
  .returned (quit_signals.foldl (fun t q => { t with caught := t.caught.filter (fun c => c ≠ q) }) s4)

/-! ## su.c: the handshake with the authority -/

/-- The behaviour of the authority and of the calls of the handshake in `su_main`
(su.c, lines 476-526). -/
structure AuthorityEnv where
  /-- The member `st_uid` of the local `st`, which no statement initialises:
  whatever the memory holds. -/
  st_uid : Nat
  /-- The member `st_gid` of the local `st`, which no statement initialises. -/
  st_gid : Nat
  /-- Whether `setgroups(0, NULL)` returns 0. -/
  setgroups_ok : Bool
  /-- Whether `setegid(st.st_gid)` returns 0. -/
  setegid_ok : Bool
  /-- Whether `seteuid(st.st_uid)` returns 0. -/
  seteuid_ok : Bool
  /-- The outcomes of the calls in `socket_create_temp`. -/
  sock : SocketEnv
  /-- The last return value of `select` in `socket_accept`: less than 1 when no
  connection has arrived within 20 seconds, or on an error. -/
  select_ret : Int
  /-- The return value of `accept`. -/
  accept_ret : Int
  /-- Whether the calls of `write` in `socket_send_request` write all their
  bytes; when not, the first one fails. -/
  write_ok : Bool
  /-- The bytes the authority answers with, `none` when `read` in
  `socket_receive_result` fails. -/
  response : Option (List Char)
deriving DecidableEq, Repr

/-- A value `socket_send_request` writes: a number printed with `%d`, or a string. -/
inductive Token where
  | num (v : Int)
  | str (s : List Char)
deriving DecidableEq, Repr

/-- A step of the handshake that reaches outside the process. -/
inductive HandshakeStep where
  /-- The call of `socket_create_temp` and its return value. -/
  | create (ret : Int)
  /-- The call of `socket_accept` and its return value. -/
  | accept (ret : Int)
  /-- The call of `socket_send_request` and the pairs it has written. -/
  | send (pairs : List (List Char × Token))
  /-- The call of `socket_receive_result` and the buffer it has filled, `none`
  when `read` failed. -/
  | receive (buf : Option (List Char))
deriving DecidableEq, Repr

/-- The function `socket_accept` (su.c, lines 123-147). -/
def socket_accept (a : AuthorityEnv) : Int :=
  if a.select_ret < 1 then -1
  else if a.accept_ret < 0 then -1
  else a.accept_ret

/-- The function `socket_send_request` (su.c, lines 149-192): the return value
and the pairs of name and value written, each as a length and the bytes; `none`
when `get_command` reads a cell of unknown contents. -/
def socket_send_request (write_ok : Bool) (ctx : su_context) :
    Option (Int × List (List Char × Token)) :=
  if write_ok = false then some (-1, [])
  else
    match get_command ctx.to_ with
    | none => none
    | some command =>
        some (0,
          [("version".toList, .num PROTO_VERSION),
           ("binary.version".toList, .num VERSION_CODE),
           ("pid".toList, .num ctx.from_.pid),
           ("from.name".toList, .str (c_str ctx.from_.name)),
           ("to.name".toList, .str (c_str ctx.to_.name)),
           ("from.uid".toList, .num (to_int32 ctx.from_.uid)),
           ("to.uid".toList, .num (to_int32 ctx.to_.uid)),
           ("from.bin".toList, .str (c_str ctx.from_.bin)),
           ("command".toList, .str (c_str command)),
           ("eof".toList, .num PROTO_VERSION)])

/-- The function `socket_receive_result` (su.c, lines 194-207) with the buffer
of 64 bytes `su_main` passes: the return value and the string in the buffer. -/
def socket_receive_result (response : Option (List Char)) : Int × List Char :=
  match response with
  | none => (-1, [])
  | some r => (0, r.take 63)

/-- The statements of `su_main` after the call `allow(&ctx)` (su.c, lines
476-543), with the steps of the handshake they take.  The calls of `signal`,
`atexit` and `close`, and `socket_cleanup` on the path that is never set, change
neither the result nor the steps and are left out. -/
def su_main_handshake (ctx : su_context) (a : AuthorityEnv) (p : SuProc) (env : SuEnv) :
    SuResult × List HandshakeStep :=
  if a.st_gid ≠ a.st_uid then (fail ctx, [])
  else
    let ctx1 : su_context := { ctx with umask := p.umask }
    let p1 : SuProc := { p with umask := 23 }
    if a.setgroups_ok = false then (fail ctx1, [])
    else if a.setegid_ok = false then (fail ctx1, [])
    else
      let p2 : SuProc := { p1 with creds := { p1.creds with egid := a.st_gid } }
      if a.seteuid_ok = false then (fail ctx1, [])
      else
        let p3 : SuProc := { p2 with creds := { p2.creds with euid := a.st_uid } }
        let socket_serv_fd := (socket_create_temp a.sock).1
        if socket_serv_fd < 0 then (fail ctx1, [.create socket_serv_fd])
        else
          let fd := socket_accept a
          if fd < 0 then (fail ctx1, [.create socket_serv_fd, .accept fd])
          else
            match socket_send_request a.write_ok ctx1 with
            | none => (.undefined, [.create socket_serv_fd, .accept fd])
            | some sent =>
                if sent.1 ≠ 0 then
                  (fail ctx1, [.create socket_serv_fd, .accept fd, .send sent.2])
                else
                  let r := socket_receive_result a.response
                  if r.1 ≠ 0 then
                    (fail ctx1,
                      [.create socket_serv_fd, .accept fd, .send sent.2, .receive none])
                  else
                    (su_main_finish ctx1 r.2 p3 env,
                      [.create socket_serv_fd, .accept fd, .send sent.2,
                       .receive (some r.2)])

/-- How a call ends, seen from the statement that follows it: it has ended the
process (in `exit`, in `execvp`, or in undefined behaviour), or it has
returned. -/
inductive Flow where
  | ended (r : SuResult)
  | returned
deriving DecidableEq, Repr

/-- The call `allow(&ctx)` as a statement.  Every path through `allow` (su.c,
lines 234-291) ends in `exit`, or in `execvp` followed by `exit`; the function,
declared `noreturn`, has no path that returns. -/
def allow_call (ctx : su_context) (p : SuProc) (env : SuEnv) : Flow :=
  .ended (allow ctx p env)

/-- The function `su_main` (su.c, lines 319-544) with the statements that follow
the call `allow(&ctx)`, and the steps of the handshake taken. -/
def su_main_text (argv : List (List Char)) (need_client : Bool) (p : SuProc) (env : SuEnv)
    (a : AuthorityEnv) : SuResult × List HandshakeStep :=
  if argv.length = 2 ∧ strcmp_eq (argv.getD 1 []) "--daemon".toList then (.run_daemon, [])
  else if env.fork_ret = -1 then (.exit 1, [])
  else if env.fork_ret ≠ 0 then
    (if env.wait_ret < 0 then (.exit 1, []) else (.exit (WEXITSTATUS env.wait_status), []))
  else
    let p1 : SuProc := { p with environ := unsec_vars.foldl unsetenv p.environ }
    let ctx := su_main_context argv
    let g := getopt_scan "c:hlmps:Vv".toList long_opts (argv.drop 1) 1
    match su_main_options ctx.to_ g.1 with
    | .error c => (.exit c, [])
    | .ok to1 =>
        if need_client then (.connect_daemon argv env.ppid, [])
        else
          match su_main_target to1 argv g.2 env with
          | .error c => (.exit c, [])
          | .ok to2 =>
              match allow_call { ctx with to_ := to2 } p1 env with
              | .ended r => (r, [])
              | .returned => su_main_handshake { ctx with to_ := to2 } a p1 env

/-! ## Definitions used to state the properties -/

/-- What a process has sent on the connection between two of its states. -/
def delivered (before after : Proc) : List Cell := after.outbox.drop before.outbox.length

/-- The byte `send_fd` puts on the wire for `fd`: it carries the file when `fd`
is not the sentinel and is open in the sender. -/
def fd_cell (s : Proc) (fd : Int) : Cell :=
  if fd ≠ -1 ∧ fd ∈ s.fds then { byte := 0, rights := some fd } else Cell.plain 0

/-- Whether `connect_daemon` sends the stream `fd` as a descriptor: the bit of the
stream is clear in `atty` and the descriptor is open. -/
def stream_present (s : Proc) (atty bit : Nat) (fd : Int) : Bool :=
  decide (atty &&& bit = 0) && decide (fd ∈ s.fds)

/-- The request `connect_daemon` sends, as the wire protocol of the spec words
it: `int pid; string pts_slave; int uid; int req_pid; fd stdin; fd stdout;
fd stderr; int argc; string argv[argc]`. -/
def wire_request (env : ClientEnv) (atty : Nat) (pts_slave : List Nat)
    (argv : List (List Nat)) (ppid : Int) (s : Proc) : List Cell :=
  wire_int s.order env.pid ++ wire_string s.order pts_slave ++ wire_int s.order env.uid ++
    wire_int s.order ppid ++
    [fd_cell s (if atty &&& ATTY_IN ≠ 0 then -1 else STDIN_FILENO),
     fd_cell s (if atty &&& ATTY_OUT ≠ 0 then -1 else STDOUT_FILENO),
     fd_cell s (if atty &&& ATTY_ERR ≠ 0 then -1 else STDERR_FILENO)] ++
    wire_int s.order argv.length ++ wire_args s.order argv

/-- The request with which `su_main`, in worker mode, reaches the call of `allow`
(su.c, lines 404-469), or the code it exits with before: the option loop followed
by the resolution of the target. -/
def su_main_request (argv : List (List Char)) (env : SuEnv) : Except Int su_request :=
  match su_main_options (su_main_context argv).to_
      (getopt_scan "c:hlmps:Vv".toList long_opts (argv.drop 1) 1).1 with
  | .error c => .error c
  | .ok to1 =>
      su_main_target to1 argv (getopt_scan "c:hlmps:Vv".toList long_opts (argv.drop 1) 1).2 env

/-- The response with one leading `socket:` removed when it starts with it, as
the spec words the interpretation of the response. -/
def strip_socket (r : List Char) : List Char :=
  if SOCKET_RESPONSE <+: r then r.drop SOCKET_RESPONSE.length else r

/-- A password database with the accounts `root` (uid 0) and `shell` (uid 2000). -/
def sample_passwd : List passwd :=
  [{ pw_name := "root".toList, pw_uid := 0, pw_dir := "/".toList },
   { pw_name := "shell".toList, pw_uid := 2000, pw_dir := "/data".toList }]

/-- Surroundings of `su_main` in which the process is the child of
`fork_for_samsung` and `malloc` succeeds. -/
def sample_su_env : SuEnv :=
  { passwd_db := sample_passwd, ppid := 1, fork_ret := 0, wait_ret := 0, wait_status := 0,
    malloc_ok := true }

/-- A process with the variables `USER=u0` and `IFS=x`, umask 022 and the
identity of root. -/
def sample_su_proc : SuProc :=
  { environ := [("USER".toList, "u0".toList), ("IFS".toList, "x".toList)], umask := 18,
    creds := { ruid := 0, euid := 0, rgid := 0, egid := 0 } }

/-! ## Sample inputs for the closed instances -/

/-- A daemon-side process on a little-endian host with the given bytes waiting. -/
def sample_proc (inbox : List Cell) : Proc :=
  { order := .little, inbox := inbox, outbox := [], fds := [0, 1, 2],
    heap_free := 1048576, mallocs := [] }

/-- A daemon environment in which every call succeeds and the process is the
parent of a child that exited with status 3. -/
def sample_daemon_env : DaemonEnv :=
  { peercred_ok := true, fork_ret := 77, waitpid_ret := 77, wait_status := 768,
    open_ok := true }

/-- The fixed fields of a request: pid 4321, no PTY, uid 10001, request pid 4320,
no stdin, the sender's descriptor 1 as stdout, no stderr. -/
def sample_header : List Cell :=
  wire_int .little 4321 ++ wire_string .little [] ++ wire_int .little 10001 ++
    wire_int .little 4320 ++
    [Cell.plain 0, { byte := 0, rights := some 1 }, Cell.plain 0]

/-- A client process on a little-endian host with its three standard streams open
and nothing sent yet. -/
def sample_client : Proc :=
  { order := .little, inbox := [], outbox := [], fds := [0, 1, 2], heap_free := 1048576,
    mallocs := [] }

/-- A client environment: pid 4321, uid 10001, no terminal on any stream. -/
def sample_client_env : ClientEnv :=
  { pid := 4321, uid := 10001, connect_ok := true, send_tty := false, isatty_in := false,
    isatty_out := false, isatty_err := false, pts_open := none }

/-- The program and the vector of the `execvp` call a run ends in, when it ends
in one. -/
def exec_summary (r : SuResult) : Option (List Char × List (List Char)) :=
  match r with
  | .exec call => some (call.binary, call.args)
  | _ => none

/-- The start index passed to `execvp` and the indices `allow` has stored to, for
a run that ends in `execvp`. -/
def exec_bounds (r : SuResult) : Option (Int × List Int) :=
  match r with
  | .exec call => some (call.start, call.stores)
  | _ => none

/-- Worker-mode `su_main` on the given words, in the sample surroundings. -/
def sample_run (words : List String) : Option (List String × List (List String)) :=
  (exec_summary (su_main (words.map String.toList) false sample_su_proc sample_su_env)).map
    (fun r => ([String.mk r.1], [r.2.map String.mk]))

/-- A string of exactly `PATH_MAX` bytes, none of them NUL. -/
def sample_long : List Nat := List.replicate PATH_MAX 97

/-- A reader whose unread input is what `sample_client` writes for the string
`a`, followed by one more byte. -/
def sample_reader (a : List Nat) : Proc :=
  sample_proc (delivered sample_client (write_string sample_client a).state ++ [Cell.plain 7])

/-- A request for the worker child: pid 4321, the slave path `/p` (bytes 47,
112), uid 10001, request pid 4320, no stdin, the sender's descriptor 1 as
stdout, no stderr, and the one argument `su`. -/
def sample_pty_request : List Cell :=
  wire_int .little 4321 ++ wire_string .little [47, 112] ++ wire_int .little 10001 ++
    wire_int .little 4320 ++
    [Cell.plain 0, { byte := 0, rights := some 1 }, Cell.plain 0] ++
    wire_int .little 1 ++ wire_args .little [[115, 117]]

/-- A daemon environment in which every call succeeds and the process is the
worker child. -/
def sample_child_env : DaemonEnv :=
  { peercred_ok := true, fork_ret := 0, waitpid_ret := 0, wait_status := 0,
    open_ok := true }

/-- A client environment with a terminal on stdin and stderr, no override, and a
PTY whose master is descriptor 5 and whose slave path is `/p`. -/
def sample_tty_env : ClientEnv :=
  { pid := 4321, uid := 10001, connect_ok := true, send_tty := false, isatty_in := true,
    isatty_out := false, isatty_err := true, pts_open := some (5, [47, 112]) }

/-- A process with the handshake socket path `/s` recorded, the exit hook
registered, stdin in raw mode, the standard streams and a connection open, and
the handlers installed for the termination signals. -/
def sample_sig_proc : SigProc :=
  { su_ctx := some { su_main_context ["su".toList] with sock_path := "/s".toList },
    unlinked := [], atexit_cleanup := true, stdin_raw := true, fds := [0, 1, 2, 3],
    caught := [SIGHUP, SIGINT, SIGQUIT, SIGABRT, SIGPIPE, SIGALRM, SIGTERM] }

/-- A process started from a set-uid binary by uid 10001: the real ids are the
caller's, the effective ids are 0. -/
def sample_setuid_proc : SuProc :=
  { sample_su_proc with creds := { ruid := 10001, euid := 0, rgid := 10001, egid := 0 } }

/-- The context with the target uid of the request replaced by `uid`. -/
def with_uid (ctx : su_context) (uid : Nat) : su_context :=
  { ctx with to_ := { ctx.to_ with uid := uid } }

/-- The call `su -p 0` ends in when run in `sample_setuid_proc`. -/
def sample_keepenv_call : ExecCall :=
  { binary := DEFAULT_SHELL, start := 2, args := ["sh".toList], stores := [2],
    proc := { environ := [("USER".toList, "u0".toList)], umask := 0,
              creds := { ruid := 10001, euid := 0, rgid := 10001, egid := 0 } } }

/-- An authority that connects and gives the response `r`, with every call of
the handshake succeeding. -/
def sample_authority (r : List Char) : AuthorityEnv :=
  { st_uid := 0, st_gid := 0, setgroups_ok := true, setegid_ok := true, seteuid_ok := true,
    sock := { socket_ret := 3, cloexec_ok := true, bind_ok := true, listen_ok := true },
    select_ret := 1, accept_ret := 4, write_ok := true, response := some r }

/-- An authority that does not connect within 20 seconds. -/
def sample_silent_authority : AuthorityEnv :=
  { sample_authority [] with select_ret := 0, response := none }

/-- The request worker-mode `su_main` has parsed from `su -c id` when it calls
`allow`. -/
def sample_request : su_request :=
  { uid := 2000, name := [], login := false, keepenv := false,
    shell := some DEFAULT_SHELL, command := some "id".toList,
    argv := { orig := ["su".toList, "-c".toList, "id".toList], writes := [] },
    argc := 3, optind := 3 }

/-- The context of `su -c id` at the call of `allow`. -/
def sample_request_ctx : su_context :=
  { su_main_context ["su".toList, "-c".toList, "id".toList] with to_ := sample_request }

/-! # Theorems -/

/-! ## Sequencing -/

@[simp] theorem Res.bind_ret {α β : Type} (a : α) (s : Proc) (k : α → Proc → Res β) :
    (Res.ret a s).bind k = k a s := rfl

@[simp] theorem Res.bind_exit {α β : Type} (c : Int) (s : Proc) (k : α → Proc → Res β) :
    (Res.exit c s : Res α).bind k = .exit c s := rfl

@[simp] theorem Res.bind_fault {α β : Type} (s : Proc) (k : α → Proc → Res β) :
    (Res.fault s : Res α).bind k = .fault s := rfl

/-! ## The integer codec -/

theorem int_bytes_length (bo : ByteOrder) (v : Int) : (int_bytes bo v).length = 4 := by
  cases bo <;> simp [int_bytes]

theorem bytes_int_int_bytes (bo : ByteOrder) (v : Int)
    (hlo : INT32_MIN ≤ v) (hhi : v ≤ INT32_MAX) : bytes_int bo (int_bytes bo v) = v := by
  simp only [INT32_MIN, INT32_MAX] at hlo hhi
  cases bo <;> simp only [int_bytes, bytes_int, to_int32] <;> omega

/-- What `read_int` does when at least four bytes are waiting. -/
theorem read_int_cons (s : Proc) (c0 c1 c2 c3 : Cell) (rest : List Cell)
    (hin : s.inbox = c0 :: c1 :: c2 :: c3 :: rest) :
    read_int s =
      .ret (bytes_int s.order [c0.byte, c1.byte, c2.byte, c3.byte]) { s with inbox := rest } := by
  simp [read_int, sys_read, sizeof_int, hin]

/-! ## The codec on well-formed input -/

theorem wire_int_length (bo : ByteOrder) (v : Int) : (wire_int bo v).length = 4 := by
  simp [wire_int, int_bytes_length]

theorem map_byte_plain (l : List Nat) : (l.map Cell.plain).map Cell.byte = l := by
  induction l with
  | nil => rfl
  | cons b t ih => simp [Cell.plain, ih]

/-- The function `read_int` returns an integer that was written in host order. -/
theorem read_int_wire (s : Proc) (v : Int) (rest : List Cell)
    (hin : s.inbox = wire_int s.order v ++ rest)
    (hlo : INT32_MIN ≤ v) (hhi : v ≤ INT32_MAX) :
    read_int s = .ret v { s with inbox := rest } := by
  have h4 : (wire_int s.order v).length = 4 := wire_int_length _ _
  have ht : List.take 4 (wire_int s.order v ++ rest) = wire_int s.order v := by
    rw [List.take_append_of_le_length (by omega), List.take_of_length_le (by omega)]
  have hd : List.drop 4 (wire_int s.order v ++ rest) = rest := by
    rw [List.drop_append_of_le_length (by omega), List.drop_of_length_le (by omega)]
    rfl
  simp only [read_int, sys_read, sizeof_int, hin, ht, hd]
  simp only [wire_int, map_byte_plain, int_bytes_length]
  simp [bytes_int_int_bytes _ _ hlo hhi]

/-- The function `read_string` returns a string of admissible length that was
written as length and bytes, and leaves what follows unread. -/
theorem read_string_wire (s : Proc) (a : List Nat) (rest : List Cell)
    (hin : s.inbox = wire_string s.order a ++ rest)
    (hlen : a.length ≤ PATH_MAX) (hheap : a.length + 1 ≤ s.heap_free) :
    read_string s =
      .ret a { s with inbox := rest, heap_free := s.heap_free - (a.length + 1),
                      mallocs := s.mallocs ++ [a.length + 1] } := by
  have hP : PATH_MAX = 4096 := rfl
  have hr := read_int_wire s (a.length : Int) (a.map Cell.plain ++ rest)
    (by rw [hin, wire_string, List.append_assoc])
    (by simp only [INT32_MIN]; omega) (by simp only [INT32_MAX]; omega)
  rw [read_string, hr]
  have h1 : ¬ ((a.length : Int) > (PATH_MAX : Nat) ∨ (a.length : Int) < 0) := by omega
  simp only [Res.bind_ret, h1, if_false, Int.toNat_ofNat, sys_malloc, hheap, if_true,
    sys_read]
  have hb : List.map (Cell.byte ∘ Cell.plain) a = a := by
    rw [← List.map_map, map_byte_plain]
  simp [hb]

/-- The loop of `read_string` calls returns a sequence of strings of admissible
length that was written one after the other. -/
theorem read_args_wire (args : List (List Nat)) :
    ∀ (s : Proc) (rest : List Cell),
      s.inbox = wire_args s.order args ++ rest →
      (∀ a ∈ args, a.length ≤ PATH_MAX) →
      (args_blocks args).sum ≤ s.heap_free →
      read_args args.length s =
        .ret args { s with inbox := rest,
                           heap_free := s.heap_free - (args_blocks args).sum,
                           mallocs := s.mallocs ++ args_blocks args } := by
  induction args with
  | nil =>
      intro s rest hin _ _
      simp [read_args, wire_args, args_blocks] at *
      cases s
      simp_all
  | cons a t ih =>
      intro s rest hin hlen hheap
      simp only [args_blocks, List.map_cons, List.sum_cons] at hheap
      have ha := read_string_wire s a (wire_args s.order t ++ rest)
        (by rw [hin, wire_args, List.append_assoc]) (hlen a (by simp)) (by omega)
      have ht := ih { s with inbox := wire_args s.order t ++ rest,
                             heap_free := s.heap_free - (a.length + 1),
                             mallocs := s.mallocs ++ [a.length + 1] } rest rfl
        (fun b hb => hlen b (by simp [hb])) (by simp only [args_blocks]; omega)
      simp only [List.length_cons, read_args, ha, Res.bind_ret, ht]
      simp only [args_blocks, List.map_cons, List.sum_cons, List.append_assoc,
        List.singleton_append]
      congr 2
      omega

/-- The loop of `read_string` calls returns as many strings as it was asked for,
whenever it returns. -/
theorem read_args_length (n : Nat) :
    ∀ (s s1 : Proc) (argv : List (List Nat)),
      read_args n s = .ret argv s1 → argv.length = n := by
  induction n with
  | zero =>
      intro s s1 argv h
      simp [read_args] at h
      simp [h.1.symm]
  | succ k ih =>
      intro s s1 argv h
      simp only [read_args] at h
      cases hr : read_string s with
      | ret a s2 =>
          rw [hr] at h
          simp only [Res.bind_ret] at h
          cases ht : read_args k s2 with
          | ret t s3 =>
              rw [ht] at h
              simp only [Res.bind_ret, Res.ret.injEq] at h
              rw [← h.1]
              simp [ih s2 s3 t ht]
          | exit c s3 => rw [ht] at h; simp at h
          | fault s3 => rw [ht] at h; simp at h
      | exit c s2 => rw [hr] at h; simp at h
      | fault s2 => rw [hr] at h; simp at h


/-! ## C1: `read_string` rejects a bad length -/

/-- C1. When the first four bytes waiting on the connection decode, in host byte
order, to a length that is negative or greater than `PATH_MAX`, `read_string`
calls `exit(-1)`, whose status 255 is not zero, in a state that differs from the
initial one only by the four length bytes having been consumed: no block has
been allocated and no payload byte has been read. -/
theorem read_string_rejects_bad_length (s : Proc) (c0 c1 c2 c3 : Cell) (rest : List Cell)
    (hin : s.inbox = c0 :: c1 :: c2 :: c3 :: rest)
    (hlen : bytes_int s.order [c0.byte, c1.byte, c2.byte, c3.byte] < 0 ∨
      bytes_int s.order [c0.byte, c1.byte, c2.byte, c3.byte] > PATH_MAX) :
    read_string s = .exit (-1) { s with inbox := rest } ∧
      (read_string s).state.mallocs = s.mallocs ∧
      (read_string s).state.heap_free = s.heap_free ∧
      (read_string s).state.inbox = rest ∧
      exit_status (-1) = 255 := by
  have h : read_string s = .exit (-1) { s with inbox := rest } := by
    rw [read_string, read_int_cons s c0 c1 c2 c3 rest hin]
    rcases hlen with h | h
    · simp [h]
    · simp [h]
  rw [h]
  simp [Res.state, exit_status]

/-- C1 at the lengths -1 and `INT32_MAX`, on a little-endian host, each followed
by a payload byte that stays unread. -/
theorem read_string_rejects_bad_length_witness :
    (read_string
        { order := .little,
          inbox := [Cell.plain 255, Cell.plain 255, Cell.plain 255, Cell.plain 255,
            Cell.plain 97],
          outbox := [], fds := [], heap_free := 65536, mallocs := [] }
      = .exit (-1)
        { order := .little, inbox := [Cell.plain 97], outbox := [], fds := [],
          heap_free := 65536, mallocs := [] }) ∧
    (read_string
        { order := .little,
          inbox := [Cell.plain 255, Cell.plain 255, Cell.plain 255, Cell.plain 127,
            Cell.plain 97],
          outbox := [], fds := [], heap_free := 65536, mallocs := [] }
      = .exit (-1)
        { order := .little, inbox := [Cell.plain 97], outbox := [], fds := [],
          heap_free := 65536, mallocs := [] }) ∧
    bytes_int .little [255, 255, 255, 255] = -1 ∧
    bytes_int .little [255, 255, 255, 127] = INT32_MAX :=
  ⟨(read_string_rejects_bad_length _ _ _ _ _ [Cell.plain 97] rfl (by decide)).1,
   (read_string_rejects_bad_length _ _ _ _ _ [Cell.plain 97] rfl (by decide)).1,
   by decide, by decide⟩


/-! ## C3: the bound on the argument count -/

/-- The function `daemon_accept_args` on a count outside `0..512`. -/
theorem daemon_accept_args_reject (s : Proc) (argc : Int) (rest : List Cell)
    (hin : s.inbox = wire_int s.order argc ++ rest)
    (hlo : INT32_MIN ≤ argc) (hhi : argc ≤ INT32_MAX) (hbad : argc < 0 ∨ argc > 512) :
    daemon_accept_args s = .exit (-1) { s with inbox := rest } := by
  rw [daemon_accept_args, read_int_wire s argc rest hin hlo hhi]
  simp [hbad]

/-- The function `daemon_accept_args` on a count in `0..512` followed by that
many strings of admissible length. -/
theorem daemon_accept_args_wire (s : Proc) (args : List (List Nat)) (rest : List Cell)
    (hin : s.inbox = wire_int s.order args.length ++ wire_args s.order args ++ rest)
    (hcount : args.length ≤ 512)
    (hlen : ∀ a ∈ args, a.length ≤ PATH_MAX)
    (hheap : sizeof_ptr * (args.length + 1) + (args_blocks args).sum ≤ s.heap_free) :
    daemon_accept_args s =
      .ret ((args.length : Int), args)
        { s with inbox := rest,
                 heap_free := s.heap_free -
                   (sizeof_ptr * (args.length + 1) + (args_blocks args).sum),
                 mallocs := s.mallocs ++ sizeof_ptr * (args.length + 1) :: args_blocks args } := by
  have hr := read_int_wire s (args.length : Int) (wire_args s.order args ++ rest)
    (by rw [hin, List.append_assoc])
    (by simp only [INT32_MIN]; omega) (by simp only [INT32_MAX]; omega)
  have h1 : ¬ ((args.length : Int) < 0 ∨ (args.length : Int) > 512) := by omega
  have h2 : sizeof_ptr * (args.length + 1) ≤ s.heap_free := by omega
  rw [daemon_accept_args, hr]
  simp only [Res.bind_ret, h1, if_false, Int.toNat_ofNat, sys_malloc, h2, if_true]
  have ht := read_args_wire args
    { s with inbox := wire_args s.order args ++ rest,
             heap_free := s.heap_free - sizeof_ptr * (args.length + 1),
             mallocs := s.mallocs ++ [sizeof_ptr * (args.length + 1)] } rest rfl hlen
    (by simp only; omega)
  simp only [Bool.true_eq_false, if_false, ht, Res.bind_ret]
  congr 2
  · omega
  · simp

/-- C3. Let `daemon_accept` have read the fixed fields and received the three
descriptors, and let the next four bytes be a 32-bit count `argc` in host order.
If `argc < 0` or `argc > 512` the process calls `exit(-1)` (status 255) in the
state reached right after the count was read: the argument array has not been
allocated and nothing after the count has been read.  If `0 <= argc <= 512` the
count is accepted: whenever the request is read to the end the vector holds
exactly `argc` strings, and on `argc` strings of admissible length followed by
`rest1` exactly those strings are read and `rest1` is left unread. -/
theorem daemon_accept_argc_bound (env : DaemonEnv) (s : Proc) (h : Header) (s7 : Proc)
    (argc : Int) (rest : List Cell)
    (hhdr : daemon_accept_header env s = .ret h s7)
    (hin : s7.inbox = wire_int s7.order argc ++ rest)
    (hlo : INT32_MIN ≤ argc) (hhi : argc ≤ INT32_MAX) :
    ((argc < 0 ∨ argc > 512) →
      daemon_accept env s = .exit (-1) { s7 with inbox := rest } ∧
      (daemon_accept env s).state.mallocs = s7.mallocs ∧
      exit_status (-1) = 255) ∧
    ((0 ≤ argc ∧ argc ≤ 512) →
      (∀ (req : Request) (s8 : Proc), daemon_accept_request env s = .ret req s8 →
        req.argc = argc ∧ (req.argv.length : Int) = argc) ∧
      (∀ (args : List (List Nat)) (rest1 : List Cell),
        (args.length : Int) = argc →
        rest = wire_args s7.order args ++ rest1 →
        (∀ a ∈ args, a.length ≤ PATH_MAX) →
        sizeof_ptr * (args.length + 1) + (args_blocks args).sum ≤ s7.heap_free →
        daemon_accept_request env s =
          .ret { toHeader := h, argc := argc, argv := args }
            { s7 with inbox := rest1,
                      heap_free := s7.heap_free -
                        (sizeof_ptr * (args.length + 1) + (args_blocks args).sum),
                      mallocs := s7.mallocs ++
                        sizeof_ptr * (args.length + 1) :: args_blocks args })) := by
  refine ⟨fun hbad => ?_, fun hok => ⟨?_, ?_⟩⟩
  · have hx : daemon_accept env s = .exit (-1) { s7 with inbox := rest } := by
      simp [daemon_accept, daemon_accept_request, hhdr,
        daemon_accept_args_reject s7 argc rest hin hlo hhi hbad]
    rw [hx]
    simp [Res.state, exit_status]
  · intro req s8 hreq
    have hr := read_int_wire s7 argc rest hin hlo hhi
    have h1 : ¬ (argc < 0 ∨ argc > 512) := by omega
    simp only [daemon_accept_request, hhdr, Res.bind_ret, daemon_accept_args, hr, h1,
      if_false] at hreq
    split at hreq
    · simp at hreq
    · cases ha : read_args argc.toNat
          (sys_malloc { s7 with inbox := rest } (sizeof_ptr * (argc.toNat + 1))).2 with
      | ret argv s9 =>
          rw [ha] at hreq
          simp only [Res.bind_ret, Res.ret.injEq] at hreq
          have hl := read_args_length _ _ _ _ ha
          rw [← hreq.1]
          simp only [hl]
          exact ⟨trivial, by omega⟩
      | exit c s9 => rw [ha] at hreq; simp at hreq
      | fault s9 => rw [ha] at hreq; simp at hreq
  · intro args rest1 hcount hrest hlen hheap
    subst hcount
    have hw := daemon_accept_args_wire s7 args rest1
      (by rw [hin, hrest, List.append_assoc]) (by omega) hlen hheap
    simp [daemon_accept_request, hhdr, hw]

/-- C3 on a little-endian host: after the sample header the count 513 makes
`daemon_accept` exit before anything is allocated for the arguments, and the
count 1 followed by the string `su` is accepted and read. -/
theorem daemon_accept_argc_bound_witness :
    daemon_accept sample_daemon_env
        (sample_proc (sample_header ++ wire_int .little 513 ++ [Cell.plain 7])) =
      .exit (-1)
        { order := .little, inbox := [Cell.plain 7], outbox := [], fds := [3, 0, 1, 2],
          heap_free := 1048575, mallocs := [1] } ∧
    daemon_accept_request sample_daemon_env
        (sample_proc (sample_header ++ wire_int .little 1 ++
          (wire_args .little [[115, 117]] ++ [Cell.plain 7]))) =
      .ret { pid := 4321, pts_slave := [], from_uid := 10001, from_pid := 4320,
             infd := -1, outfd := 3, errfd := -1, argc := 1, argv := [[115, 117]] }
        { order := .little, inbox := [Cell.plain 7], outbox := [], fds := [3, 0, 1, 2],
          heap_free := 1048556, mallocs := [1, 16, 3] } :=
  ⟨((daemon_accept_argc_bound sample_daemon_env
        (sample_proc (sample_header ++ wire_int .little 513 ++ [Cell.plain 7]))
        { pid := 4321, pts_slave := [], from_uid := 10001, from_pid := 4320,
          infd := -1, outfd := 3, errfd := -1 }
        { order := .little, inbox := wire_int .little 513 ++ [Cell.plain 7], outbox := [],
          fds := [3, 0, 1, 2], heap_free := 1048575, mallocs := [1] }
        513 [Cell.plain 7] (by decide) rfl (by decide) (by decide)).1
      (Or.inr (by decide))).1,
   ((daemon_accept_argc_bound sample_daemon_env
        (sample_proc (sample_header ++ wire_int .little 1 ++
          (wire_args .little [[115, 117]] ++ [Cell.plain 7])))
        { pid := 4321, pts_slave := [], from_uid := 10001, from_pid := 4320,
          infd := -1, outfd := 3, errfd := -1 }
        { order := .little,
          inbox := wire_int .little 1 ++ (wire_args .little [[115, 117]] ++ [Cell.plain 7]),
          outbox := [], fds := [3, 0, 1, 2], heap_free := 1048575, mallocs := [1] }
        1 (wire_args .little [[115, 117]] ++ [Cell.plain 7])
        (by decide) rfl (by decide) (by decide)).2
      ⟨by decide, by decide⟩).2 [[115, 117]] [Cell.plain 7] rfl rfl (by decide) (by decide)⟩

/-! ## C6: a closed descriptor is sent as "none" -/

theorem delivered_append (s : Proc) (cells : List Cell) :
    delivered s { s with outbox := s.outbox ++ cells } = cells := by
  simp [delivered]

/-- What `send_fd` does for the sentinel -1. -/
theorem send_fd_none (s : Proc) :
    send_fd s (-1) = .ret () { s with outbox := s.outbox ++ [Cell.plain 0] } := by
  simp [send_fd, send_fd_msg, sys_sendmsg, Cell.plain]

/-- What `send_fd` does for a descriptor that is not open. -/
theorem send_fd_closed (s : Proc) (fd : Int) (h : fd ∉ s.fds) :
    send_fd s fd = .ret () { s with outbox := s.outbox ++ [Cell.plain 0] } := by
  by_cases h1 : fd = -1
  · rw [h1]; exact send_fd_none s
  · simp [send_fd, send_fd_msg, sys_fcntl_getfd, h, h1, sys_sendmsg, Cell.plain]

/-- What `send_fd` does for a descriptor that is open. -/
theorem send_fd_open (s : Proc) (fd : Int) (h : fd ∈ s.fds) (h1 : fd ≠ -1) :
    send_fd s fd =
      .ret () { s with outbox := s.outbox ++ [{ byte := 0, rights := some fd }] } := by
  simp [send_fd, send_fd_msg, sys_fcntl_getfd, h, h1, sys_sendmsg]

/-- What `recv_fd` does on a byte without ancillary data. -/
theorem recv_fd_plain (r : Proc) (b : Nat) (rest : List Cell)
    (hin : r.inbox = Cell.plain b :: rest) :
    recv_fd r = .ret (-1) { r with inbox := rest } := by
  simp [recv_fd, sys_recvmsg, hin, Cell.plain]

/-- What `recv_fd` does on a byte that carries a file. -/
theorem recv_fd_rights (r : Proc) (b : Nat) (f : Int) (rest : List Cell)
    (hin : r.inbox = { byte := b, rights := some f } :: rest) :
    recv_fd r =
      .ret (lowest_free r.fds)
        { r with inbox := rest, fds := (lowest_free r.fds : Int) :: r.fds } := by
  simp [recv_fd, sys_recvmsg, hin, CMSG_SPACE, CMSG_LEN, CMSG_ALIGN, sizeof_cmsghdr,
    sizeof_int]

/-- C6. Let `fd` be a descriptor number other than -1 and let the receiver find
on its connection what `send_fd` sent for `fd`.  If `fd` is closed in the sender
(`fcntl` fails with `EBADF`), the message `send_fd` builds is the one it builds
for -1, one dummy byte without ancillary data, the call has the same effect as
for -1, and `recv_fd` returns -1.  If `fd` is open, the message carries one
`SCM_RIGHTS` record holding `fd`, and `recv_fd` returns a descriptor: the
non-negative number at which the receiver's kernel installed the file. -/
theorem send_fd_recv_fd (s r : Proc) (fd : Int) (rest : List Cell)
    (hfd : fd ≠ -1)
    (hin : r.inbox = delivered s (send_fd s fd).state ++ rest) :
    (sys_fcntl_getfd s fd = .error EBADF →
      send_fd_msg s fd = send_fd_msg s (-1) ∧
      send_fd_msg s fd =
        some { msg_iov := [0], msg_control := none, msg_controllen := 0 } ∧
      send_fd s fd = send_fd s (-1) ∧
      recv_fd r = .ret (-1) { r with inbox := rest }) ∧
    (fd ∈ s.fds →
      send_fd_msg s fd =
        some { msg_iov := [0],
               msg_control := some
                 { cmsg_len := CMSG_LEN sizeof_int, cmsg_level := SOL_SOCKET,
                   cmsg_type := SCM_RIGHTS, cmsg_data := fd },
               msg_controllen := CMSG_SPACE sizeof_int } ∧
      recv_fd r =
        .ret (lowest_free r.fds)
          { r with inbox := rest, fds := (lowest_free r.fds : Int) :: r.fds } ∧
      (0 : Int) ≤ lowest_free r.fds ∧ (lowest_free r.fds : Int) ≠ -1) := by
  constructor
  · intro hclosed
    have hnot : fd ∉ s.fds := by
      intro hmem
      simp [sys_fcntl_getfd, hmem] at hclosed
    have hs := send_fd_closed s fd hnot
    rw [hs, Res.state, delivered_append] at hin
    refine ⟨?_, ?_, ?_, ?_⟩
    · simp [send_fd_msg, sys_fcntl_getfd, hnot, hfd]
    · simp [send_fd_msg, sys_fcntl_getfd, hnot, hfd]
    · rw [hs, send_fd_none]
    · exact recv_fd_plain r 0 rest hin
  · intro hopen
    have hs := send_fd_open s fd hopen hfd
    rw [hs, Res.state, delivered_append] at hin
    refine ⟨?_, ?_, ?_, ?_⟩
    · simp [send_fd_msg, sys_fcntl_getfd, hopen, hfd]
    · exact recv_fd_rights r 0 fd rest hin
    · omega
    · omega

/-- C6 at a sender whose descriptors 0 and 1 are open: descriptor 2, closed, is
received as -1, and descriptor 1 is received as the new descriptor 3. -/
theorem send_fd_recv_fd_witness :
    recv_fd (sample_proc [Cell.plain 0, Cell.plain 9]) =
      .ret (-1) (sample_proc [Cell.plain 9]) ∧
    recv_fd (sample_proc [{ byte := 0, rights := some 1 }, Cell.plain 9]) =
      .ret 3 { sample_proc [Cell.plain 9] with fds := [3, 0, 1, 2] } :=
  ⟨((send_fd_recv_fd
        { order := .little, inbox := [], outbox := [], fds := [0, 1], heap_free := 0,
          mallocs := [] }
        (sample_proc [Cell.plain 0, Cell.plain 9]) 2 [Cell.plain 9]
        (by decide) (by decide)).1 (by decide)).2.2.2,
   ((send_fd_recv_fd
        { order := .little, inbox := [], outbox := [], fds := [0, 1], heap_free := 0,
          mallocs := [] }
        (sample_proc [{ byte := 0, rights := some 1 }, Cell.plain 9]) 1 [Cell.plain 9]
        (by decide) (by decide)).2 (by decide)).2.1⟩

/-! ## C9: the code relayed to the client -/

/-- What `write_int` does. -/
theorem write_int_wire (s : Proc) (v : Int) :
    write_int s v = .ret () { s with outbox := s.outbox ++ wire_int s.order v } := by
  simp [write_int, sys_write, int_bytes_length, sizeof_int, wire_int]

theorem WEXITSTATUS_range (status : Int) :
    0 ≤ WEXITSTATUS status ∧ WEXITSTATUS status ≤ 255 := by
  simp only [WEXITSTATUS]
  omega

/-- C9. Let `daemon_accept` have read a request, leaving the process in state
`s1`, and let `fork` not return 0 (this is not the worker child).  Then the
function returns a code after writing to the connection the acknowledgement 1
followed by that same code, where the code is: the negative value `fork`
returned, when `fork` failed; -1 when `fork` succeeded and `waitpid` did not
return a positive value; and `WEXITSTATUS` of the wait status, a value in
`0..255`, when `waitpid` succeeded. -/
theorem daemon_accept_relays_code (env : DaemonEnv) (s : Proc) (req : Request) (s1 : Proc)
    (hreq : daemon_accept_request env s = .ret req s1)
    (hfork : env.fork_ret ≠ 0) :
    (env.fork_ret < 0 →
      daemon_accept env s =
        .ret (.returned env.fork_ret)
          { s1 with outbox := s1.outbox ++ wire_int s1.order 1 ++
              wire_int s1.order env.fork_ret }) ∧
    (0 < env.fork_ret → env.waitpid_ret ≤ 0 →
      daemon_accept env s =
        .ret (.returned (-1))
          { s1 with outbox := s1.outbox ++ wire_int s1.order 1 ++ wire_int s1.order (-1) }) ∧
    (0 < env.fork_ret → 0 < env.waitpid_ret →
      daemon_accept env s =
        .ret (.returned (WEXITSTATUS env.wait_status))
          { s1 with outbox := s1.outbox ++ wire_int s1.order 1 ++
              wire_int s1.order (WEXITSTATUS env.wait_status) } ∧
      0 ≤ WEXITSTATUS env.wait_status ∧ WEXITSTATUS env.wait_status ≤ 255) ∧
    (∃ code : Int,
      daemon_accept env s =
        .ret (.returned code)
          { s1 with outbox := s1.outbox ++ wire_int s1.order 1 ++ wire_int s1.order code } ∧
      (code < 0 ∨ (0 ≤ code ∧ code ≤ 255))) := by
  have hneg : env.fork_ret < 0 →
      daemon_accept env s =
        .ret (.returned env.fork_ret)
          { s1 with outbox := s1.outbox ++ wire_int s1.order 1 ++
              wire_int s1.order env.fork_ret } := by
    intro h
    simp [daemon_accept, hreq, daemon_accept_serve, write_int_wire, h, sys_write, wire_int]
  have hwaitfail : 0 < env.fork_ret → env.waitpid_ret ≤ 0 →
      daemon_accept env s =
        .ret (.returned (-1))
          { s1 with outbox := s1.outbox ++ wire_int s1.order 1 ++
              wire_int s1.order (-1) } := by
    intro h hw
    have h0 : ¬ env.fork_ret < 0 := by omega
    have hw0 : ¬ env.waitpid_ret > 0 := by omega
    simp [daemon_accept, hreq, daemon_accept_serve, write_int_wire, h0, hfork, hw0,
      sys_write, wire_int]
  have hwait : 0 < env.fork_ret → 0 < env.waitpid_ret →
      daemon_accept env s =
        .ret (.returned (WEXITSTATUS env.wait_status))
          { s1 with outbox := s1.outbox ++ wire_int s1.order 1 ++
              wire_int s1.order (WEXITSTATUS env.wait_status) } := by
    intro h hw
    have h0 : ¬ env.fork_ret < 0 := by omega
    simp [daemon_accept, hreq, daemon_accept_serve, write_int_wire, h0, hfork, hw,
      sys_write, wire_int]
  refine ⟨hneg, hwaitfail, fun h hw => ⟨hwait h hw, WEXITSTATUS_range _⟩, ?_⟩
  rcases lt_trichotomy env.fork_ret 0 with h | h | h
  · exact ⟨env.fork_ret, hneg h, Or.inl h⟩
  · exact absurd h hfork
  · by_cases hw : 0 < env.waitpid_ret
    · exact ⟨_, hwait h hw, Or.inr (WEXITSTATUS_range _)⟩
    · exact ⟨-1, hwaitfail h (by omega), Or.inl (by decide)⟩

/-- C9 on the sample request with one argument: the parent of a child that
exited with status 3 writes the acknowledgement and the code 3 and returns 3. -/
theorem daemon_accept_relays_code_witness :
    daemon_accept sample_daemon_env
        (sample_proc (sample_header ++ wire_int .little 1 ++
          (wire_args .little [[115, 117]] ++ [Cell.plain 7]))) =
      .ret (.returned 3)
        { order := .little, inbox := [Cell.plain 7],
          outbox := wire_int .little 1 ++ wire_int .little 3,
          fds := [3, 0, 1, 2], heap_free := 1048556, mallocs := [1, 16, 3] } :=
  ((daemon_accept_relays_code sample_daemon_env
      (sample_proc (sample_header ++ wire_int .little 1 ++
        (wire_args .little [[115, 117]] ++ [Cell.plain 7])))
      { pid := 4321, pts_slave := [], from_uid := 10001, from_pid := 4320,
        infd := -1, outfd := 3, errfd := -1, argc := 1, argv := [[115, 117]] }
      { order := .little, inbox := [Cell.plain 7], outbox := [], fds := [3, 0, 1, 2],
        heap_free := 1048556, mallocs := [1, 16, 3] }
      (by decide) (by decide)).2.2.1 (by decide) (by decide)).1

/-! ## C2: the request round trip -/

theorem strlen_of_no_nul (a : List Nat) (h : 0 ∉ a) : strlen a = a.length := by
  induction a with
  | nil => rfl
  | cons b t ih =>
      have hb : b ≠ 0 := fun hb => h (by simp [hb])
      have ht : 0 ∉ t := fun ht => h (by simp [ht])
      have := ih ht
      simp only [strlen] at this ⊢
      simp only [List.takeWhile, hb, ne_eq, not_false_eq_true, decide_True, List.length_cons,
        this]

/-- What `write_string` does on a string without NUL byte. -/
theorem write_string_wire (s : Proc) (a : List Nat) (hnul : 0 ∉ a)
    (hlen : (a.length : Int) ≤ INT32_MAX) :
    write_string s a = .ret () { s with outbox := s.outbox ++ wire_string s.order a } := by
  simp only [INT32_MAX] at hlen
  have h32 : to_int32 (a.length : Int) = a.length := by
    simp only [to_int32]; omega
  simp only [write_string, strlen_of_no_nul a hnul, h32, write_int_wire, Res.bind_ret,
    sys_write, Int.toNat_ofNat, List.take_length]
  simp [wire_string]

/-- What the loop of `write_string` calls does on strings without NUL byte. -/
theorem write_args_wire (args : List (List Nat)) :
    ∀ (s : Proc), (∀ a ∈ args, 0 ∉ a) → (∀ a ∈ args, (a.length : Int) ≤ INT32_MAX) →
      write_args args s = .ret () { s with outbox := s.outbox ++ wire_args s.order args } := by
  induction args with
  | nil => intro s _ _; simp [write_args, wire_args]
  | cons a t ih =>
      intro s hnul hlen
      have ha := write_string_wire s a (hnul a (by simp)) (hlen a (by simp))
      have ht := ih { s with outbox := s.outbox ++ wire_string s.order a }
        (fun b hb => hnul b (by simp [hb])) (fun b hb => hlen b (by simp [hb]))
      simp only [write_args, ha, Res.bind_ret, ht]
      simp [wire_args]

/-- What `send_fd` does, in one equation. -/
theorem send_fd_cell (s : Proc) (fd : Int) :
    send_fd s fd = .ret () { s with outbox := s.outbox ++ [fd_cell s fd] } := by
  by_cases h1 : fd = -1
  · subst h1; simp [send_fd_none, fd_cell]
  · by_cases h2 : fd ∈ s.fds
    · simp [send_fd_open s fd h2 h1, fd_cell, h1, h2]
    · simp [send_fd_closed s fd h2, fd_cell, h2]

/-- What `recv_fd` does on the byte `send_fd` produced. -/
theorem recv_fd_cell (r c : Proc) (fd : Int) (rest : List Cell)
    (hin : r.inbox = fd_cell c fd :: rest) :
    ∃ (v : Int) (fds : List Int),
      recv_fd r = .ret v { r with inbox := rest, fds := fds } ∧
      (v ≠ -1 ↔ (fd ≠ -1 ∧ fd ∈ c.fds)) := by
  by_cases h : fd ≠ -1 ∧ fd ∈ c.fds
  · rw [fd_cell, if_pos h] at hin
    refine ⟨_, _, recv_fd_rights r 0 fd rest hin, ?_⟩
    have hpos : (lowest_free r.fds : Int) ≠ -1 := by omega
    exact ⟨fun _ => h, fun _ => hpos⟩
  · rw [fd_cell, if_neg h] at hin
    refine ⟨-1, r.fds, ?_, ?_⟩
    · rw [recv_fd_plain r 0 rest hin]
    · simp [h]

/-- The request sent by `connect_daemon` is the wire protocol of the spec. -/
theorem connect_daemon_send_wire (env : ClientEnv) (atty : Nat) (pts : List Nat)
    (argv : List (List Nat)) (ppid : Int) (c : Proc)
    (hargc : (argv.length : Int) ≤ INT32_MAX)
    (hlen : ∀ a ∈ argv, (a.length : Int) ≤ INT32_MAX) (hnul : ∀ a ∈ argv, 0 ∉ a)
    (hpts : (pts.length : Int) ≤ INT32_MAX) (hptsnul : 0 ∉ pts) :
    connect_daemon_send env atty pts argv ppid c =
      .ret () { c with outbox := c.outbox ++ wire_request env atty pts argv ppid c } := by
  have h32 : to_int32 (argv.length : Int) = argv.length := by
    simp only [INT32_MAX] at hargc
    simp only [to_int32]; omega
  simp only [connect_daemon_send, write_int_wire, Res.bind_ret, send_fd_cell, h32,
    write_string_wire _ pts hptsnul hpts, write_args_wire argv _ hnul hlen]
  simp [wire_request, fd_cell]

/-- The fixed fields and the three descriptors are read back from the wire. -/
theorem daemon_accept_header_wire (denv : DaemonEnv) (d c : Proc)
    (pid uid ppid : Int) (pts : List Nat) (f0 f1 f2 : Int) (rest : List Cell)
    (hin : d.inbox =
      wire_int d.order pid ++ wire_string d.order pts ++ wire_int d.order uid ++
        wire_int d.order ppid ++ [fd_cell c f0, fd_cell c f1, fd_cell c f2] ++ rest)
    (hpid : INT32_MIN ≤ pid ∧ pid ≤ INT32_MAX) (huid : INT32_MIN ≤ uid ∧ uid ≤ INT32_MAX)
    (hppid : INT32_MIN ≤ ppid ∧ ppid ≤ INT32_MAX)
    (hpts : pts.length ≤ PATH_MAX) (hheap : pts.length + 1 ≤ d.heap_free)
    (hcred : denv.peercred_ok = true) :
    ∃ (i o e : Int) (fds : List Int),
      daemon_accept_header denv d =
        .ret { pid := pid, pts_slave := pts, from_uid := uid, from_pid := ppid,
               infd := i, outfd := o, errfd := e }
          { d with
      inbox := rest, heap_free := d.heap_free - (pts.length + 1),
                   mallocs := d.mallocs ++ [pts.length + 1], fds := fds } ∧
      (i ≠ -1 ↔ (f0 ≠ -1 ∧ f0 ∈ c.fds)) ∧
      (o ≠ -1 ↔ (f1 ≠ -1 ∧ f1 ∈ c.fds)) ∧
      (e ≠ -1 ↔ (f2 ≠ -1 ∧ f2 ∈ c.fds)) := by
  have h1 := read_int_wire d pid
    (wire_string d.order pts ++ (wire_int d.order uid ++
      (wire_int d.order ppid ++ ([fd_cell c f0, fd_cell c f1, fd_cell c f2] ++ rest))))
    (by rw [hin]; simp only [List.append_assoc]) hpid.1 hpid.2
  have h2 := read_string_wire
    { d with
      inbox := wire_string d.order pts ++ (wire_int d.order uid ++
        (wire_int d.order ppid ++ ([fd_cell c f0, fd_cell c f1, fd_cell c f2] ++ rest))) }
    pts (wire_int d.order uid ++
      (wire_int d.order ppid ++ ([fd_cell c f0, fd_cell c f1, fd_cell c f2] ++ rest)))
    rfl hpts hheap
  have h3 := read_int_wire
    { d with
      inbox := wire_int d.order uid ++
        (wire_int d.order ppid ++ ([fd_cell c f0, fd_cell c f1, fd_cell c f2] ++ rest)),
      heap_free := d.heap_free - (pts.length + 1),
      mallocs := d.mallocs ++ [pts.length + 1] }
    uid (wire_int d.order ppid ++ ([fd_cell c f0, fd_cell c f1, fd_cell c f2] ++ rest))
    rfl huid.1 huid.2
  have h4 := read_int_wire
    { d with
      inbox := wire_int d.order ppid ++ ([fd_cell c f0, fd_cell c f1, fd_cell c f2] ++ rest),
      heap_free := d.heap_free - (pts.length + 1),
      mallocs := d.mallocs ++ [pts.length + 1] }
    ppid ([fd_cell c f0, fd_cell c f1, fd_cell c f2] ++ rest)
    rfl hppid.1 hppid.2
  obtain ⟨i, fds5, h5, hi⟩ := recv_fd_cell
    { d with
      inbox := [fd_cell c f0, fd_cell c f1, fd_cell c f2] ++ rest,
      heap_free := d.heap_free - (pts.length + 1),
      mallocs := d.mallocs ++ [pts.length + 1] }
    c f0 ([fd_cell c f1, fd_cell c f2] ++ rest) rfl
  obtain ⟨o, fds6, h6, ho⟩ := recv_fd_cell
    { d with
      inbox := [fd_cell c f1, fd_cell c f2] ++ rest,
      heap_free := d.heap_free - (pts.length + 1),
      mallocs := d.mallocs ++ [pts.length + 1], fds := fds5 }
    c f1 ([fd_cell c f2] ++ rest) rfl
  obtain ⟨e, fds7, h7, he⟩ := recv_fd_cell
    { d with
      inbox := [fd_cell c f2] ++ rest,
      heap_free := d.heap_free - (pts.length + 1),
      mallocs := d.mallocs ++ [pts.length + 1], fds := fds6 }
    c f2 rest rfl
  refine ⟨i, o, e, fds7, ?_, hi, ho, he⟩
  dsimp only at h2 h3 h4 h5 h6 h7
  simp only [daemon_accept_header, h1, Res.bind_ret, h2, hcred, Bool.true_eq_false,
    if_false, h3, h4, h5, h6, h7]

theorem stream_present_iff (c : Proc) (atty bit : Nat) (fd : Int) (hfd : fd ≠ -1) :
    (((if atty &&& bit ≠ 0 then (-1 : Int) else fd) ≠ -1 ∧
        (if atty &&& bit ≠ 0 then (-1 : Int) else fd) ∈ c.fds) ↔
      stream_present c atty bit fd = true) := by
  by_cases h : atty &&& bit = 0
  · simp [stream_present, h, hfd]
  · simp [stream_present, h]

/-- The fixed fields and descriptors of a request sent by `connect_daemon` are
read back by `daemon_accept`, which then stands before the argument count. -/
theorem daemon_accept_header_request (cenv : ClientEnv) (denv : DaemonEnv) (atty : Nat)
    (pts : List Nat) (argv : List (List Nat)) (ppid : Int) (c d : Proc) (rest : List Cell)
    (hargc : (argv.length : Int) ≤ INT32_MAX)
    (hlen : ∀ a ∈ argv, (a.length : Int) ≤ INT32_MAX) (hnul : ∀ a ∈ argv, 0 ∉ a)
    (hpts : pts.length ≤ PATH_MAX) (hptsnul : 0 ∉ pts)
    (hpid : INT32_MIN ≤ cenv.pid ∧ cenv.pid ≤ INT32_MAX)
    (huid : INT32_MIN ≤ cenv.uid ∧ cenv.uid ≤ INT32_MAX)
    (hppid : INT32_MIN ≤ ppid ∧ ppid ≤ INT32_MAX)
    (horder : d.order = c.order) (hcred : denv.peercred_ok = true)
    (hheap : pts.length + 1 ≤ d.heap_free)
    (hin : d.inbox =
      delivered c (connect_daemon_send cenv atty pts argv ppid c).state ++ rest) :
    ∃ (i o e : Int) (fds : List Int),
      daemon_accept_header denv d =
        .ret { pid := cenv.pid, pts_slave := pts, from_uid := cenv.uid, from_pid := ppid,
               infd := i, outfd := o, errfd := e }
          { d with inbox := wire_int d.order argv.length ++ wire_args d.order argv ++ rest,
                   heap_free := d.heap_free - (pts.length + 1),
                   mallocs := d.mallocs ++ [pts.length + 1], fds := fds } ∧
      (i ≠ -1 ↔ stream_present c atty ATTY_IN STDIN_FILENO = true) ∧
      (o ≠ -1 ↔ stream_present c atty ATTY_OUT STDOUT_FILENO = true) ∧
      (e ≠ -1 ↔ stream_present c atty ATTY_ERR STDERR_FILENO = true) := by
  have hP : PATH_MAX = 4096 := rfl
  have hsend := connect_daemon_send_wire cenv atty pts argv ppid c hargc hlen hnul
    (by simp only [INT32_MAX]; omega) hptsnul
  rw [hsend, Res.state, delivered_append, wire_request, ← horder] at hin
  obtain ⟨i, o, e, fds, hh, hi, ho, he⟩ := daemon_accept_header_wire denv d c cenv.pid
    cenv.uid ppid pts (if atty &&& ATTY_IN ≠ 0 then -1 else STDIN_FILENO)
    (if atty &&& ATTY_OUT ≠ 0 then -1 else STDOUT_FILENO)
    (if atty &&& ATTY_ERR ≠ 0 then -1 else STDERR_FILENO)
    (wire_int d.order argv.length ++ wire_args d.order argv ++ rest)
    (by rw [hin]; simp only [List.append_assoc]) hpid huid hppid hpts hheap hcred
  refine ⟨i, o, e, fds, hh, ?_, ?_, ?_⟩
  · rw [hi]; exact stream_present_iff c atty ATTY_IN STDIN_FILENO (by decide)
  · rw [ho]; exact stream_present_iff c atty ATTY_OUT STDOUT_FILENO (by decide)
  · rw [he]; exact stream_present_iff c atty ATTY_ERR STDERR_FILENO (by decide)

/-- C2, amended. Let the argument vector have at most 512 strings, each without
NUL byte (as every printable string is) and of length at most `PATH_MAX`, and
let the slave path be such a string too.  For every value of `atty` and every
set of open descriptors in the client, hence for each of the 8 combinations of
present and absent streams, when the daemon runs on the same host, can read the
peer credentials and has the memory for the strings, `daemon_accept` reads the
whole request that `connect_daemon` sent, leaves what follows unread, and
obtains the argument vector, its length, the pid, uid, request pid and slave
path exactly, and a descriptor other than -1 for exactly the streams the client
sent as descriptors. -/
theorem wire_roundtrip (cenv : ClientEnv) (denv : DaemonEnv) (atty : Nat)
    (pts : List Nat) (argv : List (List Nat)) (ppid : Int) (c d : Proc) (rest : List Cell)
    (hargc : argv.length ≤ 512)
    (hlen : ∀ a ∈ argv, a.length ≤ PATH_MAX) (hnul : ∀ a ∈ argv, 0 ∉ a)
    (hpts : pts.length ≤ PATH_MAX) (hptsnul : 0 ∉ pts)
    (hpid : INT32_MIN ≤ cenv.pid ∧ cenv.pid ≤ INT32_MAX)
    (huid : INT32_MIN ≤ cenv.uid ∧ cenv.uid ≤ INT32_MAX)
    (hppid : INT32_MIN ≤ ppid ∧ ppid ≤ INT32_MAX)
    (horder : d.order = c.order) (hcred : denv.peercred_ok = true)
    (hheap : pts.length + 1 + (sizeof_ptr * (argv.length + 1) + (args_blocks argv).sum) ≤
      d.heap_free)
    (hin : d.inbox =
      delivered c (connect_daemon_send cenv atty pts argv ppid c).state ++ rest) :
    ∃ (req : Request) (d1 : Proc),
      daemon_accept_request denv d = .ret req d1 ∧
      req.argv = argv ∧ req.argc = argv.length ∧
      req.pid = cenv.pid ∧ req.pts_slave = pts ∧ req.from_uid = cenv.uid ∧
      req.from_pid = ppid ∧
      (req.infd ≠ -1 ↔ stream_present c atty ATTY_IN STDIN_FILENO = true) ∧
      (req.outfd ≠ -1 ↔ stream_present c atty ATTY_OUT STDOUT_FILENO = true) ∧
      (req.errfd ≠ -1 ↔ stream_present c atty ATTY_ERR STDERR_FILENO = true) ∧
      d1.inbox = rest := by
  have hP : PATH_MAX = 4096 := rfl
  obtain ⟨i, o, e, fds, hh, hi, ho, he⟩ := daemon_accept_header_request cenv denv atty pts
    argv ppid c d rest (by simp only [INT32_MAX]; omega)
    (fun a ha => by have := hlen a ha; simp only [INT32_MAX]; omega) hnul hpts hptsnul
    hpid huid hppid horder hcred (by omega) hin
  have ha := daemon_accept_args_wire
    { d with inbox := wire_int d.order argv.length ++ wire_args d.order argv ++ rest,
             heap_free := d.heap_free - (pts.length + 1),
             mallocs := d.mallocs ++ [pts.length + 1], fds := fds }
    argv rest rfl hargc hlen (by simp only; omega)
  dsimp only at ha
  have hreq : daemon_accept_request denv d =
      .ret { pid := cenv.pid, pts_slave := pts, from_uid := cenv.uid, from_pid := ppid,
             infd := i, outfd := o, errfd := e, argc := argv.length, argv := argv }
        { d with inbox := rest,
                 heap_free := d.heap_free - (pts.length + 1) -
                   (sizeof_ptr * (argv.length + 1) + (args_blocks argv).sum),
                 mallocs := d.mallocs ++ [pts.length + 1] ++
                   sizeof_ptr * (argv.length + 1) :: args_blocks argv,
                 fds := fds } := by
    simp only [daemon_accept_request, hh, Res.bind_ret, ha]
  exact ⟨_, _, hreq, rfl, rfl, rfl, rfl, rfl, rfl, hi, ho, he, rfl⟩

/-- C2 at the vector `su -c id` with the slave path `/dev/pts/1`, stdin and stderr
on the PTY and stdout sent as a descriptor. -/
theorem wire_roundtrip_witness :
    ∃ (req : Request) (d1 : Proc),
      daemon_accept_request sample_daemon_env
          (sample_proc
            (delivered sample_client
              (connect_daemon_send sample_client_env 5 [47, 100, 101, 118, 47, 112, 116, 115, 47, 49]
                [[115, 117], [45, 99], [105, 100]] 4320 sample_client).state ++
              [Cell.plain 7])) = .ret req d1 ∧
      req.argv = [[115, 117], [45, 99], [105, 100]] ∧ req.argc = 3 ∧
      req.pid = 4321 ∧ req.pts_slave = [47, 100, 101, 118, 47, 112, 116, 115, 47, 49] ∧
      req.from_uid = 10001 ∧ req.from_pid = 4320 ∧
      (req.infd ≠ -1 ↔ false = true) ∧ (req.outfd ≠ -1 ↔ true = true) ∧
      (req.errfd ≠ -1 ↔ false = true) ∧ d1.inbox = [Cell.plain 7] :=
  wire_roundtrip sample_client_env sample_daemon_env 5
    [47, 100, 101, 118, 47, 112, 116, 115, 47, 49] [[115, 117], [45, 99], [105, 100]] 4320
    sample_client _ [Cell.plain 7] (by decide) (by decide) (by decide) (by decide)
    (by decide) (by decide) (by decide) (by decide) rfl rfl (by decide) rfl

/-- A request with more than 512 arguments makes `daemon_accept` exit. -/
theorem daemon_accept_request_reject_count (cenv : ClientEnv) (denv : DaemonEnv)
    (atty : Nat) (pts : List Nat) (argv : List (List Nat)) (ppid : Int) (c d : Proc)
    (rest : List Cell)
    (hargc : 512 < argv.length) (hargc32 : (argv.length : Int) ≤ INT32_MAX)
    (hlen : ∀ a ∈ argv, (a.length : Int) ≤ INT32_MAX) (hnul : ∀ a ∈ argv, 0 ∉ a)
    (hpts : pts.length ≤ PATH_MAX) (hptsnul : 0 ∉ pts)
    (hpid : INT32_MIN ≤ cenv.pid ∧ cenv.pid ≤ INT32_MAX)
    (huid : INT32_MIN ≤ cenv.uid ∧ cenv.uid ≤ INT32_MAX)
    (hppid : INT32_MIN ≤ ppid ∧ ppid ≤ INT32_MAX)
    (horder : d.order = c.order) (hcred : denv.peercred_ok = true)
    (hheap : pts.length + 1 ≤ d.heap_free)
    (hin : d.inbox =
      delivered c (connect_daemon_send cenv atty pts argv ppid c).state ++ rest) :
    ∃ s1 : Proc, daemon_accept_request denv d = .exit (-1) s1 := by
  obtain ⟨i, o, e, fds, hh, _, _, _⟩ := daemon_accept_header_request cenv denv atty pts
    argv ppid c d rest hargc32 hlen hnul hpts hptsnul hpid huid hppid horder hcred hheap hin
  have ha := daemon_accept_args_reject
    { d with inbox := wire_int d.order argv.length ++ wire_args d.order argv ++ rest,
             heap_free := d.heap_free - (pts.length + 1),
             mallocs := d.mallocs ++ [pts.length + 1], fds := fds }
    argv.length (wire_args d.order argv ++ rest) (by simp only [List.append_assoc])
    (by simp only [INT32_MIN]; omega) hargc32 (Or.inr (by omega))
  simp only [daemon_accept_request, hh, Res.bind_ret, ha, Res.bind_exit]
  exact ⟨_, rfl⟩

/-- The function `read_string` on a string longer than `PATH_MAX`. -/
theorem read_string_too_long (s : Proc) (a : List Nat) (rest : List Cell)
    (hin : s.inbox = wire_string s.order a ++ rest)
    (hlong : PATH_MAX < a.length) (h32 : (a.length : Int) ≤ INT32_MAX) :
    read_string s = .exit (-1) { s with inbox := a.map Cell.plain ++ rest } := by
  have hr := read_int_wire s (a.length : Int) (a.map Cell.plain ++ rest)
    (by rw [hin, wire_string, List.append_assoc])
    (by simp only [INT32_MIN]; omega) h32
  have h1 : (a.length : Int) > (PATH_MAX : Nat) ∨ (a.length : Int) < 0 := by omega
  simp only [read_string, hr, Res.bind_ret, h1, if_true]

/-- The function `daemon_accept_args` on an admissible count followed by a string
longer than `PATH_MAX`. -/
theorem daemon_accept_args_long (s : Proc) (k : Nat) (a : List Nat) (rest : List Cell)
    (hin : s.inbox = wire_int s.order ((k + 1 : Nat) : Int) ++ (wire_string s.order a ++ rest))
    (hcount : k + 1 ≤ 512) (hlong : PATH_MAX < a.length)
    (h32 : (a.length : Int) ≤ INT32_MAX)
    (hheap : sizeof_ptr * (k + 1 + 1) ≤ s.heap_free) :
    ∃ s1 : Proc, daemon_accept_args s = .exit (-1) s1 := by
  have hr := read_int_wire s ((k + 1 : Nat) : Int) (wire_string s.order a ++ rest) hin
    (by simp only [INT32_MIN]; omega) (by simp only [INT32_MAX]; omega)
  have h1 : ¬ (((k + 1 : Nat) : Int) < 0 ∨ ((k + 1 : Nat) : Int) > 512) := by omega
  have hs := read_string_too_long
    { s with inbox := wire_string s.order a ++ rest,
             heap_free := s.heap_free - sizeof_ptr * (k + 1 + 1),
             mallocs := s.mallocs ++ [sizeof_ptr * (k + 1 + 1)] }
    a rest rfl hlong h32
  dsimp only at hs
  rw [daemon_accept_args, hr]
  simp only [Res.bind_ret, h1, if_false, Int.toNat_ofNat, sys_malloc, hheap, if_true,
    Bool.true_eq_false, read_args, hs, Res.bind_exit]
  exact ⟨_, rfl⟩

/-- A request whose first argument is longer than `PATH_MAX` makes
`daemon_accept` exit. -/
theorem daemon_accept_request_reject_long (cenv : ClientEnv) (denv : DaemonEnv)
    (atty : Nat) (pts : List Nat) (a : List Nat) (t : List (List Nat)) (ppid : Int)
    (c d : Proc) (rest : List Cell)
    (hargc : (a :: t).length ≤ 512) (hlong : PATH_MAX < a.length)
    (hlen : ∀ b ∈ a :: t, (b.length : Int) ≤ INT32_MAX) (hnul : ∀ b ∈ a :: t, 0 ∉ b)
    (hpts : pts.length ≤ PATH_MAX) (hptsnul : 0 ∉ pts)
    (hpid : INT32_MIN ≤ cenv.pid ∧ cenv.pid ≤ INT32_MAX)
    (huid : INT32_MIN ≤ cenv.uid ∧ cenv.uid ≤ INT32_MAX)
    (hppid : INT32_MIN ≤ ppid ∧ ppid ≤ INT32_MAX)
    (horder : d.order = c.order) (hcred : denv.peercred_ok = true)
    (hheap : pts.length + 1 + sizeof_ptr * ((a :: t).length + 1) ≤ d.heap_free)
    (hin : d.inbox =
      delivered c (connect_daemon_send cenv atty pts (a :: t) ppid c).state ++ rest) :
    ∃ s1 : Proc, daemon_accept_request denv d = .exit (-1) s1 := by
  obtain ⟨i, o, e, fds, hh, _, _, _⟩ := daemon_accept_header_request cenv denv atty pts
    (a :: t) ppid c d rest (by simp only [INT32_MAX]; omega) hlen hnul hpts hptsnul hpid
    huid hppid horder hcred (by omega) hin
  simp only [List.length_cons] at hargc hheap
  obtain ⟨s1, ha⟩ := daemon_accept_args_long
    { d with inbox := wire_int d.order (a :: t).length ++ wire_args d.order (a :: t) ++ rest,
             heap_free := d.heap_free - (pts.length + 1),
             mallocs := d.mallocs ++ [pts.length + 1], fds := fds }
    t.length a (wire_args d.order t ++ rest)
    (by simp only [List.length_cons, wire_args, List.append_assoc])
    hargc hlong (hlen a (by simp)) (by simp only; omega)
  simp only [daemon_accept_request, hh, Res.bind_ret, ha, Res.bind_exit]
  exact ⟨_, rfl⟩

/-- C2 as stated fails: a vector of 513 printable one-byte strings, and a vector of
one printable string of 4097 bytes, are sent by `connect_daemon` and make
`daemon_accept` call `exit(-1)` instead of reproducing them. -/
theorem wire_roundtrip_counterexample :
    (∀ a ∈ List.replicate 513 [97], ∀ b ∈ a, 32 ≤ b ∧ b ≤ 126) ∧
    (∃ s1 : Proc,
      daemon_accept_request sample_daemon_env
          (sample_proc
            (delivered sample_client
              (connect_daemon_send sample_client_env 0 [] (List.replicate 513 [97]) 4320
                sample_client).state ++ [])) = .exit (-1) s1) ∧
    (∀ a ∈ [List.replicate 4097 97], ∀ b ∈ a, 32 ≤ b ∧ b ≤ 126) ∧
    (∃ s1 : Proc,
      daemon_accept_request sample_daemon_env
          (sample_proc
            (delivered sample_client
              (connect_daemon_send sample_client_env 0 [] [List.replicate 4097 97] 4320
                sample_client).state ++ [])) = .exit (-1) s1) := by
  have hmem : ∀ a ∈ List.replicate 513 [97], a = [97] := fun a ha =>
    List.eq_of_mem_replicate ha
  have hb : ∀ b ∈ List.replicate 4097 97, b = 97 := fun b hb => List.eq_of_mem_replicate hb
  refine ⟨?_, ?_, ?_, ?_⟩
  · intro a ha b hb
    rw [hmem a ha] at hb
    simp only [List.mem_singleton] at hb
    omega
  · exact daemon_accept_request_reject_count sample_client_env sample_daemon_env 0 []
      (List.replicate 513 [97]) 4320 sample_client _ []
      (by simp only [List.length_replicate]; omega)
      (by simp only [List.length_replicate, INT32_MAX]; omega)
      (fun a ha => by rw [hmem a ha]; decide) (fun a ha => by rw [hmem a ha]; decide)
      (by decide) (by decide) (by decide) (by decide) (by decide) rfl rfl (by decide) rfl
  · intro a ha b hb1
    simp only [List.mem_singleton] at ha
    rw [ha] at hb1
    have := hb b hb1
    omega
  · exact daemon_accept_request_reject_long sample_client_env sample_daemon_env 0 []
      (List.replicate 4097 97) [] 4320 sample_client _ []
      (by decide) (by simp only [List.length_replicate, PATH_MAX]; omega)
      (fun a ha => by
        simp only [List.mem_singleton] at ha
        rw [ha]; simp only [List.length_replicate, INT32_MAX]; omega)
      (fun a ha => by
        simp only [List.mem_singleton] at ha
        rw [ha]
        intro h0
        have := hb 0 h0
        omega)
      (by decide) (by decide) (by decide) (by decide) (by decide) rfl rfl (by decide) rfl

/-! ## C10: `argv[0]` of the executed program -/

theorem strrchr_none (s : List Char) (c : Char) : strrchr s c = none ↔ c ∉ s := by
  induction s with
  | nil => simp [strrchr]
  | cons x rest ih =>
      simp only [strrchr]
      cases h : strrchr rest c with
      | some p =>
          have : ¬ (c ∉ rest) := fun hn => by rw [ih.mpr hn] at h; cases h
          simp only [List.mem_cons, not_or]
          constructor
          · intro h0; cases h0
          · intro h0; exact absurd h0.2 this
      | none =>
          have hr := ih.mp h
          by_cases hx : x = c
          · simp [hx]
          · simp [hx, hr, Ne.symm hx]

theorem strrchr_some (s : List Char) (c : Char) (p : List Char) (h : strrchr s c = some p) :
    ∃ pre t, s = pre ++ c :: t ∧ p = c :: t ∧ c ∉ t := by
  induction s generalizing p with
  | nil => simp [strrchr] at h
  | cons x rest ih =>
      simp only [strrchr] at h
      cases hr : strrchr rest c with
      | some q =>
          rw [hr] at h
          simp only [Option.some.injEq] at h
          obtain ⟨pre, t, h1, h2, h3⟩ := ih q hr
          exact ⟨x :: pre, t, by rw [h1]; rfl, by rw [← h, h2], h3⟩
      | none =>
          rw [hr] at h
          by_cases hx : x = c
          · simp only [hx, if_true, Option.some.injEq] at h
            exact ⟨[], rest, by rw [hx]; rfl, h.symm, (strrchr_none rest c).mp hr⟩
          · simp [hx] at h

/-- The value of `arg0` is the basename of the program, with a dash in front
for a login shell. -/
theorem allow_arg0_basename (binary : List Char) (login : Bool) :
    ∃ base : List Char, '/' ∉ base ∧
      (('/' ∉ binary ∧ base = binary) ∨ ∃ pre, binary = pre ++ '/' :: base) ∧
      allow_arg0 binary login true = some (if login then '-' :: base else base) := by
  cases h : strrchr binary '/' with
  | none =>
      have hn := (strrchr_none binary '/').mp h
      refine ⟨binary, hn, Or.inl ⟨hn, rfl⟩, ?_⟩
      cases login <;> simp [allow_arg0, h]
  | some p =>
      obtain ⟨pre, t, h1, h2, h3⟩ := strrchr_some binary '/' p h
      refine ⟨t, h3, Or.inr ⟨pre, h1⟩, ?_⟩
      cases login <;> simp [allow_arg0, h, h2]

theorem ArgMem.get_set_same (m : ArgMem) (i : Int) (v : List Char) :
    (m.set i v).get i = .ptr v := by
  simp [ArgMem.get, ArgMem.set, List.lookup]

/-- The program and the first string `allow_exec` passes to `execvp`. -/
theorem allow_exec_head (ctx : su_context) (binary : List Char) (argv : ArgMem) (argc : Int)
    (stores : List Int) (p : SuProc) (env : SuEnv) (call : ExecCall)
    (h : allow_exec ctx binary argv argc stores p env = .exec call) :
    call.binary = binary ∧
      call.args.head? = allow_arg0 binary ctx.to_.login env.malloc_ok ∧
      env.malloc_ok = true ∨ call.binary = binary ∧
      call.args.head? = allow_arg0 binary ctx.to_.login env.malloc_ok ∧
      ctx.to_.login = false := by
  simp only [allow_exec] at h
  cases ha : allow_arg0 binary ctx.to_.login env.malloc_ok with
  | none => rw [ha] at h; simp at h
  | some arg0 =>
      rw [ha] at h
      simp only at h
      cases hv : (argv.set (argc - 1) arg0).vector (argc - 1) with
      | none => rw [hv] at h; simp at h
      | some args =>
          rw [hv] at h
          simp only [SuResult.exec.injEq] at h
          have hhead : args.head? = some arg0 := by
            simp only [ArgMem.vector] at hv
            cases hn : (((argv.set (argc - 1) arg0).orig.length : Int) + 1 - (argc - 1)).toNat with
            | zero => rw [hn] at hv; simp [ArgMem.read] at hv
            | succ k =>
                rw [hn] at hv
                simp only [ArgMem.read, ArgMem.get_set_same] at hv
                cases hr : ArgMem.read (argv.set (argc - 1) arg0) k (argc - 1 + 1) with
                | none => rw [hr] at hv; simp at hv
                | some t =>
                    rw [hr] at hv
                    simp only [Option.map_some', Option.some.injEq] at hv
                    rw [← hv]; rfl
          have hb : call.binary = binary := by rw [← h]
          have hc : call.args = args := by rw [← h]
          rw [hc, hhead, hb]
          cases hl : ctx.to_.login with
          | false => exact Or.inr ⟨rfl, rfl, rfl⟩
          | true =>
              cases hm : env.malloc_ok with
              | true => exact Or.inl ⟨rfl, rfl, rfl⟩
              | false => simp [allow_arg0, hl, hm] at ha

/-- Whenever `allow` reaches `execvp`, the first string of the vector it passes is
the basename of the program it passes, with one `-` in front if and only if a
login shell was requested. -/
theorem allow_exec_argv0 (ctx : su_context) (p : SuProc) (env : SuEnv) (call : ExecCall)
    (h : allow ctx p env = .exec call) :
    ∃ base : List Char, '/' ∉ base ∧
      (('/' ∉ call.binary ∧ base = call.binary) ∨ ∃ pre, call.binary = pre ++ '/' :: base) ∧
      call.args.head? = some (if ctx.to_.login then '-' :: base else base) := by
  have key : ∀ (binary : List Char) (argv : ArgMem) (argc : Int) (stores : List Int)
      (q : SuProc), allow_exec ctx binary argv argc stores q env = .exec call →
      ∃ base : List Char, '/' ∉ base ∧
        (('/' ∉ call.binary ∧ base = call.binary) ∨
          ∃ pre, call.binary = pre ++ '/' :: base) ∧
        call.args.head? = some (if ctx.to_.login then '-' :: base else base) := by
    intro binary argv argc stores q hq
    obtain ⟨base, h1, h2, h3⟩ := allow_arg0_basename binary ctx.to_.login
    rcases allow_exec_head ctx binary argv argc stores q env call hq with
      ⟨hb, hh, hm⟩ | ⟨hb, hh, hl⟩
    · rw [hm] at hh
      exact ⟨base, h1, by rw [hb]; exact h2, by rw [hh, h3]⟩
    · refine ⟨base, h1, by rw [hb]; exact h2, ?_⟩
      rw [hh, hl]
      rw [hl] at h3
      simp only [allow_arg0, Bool.false_eq_true, if_false] at h3 ⊢
      exact h3
  simp only [allow] at h
  cases hc : ctx.to_.command with
  | some command =>
      rw [hc] at h
      cases hs : ctx.to_.shell with
      | none => rw [hs] at h; simp at h
      | some binary => rw [hs] at h; exact key _ _ _ _ _ h
  | none =>
      rw [hc] at h
      cases hs : ctx.to_.shell with
      | some binary => rw [hs] at h; exact key _ _ _ _ _ h
      | none =>
          rw [hs] at h
          cases hg : ctx.to_.argv.get ctx.to_.optind with
          | ptr binary => rw [hg] at h; exact key _ _ _ _ _ h
          | null => rw [hg] at h; exact key _ _ _ _ _ h
          | unknown => rw [hg] at h; simp at h

/-- C10. For every program path and login flag, the value `allow` computes for
`argv[0]` is the basename of the path (the text after its last `/`, or the whole
path when it has no `/`) with a single `-` in front if and only if a login shell
was requested; and whenever `allow` calls `execvp`, the first string of the
vector it passes is that value for the program it passes. -/
theorem allow_argv0_basename (binary : List Char) (login : Bool) :
    (∃ base : List Char, '/' ∉ base ∧
      (('/' ∉ binary ∧ base = binary) ∨ ∃ pre, binary = pre ++ '/' :: base) ∧
      allow_arg0 binary login true = some (if login then '-' :: base else base)) ∧
    (∀ (ctx : su_context) (p : SuProc) (env : SuEnv) (call : ExecCall),
      allow ctx p env = .exec call → call.binary = binary → ctx.to_.login = login →
      ∃ base : List Char, '/' ∉ base ∧
        (('/' ∉ binary ∧ base = binary) ∨ ∃ pre, binary = pre ++ '/' :: base) ∧
        call.args.head? = some (if login then '-' :: base else base)) ∧
    allow { su_main_context ["su".toList] with
            to_ := { (su_main_context ["su".toList]).to_ with login := true, optind := 1 } }
        sample_su_proc sample_su_env =
      .exec { binary := "/system/bin/sh".toList, start := 0, args := ["-sh".toList],
              stores := [0],
              proc := { sample_su_proc with
                        umask := 0,
                        environ := [("LOGNAME".toList, "shell".toList),
                          ("USER".toList, "shell".toList),
                          ("SHELL".toList, "/system/bin/sh".toList),
                          ("HOME".toList, "/data".toList), ("IFS".toList, "x".toList)] } } := by
  refine ⟨allow_arg0_basename binary login, ?_, by decide⟩
  intro ctx p env call h hb hl
  obtain ⟨base, h1, h2, h3⟩ := allow_exec_argv0 ctx p env call h
  rw [hb] at h2
  rw [hl] at h3
  exact ⟨base, h1, h2, h3⟩

/-! ## C7: `USER` and `LOGNAME` -/

theorem getenv_setenv_same (e : Environ) (k v : List Char) :
    getenv (setenv e k v) k = some v := by
  simp [getenv, setenv]

theorem getenv_unsetenv_other (e : Environ) (k k1 : List Char) (h : k1 ≠ k) :
    getenv (unsetenv e k) k1 = getenv e k1 := by
  induction e with
  | nil => rfl
  | cons kv rest ih =>
      simp only [getenv, unsetenv] at ih ⊢
      by_cases h1 : kv.1 = k
      · have h2 : ¬ kv.1 = k1 := fun h2 => h (h2.symm.trans h1)
        have hf : decide (kv.1 ≠ k) = false := by simp [h1]
        have hg : decide (kv.1 = k1) = false := by simp [h2]
        rw [List.filter_cons_of_neg (by simp [hf]), List.find?_cons_of_neg _ (by simp [hg])]
        exact ih
      · rw [List.filter_cons_of_pos (by simp [h1])]
        by_cases h2 : kv.1 = k1
        · rw [List.find?_cons_of_pos _ (by simp [h2]), List.find?_cons_of_pos _ (by simp [h2])]
        · have hg : decide (kv.1 = k1) = false := by simp [h2]
          rw [List.find?_cons_of_neg _ (by simp [hg]), List.find?_cons_of_neg _ (by simp [hg])]
          exact ih

theorem getenv_setenv_other (e : Environ) (k k1 v : List Char) (h : k1 ≠ k) :
    getenv (setenv e k v) k1 = getenv e k1 := by
  have h2 : ¬ k = k1 := fun h2 => h h2.symm
  have := getenv_unsetenv_other e k k1 h
  simp only [getenv, setenv] at this ⊢
  simp [List.find?, h2, this]

/-- C7, amended. When keep-environment is not requested and the lookup of the
target account succeeds, `populate_environment` sets `USER` and `LOGNAME` to the
account name if a login shell was requested or the target uid is not 0, and
leaves both unchanged otherwise. -/
theorem populate_environment_user (ctx : su_context) (db : List passwd) (e : Environ)
    (pw : passwd) (hkeep : ctx.to_.keepenv = false)
    (hpw : getpwuid db ctx.to_.uid = some pw) :
    ((ctx.to_.login = true ∨ ctx.to_.uid ≠ 0) →
      getenv (populate_environment ctx db e) "USER".toList = some pw.pw_name ∧
      getenv (populate_environment ctx db e) "LOGNAME".toList = some pw.pw_name) ∧
    (¬ (ctx.to_.login = true ∨ ctx.to_.uid ≠ 0) →
      getenv (populate_environment ctx db e) "USER".toList = getenv e "USER".toList ∧
      getenv (populate_environment ctx db e) "LOGNAME".toList =
        getenv e "LOGNAME".toList) := by
  have hUL : "USER".toList ≠ "LOGNAME".toList := by decide
  have hUS : "USER".toList ≠ "SHELL".toList := by decide
  have hUH : "USER".toList ≠ "HOME".toList := by decide
  have hLS : "LOGNAME".toList ≠ "SHELL".toList := by decide
  have hLH : "LOGNAME".toList ≠ "HOME".toList := by decide
  constructor
  · intro h
    simp only [populate_environment, hkeep, Bool.false_eq_true, if_false, hpw, h, if_true]
    exact ⟨by rw [getenv_setenv_other _ _ _ _ hUL, getenv_setenv_same],
      getenv_setenv_same _ _ _⟩
  · intro h
    simp only [populate_environment, hkeep, Bool.false_eq_true, if_false, hpw, h]
    cases ctx.to_.shell with
    | none =>
        exact ⟨by rw [getenv_setenv_other _ _ _ _ hUS, getenv_setenv_other _ _ _ _ hUH],
          by rw [getenv_setenv_other _ _ _ _ hLS, getenv_setenv_other _ _ _ _ hLH]⟩
    | some sh =>
        exact ⟨by rw [getenv_setenv_other _ _ _ _ hUS, getenv_setenv_other _ _ _ _ hUH],
          by rw [getenv_setenv_other _ _ _ _ hLS, getenv_setenv_other _ _ _ _ hLH]⟩

/-- C7, amended, at the context `su_main` starts from with the target uid set to
0: `USER` stays `u0` and `LOGNAME` stays unset. -/
theorem populate_environment_user_witness :
    getenv (populate_environment
        { su_main_context [] with to_ := { (su_main_context []).to_ with uid := 0 } }
        sample_passwd sample_su_proc.environ) "USER".toList = some "u0".toList ∧
    getenv (populate_environment
        { su_main_context [] with to_ := { (su_main_context []).to_ with uid := 0 } }
        sample_passwd sample_su_proc.environ) "LOGNAME".toList = none :=
  (populate_environment_user
    { su_main_context [] with to_ := { (su_main_context []).to_ with uid := 0 } }
    sample_passwd sample_su_proc.environ
    { pw_name := "root".toList, pw_uid := 0, pw_dir := "/".toList } rfl rfl).2 (by decide)

/-- C7 as stated fails in both directions.  With the target uid `su_main`
initialises (2000) and no login shell, `USER` and `LOGNAME` are set to the
account name although the target is the default one; with the target uid 0, which
is not the default one, and no login shell they are left unchanged. -/
theorem populate_environment_user_counterexample :
    (su_main_context []).to_.uid = 2000 ∧ (su_main_context []).to_.login = false ∧
    (su_main_context []).to_.keepenv = false ∧
    getpwuid sample_passwd 2000 =
      some { pw_name := "shell".toList, pw_uid := 2000, pw_dir := "/data".toList } ∧
    getenv sample_su_proc.environ "USER".toList = some "u0".toList ∧
    getenv (populate_environment (su_main_context []) sample_passwd sample_su_proc.environ)
      "USER".toList = some "shell".toList ∧
    getenv (populate_environment (su_main_context []) sample_passwd sample_su_proc.environ)
      "LOGNAME".toList = some "shell".toList ∧
    getenv (populate_environment
        { su_main_context [] with to_ := { (su_main_context []).to_ with uid := 0 } }
        sample_passwd sample_su_proc.environ) "USER".toList = some "u0".toList ∧
    getenv (populate_environment
        { su_main_context [] with to_ := { (su_main_context []).to_ with uid := 0 } }
        sample_passwd sample_su_proc.environ) "LOGNAME".toList = none := by
  decide

/-! ## C5: the interpretation of the response -/

theorem c_str_literal (l : List Char) (h : Char.ofNat 0 ∉ l) : c_str l = l := by
  induction l with
  | nil => rfl
  | cons x t ih =>
      have hx : x ≠ Char.ofNat 0 := fun hx => h (by simp [hx])
      have ht : Char.ofNat 0 ∉ t := fun ht => h (by simp [ht])
      have := ih ht
      simp only [c_str] at this ⊢
      simp only [List.takeWhile, hx, ne_eq, not_false_eq_true, decide_True, this]

theorem c_str_take_drop (buf : List Char) (n : Nat) (h : n ≤ (c_str buf).length) :
    c_str (buf.drop n) = (c_str buf).drop n := by
  induction n generalizing buf with
  | zero => rfl
  | succ k ih =>
      cases buf with
      | nil => simp [c_str] at h
      | cons x t =>
          by_cases hx : x = Char.ofNat 0
          · simp [c_str, List.takeWhile, hx] at h
          · have hc : c_str (x :: t) = x :: c_str t := by
              simp [c_str, List.takeWhile, hx]
            rw [hc] at h ⊢
            simp only [List.length_cons, Nat.add_le_add_iff_right] at h
            simp only [List.drop_succ_cons]
            exact ih t h

theorem take_eq_iff_isPrefix (l r : List Char) : r.take l.length = l ↔ l <+: r := by
  constructor
  · intro h
    refine ⟨r.drop l.length, ?_⟩
    have h2 := List.take_append_drop l.length r
    rw [h] at h2
    exact h2
  · rintro ⟨t, rfl⟩
    simp

/-- The if-chain of `su_main_verdict` on a resolved string. -/
theorem verdict_chain (x F A : List Char) (hFA : F ≠ A) :
    (if decide (x = F) = true then Verdict.deny
      else if decide (x = A) = true then Verdict.grant else Verdict.deny) =
    if x = A then Verdict.grant else Verdict.deny := by
  by_cases h1 : x = F
  · have h2 : ¬ x = A := fun h2 => hFA (h1.symm.trans h2)
    rw [if_pos (by simp [h1]), if_neg h2]
  · rw [if_neg (by simp [h1])]
    by_cases h2 : x = A
    · rw [if_pos (by simp [h2]), if_pos h2]
    · rw [if_neg (by simp [h2]), if_neg h2]

/-- The choice of `su_main_verdict`, in terms of the response string. -/
theorem su_main_verdict_eq (buf : List Char) :
    su_main_verdict buf =
      if strip_socket (c_str buf) = "ALLOW".toList then .grant else .deny := by
  have hS : c_str SOCKET_RESPONSE = SOCKET_RESPONSE := c_str_literal _ (by decide)
  have hA : c_str "ALLOW".toList = "ALLOW".toList := c_str_literal _ (by decide)
  have hF : c_str "fail".toList = "fail".toList := c_str_literal _ (by decide)
  have hFA : "fail".toList ≠ "ALLOW".toList := by decide
  by_cases hp : SOCKET_RESPONSE <+: c_str buf
  · have ht : (c_str buf).take SOCKET_RESPONSE.length = SOCKET_RESPONSE :=
      (take_eq_iff_isPrefix _ _).mpr hp
    have hle : SOCKET_RESPONSE.length ≤ (c_str buf).length := hp.length_le
    have hd := c_str_take_drop buf SOCKET_RESPONSE.length hle
    have hres : (if strncmp_eq buf SOCKET_RESPONSE SOCKET_RESPONSE.length = false then buf
        else buf.drop SOCKET_RESPONSE.length) = buf.drop SOCKET_RESPONSE.length := by
      rw [if_neg]
      simp [strncmp_eq, hS, ht]
    unfold su_main_verdict
    rw [hres]
    unfold strcmp_eq strip_socket
    dsimp only
    rw [hA, hF, hd, if_pos hp]
    exact verdict_chain _ _ _ hFA
  · have ht : ¬ (c_str buf).take SOCKET_RESPONSE.length = SOCKET_RESPONSE :=
      fun h => hp ((take_eq_iff_isPrefix _ _).mp h)
    have hres : (if strncmp_eq buf SOCKET_RESPONSE SOCKET_RESPONSE.length = false then buf
        else buf.drop SOCKET_RESPONSE.length) = buf := by
      rw [if_pos]
      simp [strncmp_eq, hS, ht]
    unfold su_main_verdict
    rw [hres]
    unfold strcmp_eq strip_socket
    dsimp only
    rw [hA, hF, if_neg hp]
    exact verdict_chain _ _ _ hFA

/-- C5. For every contents of the response buffer, the last statements of
`su_main` call `allow` if and only if the response string, after one leading
`socket:` is removed when it is present, is exactly `ALLOW`, and call `fail`
otherwise, as for `fail`; a response with the leading `socket:` is decided as its
remainder is, so `socket:ALLOW` and `ALLOW` both grant. -/
theorem su_main_verdict_allow (buf : List Char) :
    (su_main_verdict buf = .grant ↔ strip_socket (c_str buf) = "ALLOW".toList) ∧
    (su_main_verdict buf = .deny ↔ strip_socket (c_str buf) ≠ "ALLOW".toList) ∧
    (su_main_verdict (SOCKET_RESPONSE ++ buf) = .grant ↔ c_str buf = "ALLOW".toList) ∧
    (∀ (ctx : su_context) (p : SuProc) (env : SuEnv),
      su_main_finish ctx buf p env =
        if strip_socket (c_str buf) = "ALLOW".toList then allow ctx p env else fail ctx) ∧
    su_main_verdict "socket:ALLOW".toList = .grant ∧
    su_main_verdict "ALLOW".toList = .grant ∧
    su_main_verdict "socket:fail".toList = .deny ∧
    su_main_verdict "fail".toList = .deny ∧
    su_main_verdict "socket:socket:ALLOW".toList = .deny ∧
    su_main_verdict "allow".toList = .deny := by
  have h := su_main_verdict_eq buf
  have hS : c_str SOCKET_RESPONSE = SOCKET_RESPONSE := c_str_literal _ (by decide)
  refine ⟨?_, ?_, ?_, ?_, by decide, by decide, by decide, by decide, by decide, by decide⟩
  · rw [h]; by_cases h1 : strip_socket (c_str buf) = "ALLOW".toList <;> simp [h1]
  · rw [h]; by_cases h1 : strip_socket (c_str buf) = "ALLOW".toList <;> simp [h1]
  · rw [su_main_verdict_eq]
    have hc : c_str (SOCKET_RESPONSE ++ buf) = SOCKET_RESPONSE ++ c_str buf := by
      simp only [c_str, SOCKET_RESPONSE]
      rfl
    have hp : SOCKET_RESPONSE <+: SOCKET_RESPONSE ++ c_str buf := List.prefix_append _ _
    rw [hc, strip_socket, if_pos hp, List.drop_left]
    by_cases h1 : c_str buf = "ALLOW".toList <;> simp [h1]
  · intro ctx p env
    rw [su_main_finish, h]
    by_cases h1 : strip_socket (c_str buf) = "ALLOW".toList
    · rw [if_pos h1, if_pos h1]
    · rw [if_neg h1, if_neg h1]

/-! ## C8: the addresses of the listening sockets -/

/-- C8, amended. Whenever `run_daemon` or `socket_create_temp` reaches `bind`, the
address it binds is the wildcard address `INADDR_ANY` on the port `PORT`, so each
listener receives connections addressed to every address of the host, the
loopback address included; the address 127.0.0.1 appears only in
`connect_daemon`, as the destination the client connects to. -/
theorem listeners_bind_any (k : SocketEnv) (a : sockaddr_in) :
    ((run_daemon_listen k).2 = some a ∨ (socket_create_temp k).2 = some a) →
      a = { sin_family := AF_INET, sin_port := PORT, sin_addr := INADDR_ANY } ∧
      (∀ dest : Nat, bound_to a dest PORT = true) ∧
      bound_to a (inet_addr "127.0.0.1".toList) connect_daemon_addr.sin_port = true ∧
      connect_daemon_addr.sin_addr = inet_addr "127.0.0.1".toList := by
  intro h
  have ha : a = { sin_family := AF_INET, sin_port := PORT, sin_addr := INADDR_ANY } := by
    rcases h with h | h
    · simp only [run_daemon_listen] at h
      split at h
      · simp at h
      · split at h
        · simp at h
        · split at h
          · simp at h; exact h.symm
          · split at h <;> (simp at h; exact h.symm)
    · simp only [socket_create_temp] at h
      split at h
      · simp at h
      · split at h
        · simp at h
        · split at h
          · simp at h; exact h.symm
          · split at h <;> (simp at h; exact h.symm)
  subst ha
  exact ⟨rfl, fun dest => by simp [bound_to, INADDR_ANY], by decide, rfl⟩

/-- C8, amended, where every call succeeds and `socket` returns 3. -/
theorem listeners_bind_any_witness :
    (run_daemon_listen
        { socket_ret := 3, cloexec_ok := true, bind_ok := true, listen_ok := true }).1 = 3 ∧
    (∀ dest : Nat,
      bound_to { sin_family := AF_INET, sin_port := PORT, sin_addr := INADDR_ANY } dest PORT =
        true) :=
  ⟨by decide,
   (listeners_bind_any
      { socket_ret := 3, cloexec_ok := true, bind_ok := true, listen_ok := true }
      { sin_family := AF_INET, sin_port := PORT, sin_addr := INADDR_ANY }
      (Or.inl (by decide))).2.1⟩

/-- C8 as stated fails: both listeners are bound to 0.0.0.0, which is not the
loopback address 127.0.0.1, and so receive connections addressed to the
non-loopback address 192.168.0.2. -/
theorem listeners_bind_any_counterexample :
    (run_daemon_listen
        { socket_ret := 3, cloexec_ok := true, bind_ok := true, listen_ok := true }).2 =
      some { sin_family := AF_INET, sin_port := PORT, sin_addr := INADDR_ANY } ∧
    (socket_create_temp
        { socket_ret := 3, cloexec_ok := true, bind_ok := true, listen_ok := true }).2 =
      some { sin_family := AF_INET, sin_port := PORT, sin_addr := INADDR_ANY } ∧
    INADDR_ANY ≠ inet_addr "127.0.0.1".toList ∧
    inet_addr "192.168.0.2".toList ≠ inet_addr "127.0.0.1".toList ∧
    bound_to { sin_family := AF_INET, sin_port := PORT, sin_addr := INADDR_ANY }
      (inet_addr "192.168.0.2".toList) PORT = true := by
  decide

/-! ## C4: the program and the vector passed to `execvp` -/

theorem ArgMem.get_orig (m : ArgMem) (i : Nat) (a : List Char)
    (hw : m.writes.lookup (i : Int) = none) (ha : m.orig[i]? = some a) :
    m.get i = .ptr a := by
  have h0 : ¬ ((i : Int) < 0) := by omega
  simp only [ArgMem.get, hw, h0, if_false, Int.toNat_ofNat, ha]

theorem ArgMem.get_end (m : ArgMem) (hw : m.writes.lookup (m.orig.length : Int) = none) :
    m.get m.orig.length = .null := by
  have h0 : ¬ ((m.orig.length : Int) < 0) := by omega
  simp only [ArgMem.get, hw, h0, if_false, Int.toNat_ofNat]
  rw [List.getElem?_eq_none (Nat.le_refl _)]
  simp

theorem lookup_none_of_lt (w : List (Int × List Char)) (i : Int)
    (h : ∀ x ∈ w, x.1 < i) : ∀ j : Int, i ≤ j → w.lookup j = none := by
  intro j hj
  induction w with
  | nil => rfl
  | cons x t ih =>
      have hx := h x (by simp)
      have hne : (j == x.1) = false := by
        simp only [beq_eq_false_iff_ne, ne_eq]
        omega
      obtain ⟨x1, x2⟩ := x
      simp only [List.lookup, hne]
      exact ih (fun y hy => h y (by simp [hy]))

/-- Reading the vector from an index at or after every store gives the rest of
the received vector. -/
theorem ArgMem.read_orig (m : ArgMem) (n i : Nat) (hi : i + n = m.orig.length)
    (hw : ∀ x ∈ m.writes, x.1 < (i : Int)) :
    m.read (n + 1) i = some (m.orig.drop i) := by
  induction n generalizing i with
  | zero =>
      have hi0 : i = m.orig.length := by omega
      subst hi0
      have hl := lookup_none_of_lt m.writes _ hw (m.orig.length : Int) (le_refl _)
      simp only [ArgMem.read, ArgMem.get_end m hl, List.drop_length]
  | succ k ih =>
      have hlt : i < m.orig.length := by omega
      have hl := lookup_none_of_lt m.writes _ hw (i : Int) (le_refl _)
      have hg := ArgMem.get_orig m i m.orig[i] hl (List.getElem?_eq_getElem hlt)
      have hrec := ih (i + 1) (by omega) (fun x hx => by have := hw x hx; omega)
      rw [ArgMem.read, hg]
      simp only
      have hcast : ((i : Int) + 1) = ((i + 1 : Nat) : Int) := by omega
      rw [hcast, hrec]
      simp only [Option.map_some', Option.some.injEq]
      exact (List.drop_eq_getElem_cons hlt).symm

theorem ArgMem.read_ptr (m : ArgMem) (n : Nat) (i : Int) (v : List Char)
    (rest : List (List Char)) (hg : m.get i = .ptr v) (hr : m.read n (i + 1) = some rest) :
    m.read (n + 1) i = some (v :: rest) := by
  rw [ArgMem.read, hg]
  simp only [hr, Option.map_some']

/-- The vector read after `argv[k - 1] = a0`. -/
theorem vector_one_store (argv : List (List Char)) (k : Nat) (hk : k ≤ argv.length)
    (a0 : List Char) :
    (({ orig := argv, writes := [] } : ArgMem).set ((k : Int) - 1) a0).vector ((k : Int) - 1) =
      some (a0 :: argv.drop k) := by
  have hf : (((argv.length : Int) + 1 - ((k : Int) - 1)).toNat) = (argv.length - k + 1) + 1 := by
    omega
  simp only [ArgMem.vector, ArgMem.set, hf]
  apply ArgMem.read_ptr
  · simp [ArgMem.get, List.lookup]
  · have h1 : ((k : Int) - 1 + 1) = (k : Int) := by omega
    rw [h1]
    exact ArgMem.read_orig { orig := argv, writes := [((k : Int) - 1, a0)] } (argv.length - k) k
      (by simp only; omega) (fun x hx => by
        simp only [List.mem_singleton] at hx
        rw [hx]; simp only; omega)

/-- The vector read after `argv[k] = a0`. -/
theorem vector_store_at (argv : List (List Char)) (k : Nat) (hk : k < argv.length)
    (a0 : List Char) :
    (({ orig := argv, writes := [] } : ArgMem).set (((k : Int) + 1) - 1) a0).vector
        (((k : Int) + 1) - 1) =
      some (a0 :: argv.drop (k + 1)) := by
  have h := vector_one_store argv (k + 1) hk a0
  simp only [Nat.cast_add, Nat.cast_one] at h
  exact h

/-- The vector read after `argv[k - 1] = cmd`, `argv[k - 2] = "-c"` and
`argv[k - 3] = a0`. -/
theorem vector_three_stores (argv : List (List Char)) (k : Nat) (hk : k ≤ argv.length)
    (a0 cmd : List Char) :
    (((({ orig := argv, writes := [] } : ArgMem).set ((k : Int) - 1) cmd).set ((k : Int) - 2)
        "-c".toList).set ((k : Int) - 2 - 1) a0).vector ((k : Int) - 2 - 1) =
      some (a0 :: "-c".toList :: cmd :: argv.drop k) := by
  have hf : (((argv.length : Int) + 1 - ((k : Int) - 2 - 1)).toNat) =
      (((argv.length - k + 1) + 1) + 1) + 1 := by omega
  have e1 : ((k : Int) - 2 - 1 + 1) = (k : Int) - 2 := by omega
  have e2 : ((k : Int) - 2 + 1) = (k : Int) - 1 := by omega
  have e3 : ((k : Int) - 1 + 1) = (k : Int) := by omega
  have n1 : ((k : Int) - 2 == (k : Int) - 2 - 1) = false := by
    simp only [beq_eq_false_iff_ne, ne_eq]; omega
  have n2 : ((k : Int) - 1 == (k : Int) - 2 - 1) = false := by
    simp only [beq_eq_false_iff_ne, ne_eq]; omega
  have n3 : ((k : Int) - 1 == (k : Int) - 2) = false := by
    simp only [beq_eq_false_iff_ne, ne_eq]; omega
  simp only [ArgMem.vector, ArgMem.set, hf]
  apply ArgMem.read_ptr
  · simp [ArgMem.get, List.lookup]
  rw [e1]
  apply ArgMem.read_ptr
  · simp [ArgMem.get, List.lookup, n1]
  rw [e2]
  apply ArgMem.read_ptr
  · simp [ArgMem.get, List.lookup, n2, n3]
  rw [e3]
  exact ArgMem.read_orig
    { orig := argv,
      writes := [((k : Int) - 2 - 1, a0), ((k : Int) - 2, "-c".toList), ((k : Int) - 1, cmd)] }
    (argv.length - k) k (by simp only; omega) (fun x hx => by
      simp only [List.mem_cons, List.mem_singleton, List.not_mem_nil, or_false] at hx
      rcases hx with hx | hx | hx <;> (rw [hx]; simp only; omega))

theorem allow_arg0_some (binary : List Char) (login : Bool) :
    ∃ a0, allow_arg0 binary login true = some a0 := by
  cases login <;> simp [allow_arg0]

/-- What `allow_exec` does once the vector can be read. -/
theorem allow_exec_eq (ctx : su_context) (binary : List Char) (argv : ArgMem) (argc : Int)
    (stores : List Int) (p : SuProc) (env : SuEnv) (a0 : List Char)
    (vec : List (List Char)) (hm : env.malloc_ok = true)
    (ha : allow_arg0 binary ctx.to_.login true = some a0)
    (hv : (argv.set (argc - 1) a0).vector (argc - 1) = some vec) :
    allow_exec ctx binary argv argc stores p env =
      .exec { binary := binary, start := argc - 1, args := vec,
              stores := stores ++ [argc - 1],
              proc := { p with environ := populate_environment ctx env.passwd_db p.environ } } := by
  simp only [allow_exec, hm, ha, hv]

/-- The program `allow` resolves and the vector it passes to `execvp`, for a
request whose `optind` lies within the received vector. -/
theorem allow_resolved (ctx : su_context) (p : SuProc) (env : SuEnv)
    (argv : List (List Char)) (k : Nat) (hk : k ≤ argv.length)
    (hargv : ctx.to_.argv = { orig := argv, writes := [] })
    (hopt : ctx.to_.optind = (k : Int)) (hm : env.malloc_ok = true)
    (hinv : ctx.to_.command.isSome = true → ctx.to_.shell.isSome = true) :
    ∃ (call : ExecCall) (a0 : List Char),
      allow ctx p env = .exec call ∧
      allow_arg0 call.binary ctx.to_.login true = some a0 ∧
      (∀ cmd, ctx.to_.command = some cmd →
        ∃ sh, ctx.to_.shell = some sh ∧ call.binary = sh ∧
          call.args = a0 :: "-c".toList :: cmd :: argv.drop k) ∧
      (ctx.to_.command = none → ∀ sh, ctx.to_.shell = some sh →
        call.binary = sh ∧ call.args = a0 :: argv.drop k) ∧
      (ctx.to_.command = none → ctx.to_.shell = none →
        ∀ a rest, argv.drop k = a :: rest → call.binary = a ∧ call.args = a0 :: rest) ∧
      (ctx.to_.command = none → ctx.to_.shell = none → argv.drop k = [] →
        call.binary = DEFAULT_SHELL ∧ call.args = [a0]) := by
  cases hc : ctx.to_.command with
  | some cmd =>
      have hs0 := hinv (by rw [hc]; rfl)
      cases hs : ctx.to_.shell with
      | none => rw [hs] at hs0; cases hs0
      | some sh =>
          obtain ⟨a0, ha⟩ := allow_arg0_some sh ctx.to_.login
          have hv := vector_three_stores argv k hk a0 cmd
          have hu : allow ctx p env = allow_exec ctx sh
              ((({ orig := argv, writes := [] } : ArgMem).set ((k : Int) - 1) cmd).set
                ((k : Int) - 2) "-c".toList)
              ((k : Int) - 2) [(k : Int) - 1, (k : Int) - 2] { p with umask := ctx.umask }
              env := by
            simp only [allow, hc, hs, hargv, hopt]
          have hall := hu.trans (allow_exec_eq ctx sh _ _ _ _ env a0 _ hm ha hv)
          refine ⟨_, a0, hall, ha, ?_, ?_, ?_, ?_⟩
          · intro cmd1 h1
            simp only [Option.some.injEq] at h1
            subst h1
            exact ⟨sh, rfl, rfl, rfl⟩
          · intro h1; cases h1
          · intro h1; cases h1
          · intro h1; cases h1
  | none =>
      cases hs : ctx.to_.shell with
      | some sh =>
          obtain ⟨a0, ha⟩ := allow_arg0_some sh ctx.to_.login
          have hv := vector_one_store argv k hk a0
          have hu : allow ctx p env = allow_exec ctx sh
              ({ orig := argv, writes := [] } : ArgMem) (k : Int) []
              { p with umask := ctx.umask } env := by
            simp only [allow, hc, hs, hargv, hopt]
          have hall := hu.trans (allow_exec_eq ctx sh _ _ _ _ env a0 _ hm ha hv)
          refine ⟨_, a0, hall, ha, ?_, ?_, ?_, ?_⟩
          · intro cmd1 h1; cases h1
          · intro _ sh1 h1
            simp only [Option.some.injEq] at h1
            subst h1
            exact ⟨rfl, rfl⟩
          · intro _ h1; cases h1
          · intro _ h1; cases h1
      | none =>
          rcases Nat.lt_or_ge k argv.length with hlt | hge
          · have hg : ({ orig := argv, writes := [] } : ArgMem).get (k : Int) =
                .ptr argv[k] :=
              ArgMem.get_orig _ k _ rfl (List.getElem?_eq_getElem hlt)
            obtain ⟨a0, ha⟩ := allow_arg0_some argv[k] ctx.to_.login
            have hv := vector_store_at argv k hlt a0
            have hu : allow ctx p env = allow_exec ctx argv[k]
                ({ orig := argv, writes := [] } : ArgMem) ((k : Int) + 1) []
                { p with umask := ctx.umask } env := by
              simp only [allow, hc, hs, hargv, hopt, hg]
            have hall := hu.trans (allow_exec_eq ctx argv[k] _ _ _ _ env a0 _ hm ha hv)
            have hd : argv.drop k = argv[k] :: argv.drop (k + 1) :=
              List.drop_eq_getElem_cons hlt
            refine ⟨_, a0, hall, ha, ?_, ?_, ?_, ?_⟩
            · intro cmd1 h1; cases h1
            · intro _ sh1 h1; cases h1
            · intro _ _ a rest h1
              rw [hd] at h1
              simp only [List.cons.injEq] at h1
              exact ⟨h1.1, by rw [h1.2]⟩
            · intro _ _ h1
              rw [hd] at h1
              cases h1
          · have hkl : k = argv.length := by omega
            have hg : ({ orig := argv, writes := [] } : ArgMem).get (k : Int) = .null := by
              rw [hkl]
              exact ArgMem.get_end { orig := argv, writes := [] } rfl
            obtain ⟨a0, ha⟩ := allow_arg0_some DEFAULT_SHELL ctx.to_.login
            have hv := vector_one_store argv k hk a0
            have hu : allow ctx p env = allow_exec ctx DEFAULT_SHELL
                ({ orig := argv, writes := [] } : ArgMem) (k : Int) []
                { p with umask := ctx.umask } env := by
              simp only [allow, hc, hs, hargv, hopt, hg]
            have hd : argv.drop k = [] := by rw [hkl]; exact List.drop_length argv
            rw [hd] at hv
            have hall := hu.trans (allow_exec_eq ctx DEFAULT_SHELL _ _ _ _ env a0 _ hm ha hv)
            refine ⟨_, a0, hall, ha, ?_, ?_, ?_, ?_⟩
            · intro cmd1 h1; cases h1
            · intro _ sh1 h1; cases h1
            · intro _ _ a rest h1
              rw [hd] at h1
              cases h1
            · intro _ _ _
              exact ⟨rfl, rfl⟩

/-! ### What the option loop establishes -/

theorem long_match_mem (nm : List Char) (opts : List long_option) :
    ∀ (m : Option long_option) (amb : Bool) (o : long_option),
      (long_match nm opts m amb).1 = some o → o ∈ opts ∨ m = some o := by
  induction opts with
  | nil =>
      intro m amb o h
      simp only [long_match] at h
      exact Or.inr h
  | cons x rest ih =>
      intro m amb o h
      simp only [long_match] at h
      split at h
      · split at h
        · simp only [Option.some.injEq] at h
          exact Or.inl (by simp [h])
        · split at h
          · rcases ih _ _ o h with h1 | h1
            · exact Or.inl (by simp [h1])
            · simp only [Option.some.injEq] at h1
              exact Or.inl (by simp [h1])
          · split at h
            · rcases ih _ _ o h with h1 | h1
              · exact Or.inl (by simp [h1])
              · exact Or.inr h1
            · rcases ih _ _ o h with h1 | h1
              · exact Or.inl (by simp [h1])
              · exact Or.inr h1
      · rcases ih _ _ o h with h1 | h1
        · exact Or.inl (by simp [h1])
        · exact Or.inr h1

/-- A long option that returns `c` or `s` comes with an argument. -/
theorem parse_long_options_optarg (x : List Char) (next : Option (List Char)) :
    ((parse_long_options long_opts x next).1 = 'c' ∨
      (parse_long_options long_opts x next).1 = 's') →
    (parse_long_options long_opts x next).2.1.isSome = true := by
  have htab : ∀ o ∈ long_opts, (o.val = 'c' ∨ o.val = 's') → o.has_arg = 1 := by decide
  have hq : ¬ ('?' = 'c' ∨ '?' = 's') := by decide
  intro h
  simp only [parse_long_options] at h ⊢
  generalize (if '=' ∈ x then some (List.dropWhile (fun c => decide (c ≠ '=')) x).tail
    else none) = he at h ⊢
  cases hm : long_match (List.takeWhile (fun c => decide (c ≠ '=')) x) long_opts none false with
  | mk om amb =>
      rw [hm] at h
      cases amb with
      | true => simp at h
      | false =>
          cases om with
          | none => simp at h
          | some o =>
              have hmem : o ∈ long_opts := by
                have h1 := long_match_mem _ long_opts none false o (by rw [hm])
                rcases h1 with h1 | h1
                · exact h1
                · cases h1
              simp only at h ⊢
              by_cases h0 : o.has_arg = 0
              · simp only [h0, if_true] at h
                cases he with
                | some v => exact absurd h hq
                | none =>
                    simp only [Option.isSome_none, Bool.false_eq_true, if_false] at h
                    have := htab o hmem h
                    omega
              · simp only [h0, if_false] at h ⊢
                cases he with
                | some v => rfl
                | none =>
                    simp only at h ⊢
                    have h1 : o.has_arg = 1 := by
                      by_cases h1 : o.has_arg = 1
                      · exact h1
                      · simp only [h1, if_false] at h
                        exact htab o hmem h
                    simp only [h1, if_true] at h ⊢
                    cases next with
                    | some a => rfl
                    | none => exact absurd h hq

/-- The option characters `c` and `s` take an argument. -/
theorem scan_place_optarg (next : Option (List Char)) (place : List Char) :
    ∀ e ∈ (scan_place "c:hlmps:Vv".toList long_opts next place).1,
      (e.1 = 'c' ∨ e.1 = 's') → e.2.isSome = true := by
  induction place with
  | nil => intro e he; simp [scan_place] at he
  | cons ch rest ih =>
      intro e he hcs
      simp only [scan_place] at he
      by_cases hd : ch = '-'
      · simp only [hd, if_true, List.mem_singleton] at he
        rw [he] at hcs ⊢
        exact parse_long_options_optarg rest next hcs
      · simp only [hd, if_false] at he
        by_cases hc : ch = 'c' ∨ ch = 's'
        · have hl : (if ch = ':' then none else optstring_lookup "c:hlmps:Vv".toList ch) =
              some 1 := by
            rcases hc with hc | hc <;> (subst hc; decide)
          rw [hl] at he
          simp only at he
          by_cases hr : rest = []
          · have h12 : ¬ ((1 : Nat) = 2) := by decide
            simp only [hr, ne_eq, not_true_eq_false, if_false, h12] at he
            cases next with
            | some a =>
                simp only [List.mem_singleton] at he
                rw [he]; rfl
            | none =>
                simp only [List.mem_singleton] at he
                rw [he] at hcs
                exact absurd hcs (by decide)
          · simp only [hr, ne_eq, not_false_eq_true, if_true, List.mem_singleton] at he
            rw [he]; rfl
        · have hne : e.1 = ch → False := fun h => hc (by rw [← h]; exact hcs)
          have hq : e.1 = '?' → False := fun h => by
            rw [h] at hcs
            exact absurd hcs (by decide)
          cases hl : (if ch = ':' then none else optstring_lookup "c:hlmps:Vv".toList ch) with
          | none =>
              rw [hl] at he
              simp only [List.mem_cons] at he
              rcases he with he | he
              · exact absurd (by rw [he]) hq
              · exact ih e he hcs
          | some k =>
              rw [hl] at he
              cases k with
              | zero =>
                  simp only [List.mem_cons] at he
                  rcases he with he | he
                  · exact absurd (by rw [he]) hne
                  · exact ih e he hcs
              | succ k1 =>
                  simp only at he
                  split at he
                  · simp only [List.mem_singleton] at he
                    exact absurd (by rw [he]) hne
                  · split at he
                    · simp only [List.mem_singleton] at he
                      exact absurd (by rw [he]) hne
                    · split at he
                      · simp only [List.mem_singleton] at he
                        exact absurd (by rw [he]) hne
                      · simp only [List.mem_singleton] at he
                        exact absurd (by rw [he]) hq

/-- Every return value `c` or `s` of `getopt_long` comes with an argument. -/
theorem getopt_scan_optarg (n : Nat) :
    ∀ (args : List (List Char)) (optind : Nat), args.length ≤ n →
      ∀ e ∈ (getopt_scan "c:hlmps:Vv".toList long_opts args optind).1,
        (e.1 = 'c' ∨ e.1 = 's') → e.2.isSome = true := by
  induction n with
  | zero =>
      intro args optind hlen e he
      have : args = [] := List.length_eq_zero.mp (by omega)
      subst this
      simp [getopt_scan] at he
  | succ n ih =>
      intro args optind hlen e he hcs
      match args, hlen, he with
      | [], _, he => simp [getopt_scan] at he
      | [arg], _, he =>
          simp only [getopt_scan] at he
          split at he
          · simp at he
          · exact scan_place_optarg none _ e he hcs
          · simp at he
      | arg :: next :: rest, hlen, he =>
          simp only [getopt_scan] at he
          split at he
          · simp at he
          · split at he
            · simp only [List.mem_append] at he
              rcases he with he | he
              · exact scan_place_optarg _ _ e he hcs
              · exact ih rest _ (by simp only [List.length_cons] at hlen; omega) e he hcs
            · simp only [List.mem_append] at he
              rcases he with he | he
              · exact scan_place_optarg _ _ e he hcs
              · exact ih (next :: rest) _ (by simp only [List.length_cons] at hlen ⊢; omega)
                  e he hcs
          · simp at he

/-- The value of `optind` when `getopt_long` returns -1. -/
theorem getopt_scan_optind (n : Nat) :
    ∀ (args : List (List Char)) (optind : Nat), args.length ≤ n →
      optind ≤ (getopt_scan "c:hlmps:Vv".toList long_opts args optind).2 ∧
      (getopt_scan "c:hlmps:Vv".toList long_opts args optind).2 ≤ optind + args.length := by
  induction n with
  | zero =>
      intro args optind hlen
      have : args = [] := List.length_eq_zero.mp (by omega)
      subst this
      simp [getopt_scan]
  | succ n ih =>
      intro args optind hlen
      match args, hlen with
      | [], _ => simp [getopt_scan]
      | [arg], _ =>
          simp only [getopt_scan]
          split <;> simp
      | arg :: next :: rest, hlen =>
          simp only [getopt_scan]
          simp only [List.length_cons] at hlen ⊢
          split
          · simp only; omega
          · split
            · have := ih rest (optind + 2) (by omega)
              simp only; omega
            · have := ih (next :: rest) (optind + 1) (by simp only [List.length_cons]; omega)
              simp only [List.length_cons] at this ⊢; omega
          · simp only; omega

/-- The option loop leaves the argument vector alone and never leaves a command
without a shell. -/
theorem su_main_options_inv (events : List (Char × Option (List Char))) :
    ∀ (to_ to1 : su_request),
      (∀ e ∈ events, (e.1 = 'c' ∨ e.1 = 's') → e.2.isSome = true) →
      su_main_options to_ events = .ok to1 →
      to1.argv = to_.argv ∧
      ((to_.command.isSome = true → to_.shell.isSome = true) →
        (to1.command.isSome = true → to1.shell.isSome = true)) := by
  induction events with
  | nil =>
      intro to_ to1 _ h
      simp only [su_main_options, Except.ok.injEq] at h
      subst h
      exact ⟨rfl, fun h => h⟩
  | cons e rest ih =>
      intro to_ to1 hev h
      obtain ⟨c, optarg⟩ := e
      have hrest : ∀ e ∈ rest, (e.1 = 'c' ∨ e.1 = 's') → e.2.isSome = true :=
        fun e he => hev e (by simp [he])
      simp only [su_main_options] at h
      split at h
      · obtain ⟨h1, h2⟩ := ih _ to1 hrest h
        exact ⟨h1, fun _ => h2 (fun _ => rfl)⟩
      · split at h
        · cases h
        · split at h
          · obtain ⟨h1, h2⟩ := ih _ to1 hrest h
            exact ⟨h1, h2⟩
          · split at h
            · obtain ⟨h1, h2⟩ := ih _ to1 hrest h
              exact ⟨h1, h2⟩
            · split at h
              · rename_i hs
                have hoa : optarg.isSome = true := hev (c, optarg) (by simp) (Or.inr hs)
                obtain ⟨h1, h2⟩ := ih _ to1 hrest h
                exact ⟨h1, fun _ => h2 (fun _ => hoa)⟩
              · split at h
                · cases h
                · split at h
                  · cases h
                  · cases h

/-- The resolution of the target keeps the command, the shell and the vector, and
leaves `optind` within the vector. -/
theorem su_main_target_inv (to1 to2 : su_request) (argv : List (List Char)) (optind : Nat)
    (env : SuEnv) (hle : optind ≤ argv.length)
    (h : su_main_target to1 argv optind env = .ok to2) :
    to2.command = to1.command ∧ to2.shell = to1.shell ∧ to2.argv = to1.argv ∧
      ∃ k : Nat, to2.optind = (k : Int) ∧ optind ≤ k ∧ k ≤ argv.length := by
  simp only [su_main_target] at h
  generalize hdash : (decide (optind < argv.length) &&
    strcmp_eq (argv.getD optind []) "-".toList) = dash at h
  have hd1 : (if dash = true then optind + 1 else optind) ≤ argv.length := by
    cases dash with
    | false => simpa using hle
    | true =>
        simp only [Bool.and_eq_true, decide_eq_true_eq] at hdash
        simp only [if_true]; omega
  have hd0 : optind ≤ (if dash = true then optind + 1 else optind) := by
    split <;> omega
  generalize (if dash = true then optind + 1 else optind) = o1 at h hd1 hd0
  generalize hnamed : (decide (o1 < argv.length) &&
    !strcmp_eq (argv.getD o1 []) "--".toList) = named at h
  have hn1 : (if named = true then o1 + 1 else o1) ≤ argv.length := by
    cases named with
    | false => simpa using hd1
    | true =>
        simp only [Bool.and_eq_true, decide_eq_true_eq] at hnamed
        simp only [if_true]; omega
  have hn0 : o1 ≤ (if named = true then o1 + 1 else o1) := by
    split <;> omega
  generalize (if named = true then o1 + 1 else o1) = o2 at h hn1 hn0
  generalize hsep : (decide (o2 < argv.length) &&
    strcmp_eq (argv.getD o2 []) "--".toList) = sep at h
  have hs1 : (if sep = true then o2 + 1 else o2) ≤ argv.length := by
    cases sep with
    | false => simpa using hn1
    | true =>
        simp only [Bool.and_eq_true, decide_eq_true_eq] at hsep
        simp only [if_true]; omega
  have hs0 : o2 ≤ (if sep = true then o2 + 1 else o2) := by
    split <;> omega
  generalize (if sep = true then o2 + 1 else o2) = o3 at h hs1 hs0
  have hk : ∃ k : Nat, ((o3 : Nat) : Int) = (k : Int) ∧ optind ≤ k ∧ k ≤ argv.length :=
    ⟨o3, rfl, by omega, hs1⟩
  split at h
  · cases h
  · rename_i to3 hr
    simp only [Except.ok.injEq] at h
    subst h
    have key : to3.command = to1.command ∧ to3.shell = to1.shell ∧ to3.argv = to1.argv := by
      split at hr
      · split at hr
        · split at hr
          · cases hr
          · simp only [Except.ok.injEq] at hr
            subst hr
            cases dash <;> simp
        · simp only [Except.ok.injEq] at hr
          subst hr
          cases dash <;> simp
      · simp only [Except.ok.injEq] at hr
        subst hr
        cases dash <;> simp
    exact ⟨key.1, key.2.1, key.2.2, hk⟩

/-- In worker mode, in the process that goes on after `fork_for_samsung`,
`su_main` ends in `allow` on the request it has parsed. -/
theorem su_main_eq_allow (argv : List (List Char)) (p : SuProc) (env : SuEnv)
    (to2 : su_request)
    (hnd : ¬ (argv.length = 2 ∧ strcmp_eq (argv.getD 1 []) "--daemon".toList = true))
    (hfork : env.fork_ret = 0) (hreq : su_main_request argv env = .ok to2) :
    su_main argv false p env =
      allow { su_main_context argv with to_ := to2 }
        { p with environ := unsec_vars.foldl unsetenv p.environ } env := by
  have h1 : ¬ env.fork_ret = -1 := by omega
  simp only [su_main_request] at hreq
  simp only [su_main, hnd, if_false, h1, hfork, ne_eq, not_true_eq_false, Bool.false_eq_true]
  cases ho : su_main_options (su_main_context argv).to_
      (getopt_scan "c:hlmps:Vv".toList long_opts (argv.drop 1) 1).1 with
  | error c => rw [ho] at hreq; cases hreq
  | ok to1 =>
      rw [ho] at hreq
      simp only at hreq ⊢
      rw [hreq]
      simp

/-- C4. Let worker-mode `su_main` (in the process that goes on after
`fork_for_samsung`, with `malloc` succeeding) accept a non-empty argument vector:
the option loop and the resolution of the target end in the request `to2`
without an exit.  Then `su_main` calls `execvp`, `optind` lies within the vector,
and the program and the vector passed follow the precedence: with an inline
command, the program is the shell of the request and the vector is `argv[0]`,
`-c`, the command and the positional arguments from `optind` on; otherwise with
a shell, the program is the shell and the vector is `argv[0]` and the positional
arguments; otherwise with a positional argument, the program is the first one
and the vector is `argv[0]` and the remaining ones; otherwise the program is
`DEFAULT_SHELL` and the vector is `argv[0]` alone.  Here `argv[0]` is the value
`allow` computes from the program.  For `su -c id` the call is
`execvp("/system/bin/sh", ["sh", "-c", "id"])`. -/
theorem su_main_program (argv : List (List Char)) (p : SuProc) (env : SuEnv)
    (to2 : su_request) (hargv : argv ≠ [])
    (hnd : ¬ (argv.length = 2 ∧ strcmp_eq (argv.getD 1 []) "--daemon".toList = true))
    (hfork : env.fork_ret = 0) (hm : env.malloc_ok = true)
    (hreq : su_main_request argv env = .ok to2) :
    (∃ (call : ExecCall) (a0 : List Char) (k : Nat),
      su_main argv false p env = .exec call ∧
      to2.optind = (k : Int) ∧ k ≤ argv.length ∧
      allow_arg0 call.binary to2.login true = some a0 ∧
      (∀ cmd, to2.command = some cmd →
        ∃ sh, to2.shell = some sh ∧ call.binary = sh ∧
          call.args = a0 :: "-c".toList :: cmd :: argv.drop k) ∧
      (to2.command = none → ∀ sh, to2.shell = some sh →
        call.binary = sh ∧ call.args = a0 :: argv.drop k) ∧
      (to2.command = none → to2.shell = none →
        ∀ a rest, argv.drop k = a :: rest → call.binary = a ∧ call.args = a0 :: rest) ∧
      (to2.command = none → to2.shell = none → argv.drop k = [] →
        call.binary = DEFAULT_SHELL ∧ call.args = [a0])) ∧
    su_main ["su".toList, "-c".toList, "id".toList] false sample_su_proc sample_su_env =
      .exec { binary := "/system/bin/sh".toList, start := 0,
              args := ["sh".toList, "-c".toList, "id".toList], stores := [2, 1, 0],
              proc := { environ := [("LOGNAME".toList, "shell".toList),
                          ("USER".toList, "shell".toList),
                          ("SHELL".toList, "/system/bin/sh".toList),
                          ("HOME".toList, "/data".toList)],
                        umask := 0, creds := sample_su_proc.creds } } := by
  refine ⟨?_, by decide⟩
  have hall := su_main_eq_allow argv p env to2 hnd hfork hreq
  simp only [su_main_request] at hreq
  cases ho : su_main_options (su_main_context argv).to_
      (getopt_scan "c:hlmps:Vv".toList long_opts (argv.drop 1) 1).1 with
  | error c => rw [ho] at hreq; cases hreq
  | ok to1 =>
      rw [ho] at hreq
      simp only at hreq
      have hlen : 1 ≤ argv.length := by
        cases argv with
        | nil => exact absurd rfl hargv
        | cons a t => simp
      have hev := getopt_scan_optarg (argv.drop 1).length (argv.drop 1) 1 (le_refl _)
      have hoi := getopt_scan_optind (argv.drop 1).length (argv.drop 1) 1 (le_refl _)
      have hdl : (argv.drop 1).length = argv.length - 1 := List.length_drop 1 argv
      obtain ⟨ho1, ho2⟩ := su_main_options_inv _ _ to1 hev ho
      obtain ⟨ht1, ht2, ht3, k, hk1, hk2, hk3⟩ := su_main_target_inv to1 to2 argv _ env
        (by omega) hreq
      have hinv : to2.command.isSome = true → to2.shell.isSome = true := by
        rw [ht1, ht2]
        exact ho2 (fun h => by simp [su_main_context] at h)
      have hmem : to2.argv = { orig := argv, writes := [] } := by
        rw [ht3, ho1]; rfl
      obtain ⟨call, a0, hc1, hc2, hc3, hc4, hc5, hc6⟩ := allow_resolved
        { su_main_context argv with to_ := to2 }
        { p with environ := unsec_vars.foldl unsetenv p.environ } env argv k hk3 hmem hk1 hm
        hinv
      exact ⟨call, a0, k, hall.trans hc1, hk1, hk3, hc2, hc3, hc4, hc5, hc6⟩

/-- C4 at `su -c id`, and the program and vector for each of the 8 combinations
of inline command, explicit shell and positional argument (the word `0` names
the target uid). -/
theorem su_main_program_witness :
    (∃ call : ExecCall,
      su_main ["su".toList, "-c".toList, "id".toList] false sample_su_proc sample_su_env =
        .exec call ∧
      call.binary = DEFAULT_SHELL ∧ call.args.tail = ["-c".toList, "id".toList]) ∧
    sample_run ["su"] = some (["/system/bin/sh"], [["sh"]]) ∧
    sample_run ["su", "0", "ls", "-l"] = some (["ls"], [["ls", "-l"]]) ∧
    sample_run ["su", "-s", "/bin/bash"] = some (["/bin/bash"], [["bash"]]) ∧
    sample_run ["su", "-s", "/bin/bash", "0", "ls", "-l"] =
      some (["/bin/bash"], [["bash", "ls", "-l"]]) ∧
    sample_run ["su", "-c", "id"] = some (["/system/bin/sh"], [["sh", "-c", "id"]]) ∧
    sample_run ["su", "-c", "id", "0", "ls", "-l"] =
      some (["/system/bin/sh"], [["sh", "-c", "id", "ls", "-l"]]) ∧
    sample_run ["su", "-c", "id", "-s", "/bin/bash"] =
      some (["/bin/bash"], [["bash", "-c", "id"]]) ∧
    sample_run ["su", "-c", "id", "-s", "/bin/bash", "0", "ls", "-l"] =
      some (["/bin/bash"], [["bash", "-c", "id", "ls", "-l"]]) := by
  refine ⟨?_, by decide, by decide, by decide, by decide, by decide, by decide, by decide,
    by decide⟩
  obtain ⟨call, a0, k, h1, hk1, _, _, h5, _⟩ :=
    (su_main_program ["su".toList, "-c".toList, "id".toList] sample_su_proc sample_su_env
      { uid := 2000, name := [], login := false, keepenv := false,
        shell := some DEFAULT_SHELL, command := some "id".toList,
        argv := { orig := ["su".toList, "-c".toList, "id".toList], writes := [] },
        argc := 3, optind := 3 }
      (by decide) (by decide) rfl rfl rfl).1
  obtain ⟨sh, hs, hb, ha⟩ := h5 "id".toList rfl
  simp only [Option.some.injEq] at hs
  refine ⟨call, h1, by rw [hb, hs], ?_⟩
  rw [ha]
  have hk : k = 3 := by
    simp only at hk1
    omega
  subst hk
  rfl

/-! ## C14: a string on the wire -/

/-- C14. Let `a` be a string without NUL byte and of length at most `PATH_MAX`.
Then `write_string` emits the four bytes of the length of `a` in host order
followed by the bytes of `a` and nothing else, `4 + length` bytes in all; and
when a reader on the same host, with memory for the buffer, finds these bytes
followed by `rest`, `read_string` returns `a` and leaves exactly `rest` unread. -/
theorem string_roundtrip (s r : Proc) (a : List Nat) (rest : List Cell)
    (hnul : 0 ∉ a) (hlen : a.length ≤ PATH_MAX)
    (horder : r.order = s.order) (hheap : a.length + 1 ≤ r.heap_free)
    (hin : r.inbox = delivered s (write_string s a).state ++ rest) :
    write_string s a =
      .ret () { s with outbox := s.outbox ++
        ((int_bytes s.order a.length).map Cell.plain ++ a.map Cell.plain) } ∧
    (delivered s (write_string s a).state).map Cell.byte = int_bytes s.order a.length ++ a ∧
    (delivered s (write_string s a).state).length = 4 + a.length ∧
    bytes_int s.order (int_bytes s.order a.length) = a.length ∧
    read_string r =
      .ret a { r with inbox := rest, heap_free := r.heap_free - (a.length + 1),
                      mallocs := r.mallocs ++ [a.length + 1] } ∧
    (read_string r).state.inbox = rest := by
  have hP : PATH_MAX = 4096 := rfl
  have h32 : (a.length : Int) ≤ INT32_MAX := by simp only [INT32_MAX]; omega
  have hw := write_string_wire s a hnul h32
  have hd : delivered s (write_string s a).state = wire_string s.order a := by
    rw [hw, Res.state, delivered_append]
  rw [hd] at hin
  rw [← horder] at hin
  have hr := read_string_wire r a rest hin hlen hheap
  refine ⟨?_, ?_, ?_, ?_, hr, ?_⟩
  · rw [hw]; rfl
  · rw [hd, wire_string, wire_int, List.map_append, map_byte_plain, map_byte_plain]
  · rw [hd, wire_string, List.length_append, wire_int_length, List.length_map]
  · exact bytes_int_int_bytes _ _ (by simp only [INT32_MIN]; omega) h32
  · rw [hr]; rfl

/-- C14 at the empty string and at a string of exactly `PATH_MAX` bytes, each
followed by one more byte that stays unread. -/
theorem string_roundtrip_witness :
    read_string (sample_reader []) =
      .ret [] { sample_reader [] with
        inbox := [Cell.plain 7],
        heap_free := (sample_reader []).heap_free - (([] : List Nat).length + 1),
        mallocs := (sample_reader []).mallocs ++ [([] : List Nat).length + 1] } ∧
    read_string (sample_reader sample_long) =
      .ret sample_long { sample_reader sample_long with
        inbox := [Cell.plain 7],
        heap_free := (sample_reader sample_long).heap_free - (sample_long.length + 1),
        mallocs := (sample_reader sample_long).mallocs ++ [sample_long.length + 1] } ∧
    sample_long.length = PATH_MAX :=
  ⟨(string_roundtrip sample_client (sample_reader []) [] [Cell.plain 7]
      (by decide) (by decide) rfl (by decide) rfl).2.2.2.2.1,
   (string_roundtrip sample_client (sample_reader sample_long) sample_long [Cell.plain 7]
      (fun h => by
        have h1 := List.eq_of_mem_replicate h
        omega)
      (by simp only [sample_long, List.length_replicate]; omega)
      (by simp only [sample_reader, sample_proc, sample_client])
      (by simp only [sample_long, List.length_replicate, sample_reader, sample_proc, PATH_MAX]
          omega)
      (by simp only [sample_reader, sample_proc])).2.2.2.2.1,
   by simp only [sample_long, List.length_replicate]⟩

/-! ## C11: the streams of the worker child -/

/-- Sequencing returns only when both parts return. -/
theorem Res.bind_eq_ret {α β : Type} (r : Res α) (k : α → Proc → Res β) (b : β) (s : Proc)
    (h : r.bind k = .ret b s) : ∃ a s1, r = .ret a s1 ∧ k a s1 = .ret b s := by
  cases r with
  | ret a s1 => exact ⟨a, s1, rfl, h⟩
  | exit c s1 => simp at h
  | fault s1 => simp at h

/-- A descriptor `recv_fd` returns is -1 or a descriptor number. -/
theorem recv_fd_range (s : Proc) (fd : Int) (s1 : Proc) (h : recv_fd s = .ret fd s1) :
    fd = -1 ∨ 0 ≤ fd := by
  unfold recv_fd sys_recvmsg at h
  cases hin : s.inbox with
  | nil => simp [hin] at h
  | cons c rest =>
      cases hr : c.rights with
      | none =>
          simp [hin, hr] at h
          exact Or.inl h.1.symm
      | some f =>
          simp [hin, hr, CMSG_SPACE, CMSG_LEN, CMSG_ALIGN, sizeof_cmsghdr, sizeof_int] at h
          right
          rw [← h.1]
          exact Int.ofNat_nonneg _

/-- Each of the three descriptors of a request `daemon_accept` has read is -1 or a
descriptor number. -/
theorem daemon_accept_request_fds (env : DaemonEnv) (s : Proc) (req : Request) (s1 : Proc)
    (hreq : daemon_accept_request env s = .ret req s1) :
    (req.infd = -1 ∨ 0 ≤ req.infd) ∧ (req.outfd = -1 ∨ 0 ≤ req.outfd) ∧
    (req.errfd = -1 ∨ 0 ≤ req.errfd) := by
  unfold daemon_accept_request at hreq
  obtain ⟨h, s7, hh, hrest⟩ := Res.bind_eq_ret _ _ _ _ hreq
  obtain ⟨a, s8, _, hret⟩ := Res.bind_eq_ret _ _ _ _ hrest
  have hreq2 : req.toHeader = h := by
    injection hret with h1 _
    rw [← h1]
  unfold daemon_accept_header at hh
  obtain ⟨pid, t1, _, hh⟩ := Res.bind_eq_ret _ _ _ _ hh
  obtain ⟨pts, t2, _, hh⟩ := Res.bind_eq_ret _ _ _ _ hh
  obtain ⟨fu, t3, _, hh⟩ := Res.bind_eq_ret _ _ _ _ hh
  obtain ⟨fp, t4, _, hh⟩ := Res.bind_eq_ret _ _ _ _ hh
  by_cases hp : env.peercred_ok = false
  · simp [hp] at hh
  · rw [if_neg hp] at hh
    obtain ⟨infd, t5, h5, hh⟩ := Res.bind_eq_ret _ _ _ _ hh
    obtain ⟨outfd, t6, h6, hh⟩ := Res.bind_eq_ret _ _ _ _ hh
    obtain ⟨errfd, t7, h7, hh⟩ := Res.bind_eq_ret _ _ _ _ hh
    injection hh with h1 _
    have e1 : req.infd = infd := by
      show req.toHeader.infd = infd
      rw [hreq2, ← h1]
    have e2 : req.outfd = outfd := by
      show req.toHeader.outfd = outfd
      rw [hreq2, ← h1]
    have e3 : req.errfd = errfd := by
      show req.toHeader.errfd = errfd
      rw [hreq2, ← h1]
    rw [e1, e2, e3]
    exact ⟨recv_fd_range _ _ _ h5, recv_fd_range _ _ _ h6, recv_fd_range _ _ _ h7⟩

/-- The test `pts_slave[0]` is the test for a string of positive length. -/
theorem pts_slave_test (a : List Nat) : (a ++ [0]).head? ≠ some 0 ↔ 0 < strlen a := by
  cases a with
  | nil => simp [strlen]
  | cons b t =>
      by_cases hb : b = 0
      · simp [strlen, hb, List.takeWhile]
      · simp [strlen, hb, List.takeWhile]

/-- The descriptor `open` returns when it succeeds is not negative. -/
theorem sys_open_range (s : Proc) (ok : Bool) (p : Int) (s1 : Proc)
    (h : sys_open s ok = (p, s1)) (hp : p ≠ -1) :
    0 ≤ p ∧ ok = true ∧ p = lowest_free s.fds ∧ s1 = { s with fds := p :: s.fds } := by
  unfold sys_open at h
  cases ok with
  | false =>
      simp at h
      exact absurd h.1.symm hp
  | true =>
      simp at h
      obtain ⟨h1, h2⟩ := h
      subst h1
      exact ⟨Int.ofNat_nonneg _, rfl, rfl, h2.symm⟩

/-- In the worker child `daemon_accept` goes on to the terminal set-up. -/
theorem daemon_accept_serve_child (env : DaemonEnv) (req : Request) (s : Proc)
    (hfork : env.fork_ret = 0) :
    daemon_accept_serve env req s =
      if (req.pts_slave ++ [0]).head? ≠ some 0 then
        if (sys_open { s with outbox := s.outbox ++ wire_int s.order 1 } env.open_ok).1 = -1 then
          .exit (-1) (sys_open { s with outbox := s.outbox ++ wire_int s.order 1 } env.open_ok).2
        else
          .ret (.child
              (if req.infd < 0 then
                (sys_open { s with outbox := s.outbox ++ wire_int s.order 1 } env.open_ok).1
               else req.infd)
              (if req.outfd < 0 then
                (sys_open { s with outbox := s.outbox ++ wire_int s.order 1 } env.open_ok).1
               else req.outfd)
              (if req.errfd < 0 then
                (sys_open { s with outbox := s.outbox ++ wire_int s.order 1 } env.open_ok).1
               else req.errfd) req.argc req.argv)
            (sys_open { s with outbox := s.outbox ++ wire_int s.order 1 } env.open_ok).2
      else
        .ret (.child req.infd req.outfd req.errfd req.argc req.argv)
          { s with outbox := s.outbox ++ wire_int s.order 1 } := by
  unfold daemon_accept_serve
  rw [write_int_wire, Res.bind_ret]
  simp only [hfork, lt_irrefl, if_false, ne_eq, not_true_eq_false]

/-- C11. Let `daemon_accept` have read a request, leaving the process in state
`s1`, and let `fork` return 0 (this is the worker child).  Each of the three
received descriptors is -1 ("none") or a descriptor number.  After the
acknowledgement 1 has been written: when the slave path is not empty and opening
it yields the descriptor `p`, `run_daemon_child` is called with each stream that
was -1 replaced by `p` and each other stream as received, `p` and all three
resolved descriptors are not negative; when the slave path is not empty and
opening it fails, the process exits with -1; when the slave path is empty,
`run_daemon_child` is called with the three descriptors as received.  The
argument count and vector are passed on as read in every case. -/
theorem daemon_accept_child_streams (env : DaemonEnv) (s : Proc) (req : Request) (s1 : Proc)
    (hreq : daemon_accept_request env s = .ret req s1)
    (hfork : env.fork_ret = 0) :
    ((req.infd = -1 ∨ 0 ≤ req.infd) ∧ (req.outfd = -1 ∨ 0 ≤ req.outfd) ∧
      (req.errfd = -1 ∨ 0 ≤ req.errfd)) ∧
    (∀ (p : Int) (s3 : Proc), 0 < strlen req.pts_slave →
      sys_open { s1 with outbox := s1.outbox ++ wire_int s1.order 1 } env.open_ok = (p, s3) →
      p ≠ -1 →
      daemon_accept env s =
        .ret (.child (if req.infd = -1 then p else req.infd)
                (if req.outfd = -1 then p else req.outfd)
                (if req.errfd = -1 then p else req.errfd) req.argc req.argv) s3 ∧
      0 ≤ p ∧ 0 ≤ (if req.infd = -1 then p else req.infd) ∧
      0 ≤ (if req.outfd = -1 then p else req.outfd) ∧
      0 ≤ (if req.errfd = -1 then p else req.errfd)) ∧
    (0 < strlen req.pts_slave → env.open_ok = false →
      daemon_accept env s =
        .exit (-1) { s1 with outbox := s1.outbox ++ wire_int s1.order 1 }) ∧
    (strlen req.pts_slave = 0 →
      daemon_accept env s =
        .ret (.child req.infd req.outfd req.errfd req.argc req.argv)
          { s1 with outbox := s1.outbox ++ wire_int s1.order 1 }) := by
  have hfds := daemon_accept_request_fds env s req s1 hreq
  have hlt : ¬ env.fork_ret < 0 := by omega
  refine ⟨hfds, ?_, ?_, ?_⟩
  · intro p s3 hpath hopen hp
    obtain ⟨hp0, hok, _, _⟩ := sys_open_range _ _ _ _ hopen hp
    have htest := (pts_slave_test req.pts_slave).2 hpath
    obtain ⟨hi, ho, he⟩ := hfds
    have ei : (if req.infd < 0 then p else req.infd) = (if req.infd = -1 then p else req.infd) := by
      split_ifs <;> first | rfl | omega
    have eo : (if req.outfd < 0 then p else req.outfd) =
        (if req.outfd = -1 then p else req.outfd) := by
      split_ifs <;> first | rfl | omega
    have ee : (if req.errfd < 0 then p else req.errfd) =
        (if req.errfd = -1 then p else req.errfd) := by
      split_ifs <;> first | rfl | omega
    refine ⟨?_, hp0, ?_, ?_, ?_⟩
    · rw [daemon_accept, hreq, Res.bind_ret, daemon_accept_serve_child env req s1 hfork,
        if_pos htest, hopen]
      simp only [hp, if_false, ei, eo, ee]
    · split_ifs <;> omega
    · split_ifs <;> omega
    · split_ifs <;> omega
  · intro hpath hok
    have htest := (pts_slave_test req.pts_slave).2 hpath
    rw [daemon_accept, hreq, Res.bind_ret, daemon_accept_serve_child env req s1 hfork,
      if_pos htest, hok]
    simp [sys_open]
  · intro hpath
    have htest : ¬ ((req.pts_slave ++ [0]).head? ≠ some 0) := by
      rw [pts_slave_test]
      omega
    rw [daemon_accept, hreq, Res.bind_ret, daemon_accept_serve_child env req s1 hfork,
      if_neg htest]

/-- C11 on a request with the slave path `/p`, no stdin, a stdout and no stderr:
the path is opened as descriptor 4, stdin and stderr become 4 and stdout stays
the received descriptor 3. -/
theorem daemon_accept_child_streams_witness :
    daemon_accept sample_child_env (sample_proc sample_pty_request) =
      .ret (.child 4 3 4 1 [[115, 117]])
        { order := .little, inbox := [], outbox := wire_int .little 1,
          fds := [4, 3, 0, 1, 2], heap_free := 1048554, mallocs := [3, 16, 3] } :=
  ((daemon_accept_child_streams sample_child_env (sample_proc sample_pty_request)
      { pid := 4321, pts_slave := [47, 112], from_uid := 10001, from_pid := 4320,
        infd := -1, outfd := 3, errfd := -1, argc := 1, argv := [[115, 117]] }
      { order := .little, inbox := [], outbox := [], fds := [3, 0, 1, 2],
        heap_free := 1048554, mallocs := [3, 16, 3] }
      (by decide) (by decide)).2.1 4
      { order := .little, inbox := [], outbox := wire_int .little 1,
        fds := [4, 3, 0, 1, 2], heap_free := 1048554, mallocs := [3, 16, 3] }
      (by decide) (by decide) (by decide)).1

/-! ## C12: terminals and the PTY -/

/-- The bit field `atty` has the bit of a stream set exactly when the override is
unset and the stream is a terminal. -/
theorem connect_daemon_atty_bits (env : ClientEnv) :
    (connect_daemon_atty env &&& ATTY_IN ≠ 0 ↔ env.send_tty = false ∧ env.isatty_in = true) ∧
    (connect_daemon_atty env &&& ATTY_OUT ≠ 0 ↔
      env.send_tty = false ∧ env.isatty_out = true) ∧
    (connect_daemon_atty env &&& ATTY_ERR ≠ 0 ↔
      env.send_tty = false ∧ env.isatty_err = true) ∧
    (connect_daemon_atty env ≠ 0 ↔
      env.send_tty = false ∧
        (env.isatty_in = true ∨ env.isatty_out = true ∨ env.isatty_err = true)) := by
  cases h1 : env.send_tty <;> cases h2 : env.isatty_in <;> cases h3 : env.isatty_out <;>
    cases h4 : env.isatty_err <;>
    simp [connect_daemon_atty, h1, h2, h3, h4, ATTY_IN, ATTY_OUT, ATTY_ERR] <;> decide

/-- The function `read_int` does not write to the connection. -/
theorem read_int_outbox (s : Proc) :
    (∃ v t, read_int s = .ret v t ∧ t.outbox = s.outbox) ∨
    (∃ c t, read_int s = .exit c t ∧ t.outbox = s.outbox) := by
  unfold read_int sys_read
  by_cases h : ((s.inbox.take sizeof_int).map Cell.byte).length ≠ sizeof_int
  · right
    exact ⟨_, _, if_pos h, rfl⟩
  · left
    exact ⟨_, _, if_neg h, rfl⟩

/-- What has been sent when `connect_daemon` ends, whichever way it ends after the
request. -/
theorem connect_daemon_outbox (env : ClientEnv) (argv : List (List Nat)) (ppid : Int)
    (s : Proc) (pts : List Nat)
    (hconn : env.connect_ok = true)
    (hpts : (connect_daemon_pts env (connect_daemon_atty env)).2 = some pts)
    (hargc : (argv.length : Int) ≤ INT32_MAX)
    (hlen : ∀ a ∈ argv, (a.length : Int) ≤ INT32_MAX) (hnul : ∀ a ∈ argv, 0 ∉ a)
    (hptslen : (pts.length : Int) ≤ INT32_MAX) (hptsnul : 0 ∉ pts) :
    (connect_daemon env argv ppid s).state.outbox =
      s.outbox ++ wire_request env (connect_daemon_atty env) pts argv ppid s := by
  unfold connect_daemon
  rw [if_neg (by simp [hconn])]
  simp only [hpts]
  rw [connect_daemon_send_wire env _ pts argv ppid s hargc hlen hnul hptslen hptsnul,
    Res.bind_ret]
  rcases read_int_outbox
      { s with outbox := s.outbox ++ wire_request env (connect_daemon_atty env) pts argv ppid s }
    with ⟨v, t, h1, ho1⟩ | ⟨c, t, h1, ho1⟩
  · rw [h1, Res.bind_ret]
    rcases read_int_outbox t with ⟨v2, t2, h2, ho2⟩ | ⟨c2, t2, h2, ho2⟩
    · rw [h2, Res.bind_ret, Res.state, ho2, ho1]
    · rw [h2, Res.bind_exit, Res.state, ho2, ho1]
  · rw [h1, Res.bind_exit, Res.state, ho1]

/-- C12. Let `connect` succeed.  For every value of the override and of the three
terminal tests: `connect_daemon` calls `pts_open` once, and has its slave path
in `pts_slave`, when the override is unset and at least one stream is a
terminal; otherwise it does not call `pts_open` and `pts_slave` is empty.  The
descriptor passed to `send_fd` for a stream is -1 when the override is unset and
that stream is a terminal, and the stream's own descriptor otherwise; so when
some stream is passed as -1, `pts_open` has been called once and `pts_slave` is
what it stored.  When `pts_open` fails the process exits with -1 and nothing is
sent.  Otherwise, for a slave path and arguments without NUL byte, what
`connect_daemon` has sent when it ends is the request with that `pts_slave` and
these three descriptors. -/
theorem connect_daemon_tty (env : ClientEnv) (argv : List (List Nat)) (ppid : Int) (s : Proc)
    (hconn : env.connect_ok = true) :
    connect_daemon_pts env (connect_daemon_atty env) =
      (if env.send_tty = false ∧
          (env.isatty_in = true ∨ env.isatty_out = true ∨ env.isatty_err = true)
       then (1, env.pts_open.map (fun p => p.2)) else (0, some [])) ∧
    ((if connect_daemon_atty env &&& ATTY_IN ≠ 0 then (-1 : Int) else STDIN_FILENO) =
        (if env.send_tty = false ∧ env.isatty_in = true then -1 else 0) ∧
      (if connect_daemon_atty env &&& ATTY_OUT ≠ 0 then (-1 : Int) else STDOUT_FILENO) =
        (if env.send_tty = false ∧ env.isatty_out = true then -1 else 1) ∧
      (if connect_daemon_atty env &&& ATTY_ERR ≠ 0 then (-1 : Int) else STDERR_FILENO) =
        (if env.send_tty = false ∧ env.isatty_err = true then -1 else 2)) ∧
    (((if connect_daemon_atty env &&& ATTY_IN ≠ 0 then (-1 : Int) else STDIN_FILENO) = -1 ∨
        (if connect_daemon_atty env &&& ATTY_OUT ≠ 0 then (-1 : Int) else STDOUT_FILENO) = -1 ∨
        (if connect_daemon_atty env &&& ATTY_ERR ≠ 0 then (-1 : Int) else STDERR_FILENO) = -1) →
      connect_daemon_pts env (connect_daemon_atty env) =
        (1, env.pts_open.map (fun p => p.2))) ∧
    ((connect_daemon_pts env (connect_daemon_atty env)).2 = none →
      connect_daemon env argv ppid s = .exit (-1) s) ∧
    (∀ pts : List Nat, (connect_daemon_pts env (connect_daemon_atty env)).2 = some pts →
      (argv.length : Int) ≤ INT32_MAX → (∀ a ∈ argv, (a.length : Int) ≤ INT32_MAX) →
      (∀ a ∈ argv, 0 ∉ a) → (pts.length : Int) ≤ INT32_MAX → 0 ∉ pts →
      (connect_daemon env argv ppid s).state.outbox =
        s.outbox ++
          (wire_int s.order env.pid ++ wire_string s.order pts ++ wire_int s.order env.uid ++
            wire_int s.order ppid ++
            [fd_cell s (if env.send_tty = false ∧ env.isatty_in = true then -1 else 0),
             fd_cell s (if env.send_tty = false ∧ env.isatty_out = true then -1 else 1),
             fd_cell s (if env.send_tty = false ∧ env.isatty_err = true then -1 else 2)] ++
            wire_int s.order argv.length ++ wire_args s.order argv)) := by
  obtain ⟨hin, hout, herr, hany⟩ := connect_daemon_atty_bits env
  have e1 : (if connect_daemon_atty env &&& ATTY_IN ≠ 0 then (-1 : Int) else STDIN_FILENO) =
      (if env.send_tty = false ∧ env.isatty_in = true then -1 else 0) := by
    by_cases h : connect_daemon_atty env &&& ATTY_IN ≠ 0
    · rw [if_pos h, if_pos (hin.1 h)]
    · rw [if_neg h, if_neg (fun h2 => h (hin.2 h2))]
      rfl
  have e2 : (if connect_daemon_atty env &&& ATTY_OUT ≠ 0 then (-1 : Int) else STDOUT_FILENO) =
      (if env.send_tty = false ∧ env.isatty_out = true then -1 else 1) := by
    by_cases h : connect_daemon_atty env &&& ATTY_OUT ≠ 0
    · rw [if_pos h, if_pos (hout.1 h)]
    · rw [if_neg h, if_neg (fun h2 => h (hout.2 h2))]
      rfl
  have e3 : (if connect_daemon_atty env &&& ATTY_ERR ≠ 0 then (-1 : Int) else STDERR_FILENO) =
      (if env.send_tty = false ∧ env.isatty_err = true then -1 else 2) := by
    by_cases h : connect_daemon_atty env &&& ATTY_ERR ≠ 0
    · rw [if_pos h, if_pos (herr.1 h)]
    · rw [if_neg h, if_neg (fun h2 => h (herr.2 h2))]
      rfl
  have hpts : connect_daemon_pts env (connect_daemon_atty env) =
      (if env.send_tty = false ∧
          (env.isatty_in = true ∨ env.isatty_out = true ∨ env.isatty_err = true)
       then (1, env.pts_open.map (fun p => p.2)) else (0, some [])) := by
    unfold connect_daemon_pts
    by_cases h : connect_daemon_atty env ≠ 0
    · rw [if_pos h, if_pos (hany.1 h)]
    · rw [if_neg h, if_neg (fun h2 => h (hany.2 h2))]
  refine ⟨hpts, ⟨e1, e2, e3⟩, ?_, ?_, ?_⟩
  · intro h
    have hP : env.send_tty = false ∧
        (env.isatty_in = true ∨ env.isatty_out = true ∨ env.isatty_err = true) := by
      rw [e1, e2, e3] at h
      rcases h with h | h | h
      · by_cases hc : env.send_tty = false ∧ env.isatty_in = true
        · exact ⟨hc.1, Or.inl hc.2⟩
        · rw [if_neg hc] at h
          exact absurd h (by decide)
      · by_cases hc : env.send_tty = false ∧ env.isatty_out = true
        · exact ⟨hc.1, Or.inr (Or.inl hc.2)⟩
        · rw [if_neg hc] at h
          exact absurd h (by decide)
      · by_cases hc : env.send_tty = false ∧ env.isatty_err = true
        · exact ⟨hc.1, Or.inr (Or.inr hc.2)⟩
        · rw [if_neg hc] at h
          exact absurd h (by decide)
    rw [hpts, if_pos hP]
  · intro h
    unfold connect_daemon
    rw [if_neg (by simp [hconn])]
    simp only [h]
  · intro pts hp hargc hlen hnul hptslen hptsnul
    rw [connect_daemon_outbox env argv ppid s pts hconn hp hargc hlen hnul hptslen hptsnul,
      wire_request, e1, e2, e3]

/-- C12 at a client with a terminal on stdin and stderr and no override: one PTY
is allocated, its slave path `/p` is sent, stdin and stderr are sent without a
descriptor and stdout with descriptor 1. -/
theorem connect_daemon_tty_witness :
    connect_daemon_pts sample_tty_env (connect_daemon_atty sample_tty_env) =
      (1, some [47, 112]) ∧
    (connect_daemon sample_tty_env [[115, 117]] 4320 sample_client).state.outbox =
      wire_int .little 4321 ++ wire_string .little [47, 112] ++ wire_int .little 10001 ++
        wire_int .little 4320 ++
        [Cell.plain 0, { byte := 0, rights := some 1 }, Cell.plain 0] ++
        wire_int .little 1 ++ wire_args .little [[115, 117]] :=
  ⟨(connect_daemon_tty sample_tty_env [[115, 117]] 4320 sample_client (by decide)).1,
   (connect_daemon_tty sample_tty_env [[115, 117]] 4320 sample_client (by decide)).2.2.2.2
      [47, 112] (by decide) (by decide) (by decide) (by decide) (by decide) (by decide)⟩

/-! ## C13: the signal handlers -/

/-- After `socket_cleanup` no socket path is recorded. -/
theorem socket_cleanup_path (s : SigProc) (ctx : su_context)
    (h : (socket_cleanup s).su_ctx = some ctx) : c_str ctx.sock_path = [] := by
  unfold socket_cleanup at h
  cases hc : s.su_ctx with
  | none => simp [hc] at h
  | some c0 =>
      simp only [hc] at h
      by_cases hp : c0.sock_path.head? ≠ none ∧ c0.sock_path.head? ≠ some (Char.ofNat 0)
      · rw [if_pos hp] at h
        simp only [Option.some.injEq] at h
        rw [← h]
        simp [c_str, List.takeWhile]
      · rw [if_neg hp, hc] at h
        simp only [Option.some.injEq] at h
        subst h
        cases hs : c0.sock_path with
        | nil => rfl
        | cons a t =>
            simp only [hs, List.head?_cons, ne_eq, reduceCtorEq, not_false_eq_true,
              Option.some.injEq, true_and, not_not] at hp
            simp [c_str, List.takeWhile, hp]

/-- Without a recorded socket path `socket_cleanup` changes nothing. -/
theorem socket_cleanup_of_empty (t : SigProc)
    (h : ∀ ctx, t.su_ctx = some ctx → c_str ctx.sock_path = []) : socket_cleanup t = t := by
  unfold socket_cleanup
  cases hc : t.su_ctx with
  | none => rfl
  | some ctx =>
      have hp := h ctx hc
      have hno : ¬ (ctx.sock_path.head? ≠ none ∧ ctx.sock_path.head? ≠ some (Char.ofNat 0)) := by
        cases hs : ctx.sock_path with
        | nil => simp
        | cons a t =>
            rw [hs] at hp
            by_cases ha : a = Char.ofNat 0
            · simp [ha]
            · simp [c_str, List.takeWhile, ha] at hp
      simp only [if_neg hno]

/-- A second `socket_cleanup` changes nothing. -/
theorem socket_cleanup_idem (s : SigProc) :
    socket_cleanup (socket_cleanup s) = socket_cleanup s :=
  socket_cleanup_of_empty _ (fun ctx h => socket_cleanup_path s ctx h)

/-- C13, as the code has it.  Let `sig` be a signal number in `1..127`.  The
handler `cleanup_signal` runs `socket_cleanup`, after which no socket path is
recorded, and the process exits with status `128 + sig`.  The handler
`sighandler` puts the terminal mode back, closes the three standard streams,
gives the signals of `quit_signals` their default disposition, and returns to
the interrupted code: it does not terminate the process, so no exit status
comes from it. -/
theorem signal_handlers (sig : Int) (s : SigProc) (hsig : 0 < sig ∧ sig < 128) :
    cleanup_signal sig s = .exited (128 + sig) (socket_cleanup s) ∧
    (cleanup_signal sig s).status = some (128 + sig) ∧
    (∀ ctx, (socket_cleanup s).su_ctx = some ctx → c_str ctx.sock_path = []) ∧
    sighandler sig s =
      .returned { s with
        stdin_raw := false,
        fds := s.fds.filter (fun fd => fd ≠ 0 ∧ fd ≠ 1 ∧ fd ≠ 2),
        caught := s.caught.filter (fun c => c ∉ quit_signals) } ∧
    (sighandler sig s).status = none := by
  have h1 : cleanup_signal sig s = .exited (128 + sig) (socket_cleanup s) := by
    unfold cleanup_signal sys_exit cleanup
    rw [socket_cleanup_idem]
    simp
  refine ⟨h1, ?_, fun ctx h => socket_cleanup_path s ctx h, ?_, rfl⟩
  · rw [h1]
    simp only [HandlerResult.status, exit_status]
    congr 1
    omega
  · simp only [sighandler, quit_signals, List.foldl, List.filter_filter, STDIN_FILENO,
      STDOUT_FILENO, STDERR_FILENO]
    congr 2
    · apply List.filter_congr
      intro x _
      rw [Bool.eq_iff_iff]
      simp only [ne_eq, Bool.and_eq_true, decide_eq_true_eq, decide_not, Bool.not_eq_true',
        decide_eq_false_iff_not, Bool.decide_and]
      tauto
    · apply List.filter_congr
      intro x _
      rw [Bool.eq_iff_iff]
      simp only [ne_eq, Bool.and_eq_true, decide_eq_true_eq, decide_not, Bool.not_eq_true',
        decide_eq_false_iff_not, List.mem_cons, List.mem_singleton, not_or, List.not_mem_nil,
        or_false]
      tauto

/-- C13 at `SIGTERM`: `cleanup_signal` removes the recorded socket path and the
process exits with status 143; `sighandler` returns. -/
theorem signal_handlers_witness :
    cleanup_signal SIGTERM sample_sig_proc =
      .exited (128 + SIGTERM) (socket_cleanup sample_sig_proc) ∧
    (cleanup_signal SIGTERM sample_sig_proc).status = some 143 ∧
    (socket_cleanup sample_sig_proc).unlinked = ["/s".toList] :=
  ⟨(signal_handlers SIGTERM sample_sig_proc (by decide)).1,
   (signal_handlers SIGTERM sample_sig_proc (by decide)).2.1,
   by decide⟩

/-- The handler `sighandler`, called for `SIGTERM` in the sample process, returns
with the terminal mode put back, only the connection left open and only
`SIGABRT` still caught; the process has not exited, with status 143 or any
other. -/
theorem signal_exit_counterexample :
    sighandler SIGTERM sample_sig_proc =
      .returned { sample_sig_proc with stdin_raw := false, fds := [3], caught := [SIGABRT] } ∧
    (sighandler SIGTERM sample_sig_proc).status ≠ some (128 + SIGTERM) := by
  decide

/-! ## C15: the indices `allow` stores to -/

/-- C15 at the vectors `su -cid` and `su --command=id`, of two elements each.
The option loop takes the command from the word of the option itself and leaves
`optind` at 2, so `allow` stores the command at index 1, `-c` at index 0 and
`argv[0]` at index -1, and passes `argv - 1` to `execvp`: the last store and the
start index lie before the received vector.  With the command in a word of its
own, `su -c id`, the stores are at 2, 1, 0 and the start index is 0. -/
theorem allow_stores_below_vector :
    exec_bounds (su_main ["su".toList, "-cid".toList] false sample_su_proc sample_su_env) =
      some (-1, [1, 0, -1]) ∧
    exec_bounds
        (su_main ["su".toList, "--command=id".toList] false sample_su_proc sample_su_env) =
      some (-1, [1, 0, -1]) ∧
    exec_summary (su_main ["su".toList, "-cid".toList] false sample_su_proc sample_su_env) =
      some (DEFAULT_SHELL, ["sh".toList, "-c".toList, "id".toList]) ∧
    exec_bounds
        (su_main ["su".toList, "-c".toList, "id".toList] false sample_su_proc sample_su_env) =
      some (0, [2, 1, 0]) := by
  decide

/-! ## C18: the order of `-s` and `-c` -/

/-- C18. In worker mode, in the process that goes on after `fork_for_samsung`,
for every shell `X` and every command `C`: on `su -s X -c C` the option `-c`
resets the shell, so `su_main` calls `execvp` with the program `DEFAULT_SHELL`
and the vector `sh`, `-c`, `C`; on `su -c C -s X` it calls `execvp` with the
program `X` and the vector made of the `argv[0]` computed from `X` (what follows
its last `/`, or all of it), `-c`, `C`.  In both cases the stores are at indices
4, 3 and 2 and the vector starts at index 2. -/
theorem su_main_shell_order (X C : List Char) (p : SuProc) (env : SuEnv)
    (hfork : env.fork_ret = 0) :
    exec_summary (su_main ["su".toList, "-s".toList, X, "-c".toList, C] false p env) =
      some (DEFAULT_SHELL, ["sh".toList, "-c".toList, C]) ∧
    exec_summary (su_main ["su".toList, "-c".toList, C, "-s".toList, X] false p env) =
      some (X, [(match strrchr X '/' with
                 | some q => q.tail
                 | none => X), "-c".toList, C]) ∧
    exec_bounds (su_main ["su".toList, "-s".toList, X, "-c".toList, C] false p env) =
      some (2, [4, 3, 2]) ∧
    exec_bounds (su_main ["su".toList, "-c".toList, C, "-s".toList, X] false p env) =
      some (2, [4, 3, 2]) := by
  have h1 := su_main_eq_allow ["su".toList, "-s".toList, X, "-c".toList, C] p env
    { (su_main_context ["su".toList, "-s".toList, X, "-c".toList, C]).to_ with
      shell := some DEFAULT_SHELL, command := some C, optind := 5 }
    (by simp) hfork rfl
  have h2 := su_main_eq_allow ["su".toList, "-c".toList, C, "-s".toList, X] p env
    { (su_main_context ["su".toList, "-c".toList, C, "-s".toList, X]).to_ with
      shell := some X, command := some C, optind := 5 }
    (by simp) hfork rfl
  rw [h1, h2]
  exact ⟨rfl, rfl, rfl, rfl⟩

/-- C18 with the shell `/bin/bash` and the command `id`. -/
theorem su_main_shell_order_witness :
    exec_summary
        (su_main ["su".toList, "-s".toList, "/bin/bash".toList, "-c".toList, "id".toList] false
          sample_su_proc sample_su_env) =
      some ("/system/bin/sh".toList, ["sh".toList, "-c".toList, "id".toList]) ∧
    exec_summary
        (su_main ["su".toList, "-c".toList, "id".toList, "-s".toList, "/bin/bash".toList] false
          sample_su_proc sample_su_env) =
      some ("/bin/bash".toList, ["bash".toList, "-c".toList, "id".toList]) :=
  ⟨(su_main_shell_order "/bin/bash".toList "id".toList sample_su_proc sample_su_env rfl).1,
   (su_main_shell_order "/bin/bash".toList "id".toList sample_su_proc sample_su_env rfl).2.1⟩

/-! ## C17: the credentials at `execvp` -/

/-- The process state `allow_exec` calls `execvp` in. -/
theorem allow_exec_proc (ctx : su_context) (binary : List Char) (argv : ArgMem) (argc : Int)
    (stores : List Int) (p : SuProc) (env : SuEnv) (call : ExecCall)
    (h : allow_exec ctx binary argv argc stores p env = .exec call) :
    call.proc = { p with environ := populate_environment ctx env.passwd_db p.environ } := by
  unfold allow_exec at h
  cases ha : allow_arg0 binary ctx.to_.login env.malloc_ok with
  | none => simp [ha] at h
  | some a0 =>
      simp only [ha] at h
      cases hv : ((argv.set (argc - 1) a0).vector (argc - 1)) with
      | none => simp [hv] at h
      | some args =>
          simp only [hv, SuResult.exec.injEq] at h
          rw [← h]

/-- The process state `allow` calls `execvp` in: the umask of the context, the
environment from `populate_environment`, and the credentials it was entered
with. -/
theorem allow_proc (ctx : su_context) (p : SuProc) (env : SuEnv) (call : ExecCall)
    (h : allow ctx p env = .exec call) :
    call.proc =
      { environ := populate_environment ctx env.passwd_db p.environ, umask := ctx.umask,
        creds := p.creds } := by
  unfold allow at h
  cases hc : ctx.to_.command with
  | some command =>
      cases hs : ctx.to_.shell with
      | none => simp [hc, hs] at h
      | some binary =>
          simp only [hc, hs] at h
          exact allow_exec_proc _ _ _ _ _ _ _ _ h
  | none =>
      cases hs : ctx.to_.shell with
      | some binary =>
          simp only [hc, hs] at h
          exact allow_exec_proc _ _ _ _ _ _ _ _ h
      | none =>
          simp only [hc, hs] at h
          cases hg : ctx.to_.argv.get ctx.to_.optind with
          | ptr binary =>
              simp only [hg] at h
              exact allow_exec_proc _ _ _ _ _ _ _ _ h
          | null =>
              simp only [hg] at h
              exact allow_exec_proc _ _ _ _ _ _ _ _ h
          | unknown => simp [hg] at h

/-- The target uid reaches `allow_exec` only through `populate_environment`. -/
theorem allow_exec_uid (ctx : su_context) (uid2 : Nat) (binary : List Char) (argv : ArgMem)
    (argc : Int) (stores : List Int) (p : SuProc) (env : SuEnv)
    (hpop : populate_environment { ctx with to_ := { ctx.to_ with uid := uid2 } }
        env.passwd_db p.environ = populate_environment ctx env.passwd_db p.environ) :
    allow_exec { ctx with to_ := { ctx.to_ with uid := uid2 } } binary argv argc stores p env =
      allow_exec ctx binary argv argc stores p env := by
  unfold allow_exec
  rw [hpop]

/-- The target uid reaches `allow` only through `populate_environment`. -/
theorem allow_uid (ctx : su_context) (uid2 : Nat) (p : SuProc) (env : SuEnv)
    (hpop : populate_environment { ctx with to_ := { ctx.to_ with uid := uid2 } }
        env.passwd_db p.environ = populate_environment ctx env.passwd_db p.environ) :
    allow { ctx with to_ := { ctx.to_ with uid := uid2 } } p env = allow ctx p env := by
  have key : ∀ (b : List Char) (a : ArgMem) (c : Int) (st : List Int),
      allow_exec { ctx with to_ := { ctx.to_ with uid := uid2 } } b a c st
          { p with umask := ctx.umask } env =
        allow_exec ctx b a c st { p with umask := ctx.umask } env :=
    fun b a c st => allow_exec_uid ctx uid2 b a c st _ env hpop
  unfold allow
  simp only [key]

/-- A run of worker-mode `su_main` that ends in `execvp` has gone through
`allow`. -/
theorem su_main_exec_inv (argv : List (List Char)) (p : SuProc) (env : SuEnv)
    (call : ExecCall) (h : su_main argv false p env = .exec call) :
    ∃ to2, su_main_request argv env = .ok to2 ∧
      allow { su_main_context argv with to_ := to2 }
        { p with environ := unsec_vars.foldl unsetenv p.environ } env = .exec call := by
  unfold su_main at h
  unfold su_main_request
  by_cases hd : argv.length = 2 ∧ strcmp_eq (argv.getD 1 []) "--daemon".toList = true
  · rw [if_pos hd] at h
    cases h
  · rw [if_neg hd] at h
    by_cases hf1 : env.fork_ret = -1
    · rw [if_pos hf1] at h
      cases h
    · rw [if_neg hf1] at h
      by_cases hf0 : env.fork_ret ≠ 0
      · rw [if_pos hf0] at h
        by_cases hw : env.wait_ret < 0
        · rw [if_pos hw] at h
          cases h
        · rw [if_neg hw] at h
          cases h
      · rw [if_neg hf0] at h
        generalize getopt_scan "c:hlmps:Vv".toList long_opts (argv.drop 1) 1 = g at h ⊢
        cases ho : su_main_options (su_main_context argv).to_ g.1 with
        | error c =>
            simp only [ho] at h
            cases h
        | ok to1 =>
            simp only [ho, Bool.false_eq_true, if_false] at h ⊢
            cases ht : su_main_target to1 argv g.2 env with
            | error c =>
                simp only [ht] at h
                cases h
            | ok to2 =>
                simp only [ht] at h
                exact ⟨to2, rfl, h⟩

/-- What `allow` leaves unchanged, and what the target uid changes. -/
theorem allow_frame (ctx : su_context) (p : SuProc) (env : SuEnv) (call : ExecCall)
    (h : allow ctx p env = .exec call) :
    call.proc.creds = p.creds ∧
    call.proc.environ = populate_environment ctx env.passwd_db p.environ ∧
    (∀ uid2 : Nat,
      populate_environment (with_uid ctx uid2) env.passwd_db p.environ =
        populate_environment ctx env.passwd_db p.environ →
      allow (with_uid ctx uid2) p env = .exec call) ∧
    (ctx.to_.keepenv = true →
      call.proc.environ = p.environ ∧
      ∀ uid2 : Nat, allow (with_uid ctx uid2) p env = .exec call) := by
  have hproc := allow_proc ctx p env call h
  have hframe : ∀ uid2 : Nat,
      populate_environment (with_uid ctx uid2) env.passwd_db p.environ =
        populate_environment ctx env.passwd_db p.environ →
      allow (with_uid ctx uid2) p env = .exec call := by
    intro uid2 hpop
    rw [← h]
    exact allow_uid ctx uid2 p env hpop
  refine ⟨by rw [hproc], by rw [hproc], hframe, ?_⟩
  intro hkeep
  refine ⟨?_, fun uid2 => hframe uid2 ?_⟩
  · rw [hproc]
    simp only [populate_environment, hkeep, if_true]
  · simp only [populate_environment, with_uid, hkeep, if_true]

/-- C17. Let worker-mode `su_main` end in a call of `execvp`.  Then the real and
effective uid and gid in force at the call are those the function was entered
with, whatever the target uid of the request is.  The call is made by `allow` on
the context with the parsed request, and its environment is the one
`populate_environment` gives.  For every other target uid for which
`populate_environment` gives the same environment, and so for every other target
uid when the request keeps the environment, `allow` on the request with that
uid ends in the same call, with the same credentials and environment; when the
request keeps the environment, that is the sanitised environment of the
entry. -/
theorem su_main_keeps_creds (argv : List (List Char)) (p : SuProc) (env : SuEnv)
    (call : ExecCall) (hexec : su_main argv false p env = .exec call) :
    call.proc.creds = p.creds ∧
    ∃ to2, su_main_request argv env = .ok to2 ∧
      allow { su_main_context argv with to_ := to2 }
        { p with environ := unsec_vars.foldl unsetenv p.environ } env = .exec call ∧
      call.proc.environ =
        populate_environment { su_main_context argv with to_ := to2 } env.passwd_db
          (unsec_vars.foldl unsetenv p.environ) ∧
      (∀ uid2 : Nat,
        populate_environment (with_uid { su_main_context argv with to_ := to2 } uid2)
            env.passwd_db (unsec_vars.foldl unsetenv p.environ) =
          populate_environment { su_main_context argv with to_ := to2 } env.passwd_db
            (unsec_vars.foldl unsetenv p.environ) →
        allow (with_uid { su_main_context argv with to_ := to2 } uid2)
          { p with environ := unsec_vars.foldl unsetenv p.environ } env = .exec call) ∧
      (to2.keepenv = true →
        call.proc.environ = unsec_vars.foldl unsetenv p.environ ∧
        ∀ uid2 : Nat,
          allow (with_uid { su_main_context argv with to_ := to2 } uid2)
            { p with environ := unsec_vars.foldl unsetenv p.environ } env = .exec call) := by
  obtain ⟨to2, hreq, hallow⟩ := su_main_exec_inv argv p env call hexec
  refine ⟨?_, to2, hreq, hallow, ?_⟩
  · exact (allow_frame _ _ env call hallow).1
  · generalize su_main_context argv = c0 at hallow ⊢
    generalize unsec_vars.foldl unsetenv p.environ = e0 at hallow ⊢
    obtain ⟨_, h2, h3, h4⟩ := allow_frame _ _ env call hallow
    exact ⟨h2, h3, h4⟩

/-- C17 at `su -p 0` in a process whose real ids are 10001 and whose effective
ids are 0: the call is made with these ids, and `su -p 2000` ends in the same
call; without `-p` the two target uids give calls of the same program and vector
that differ in the environment. -/
theorem su_main_keeps_creds_witness :
    su_main ["su".toList, "-p".toList, "0".toList] false sample_setuid_proc sample_su_env =
      .exec sample_keepenv_call ∧
    sample_keepenv_call.proc.creds = sample_setuid_proc.creds ∧
    su_main ["su".toList, "-p".toList, "2000".toList] false sample_setuid_proc sample_su_env =
      .exec sample_keepenv_call ∧
    exec_summary
        (su_main ["su".toList, "2000".toList] false sample_setuid_proc sample_su_env) =
      exec_summary (su_main ["su".toList, "0".toList] false sample_setuid_proc sample_su_env) ∧
    su_main ["su".toList, "2000".toList] false sample_setuid_proc sample_su_env ≠
      su_main ["su".toList, "0".toList] false sample_setuid_proc sample_su_env :=
  ⟨by decide,
   (su_main_keeps_creds ["su".toList, "-p".toList, "0".toList] sample_setuid_proc sample_su_env
      sample_keepenv_call (by decide)).1,
   by decide, by decide, by decide⟩

/-! ## C16: the handshake is never reached -/

/-- The statements after the call `allow(&ctx)` are never run: `su_main` with
them ends as `su_main` without them, and takes no step of the handshake. -/
theorem su_main_text_eq (argv : List (List Char)) (need_client : Bool) (p : SuProc)
    (env : SuEnv) (a : AuthorityEnv) :
    su_main_text argv need_client p env a = (su_main argv need_client p env, []) := by
  unfold su_main_text su_main allow_call
  generalize getopt_scan "c:hlmps:Vv".toList long_opts (argv.drop 1) 1 = g
  by_cases hd : argv.length = 2 ∧ strcmp_eq (argv.getD 1 []) "--daemon".toList = true
  · rw [if_pos hd, if_pos hd]
  · rw [if_neg hd, if_neg hd]
    by_cases hf1 : env.fork_ret = -1
    · rw [if_pos hf1, if_pos hf1]
    · rw [if_neg hf1, if_neg hf1]
      by_cases hf0 : env.fork_ret ≠ 0
      · rw [if_pos hf0, if_pos hf0]
        by_cases hw : env.wait_ret < 0
        · rw [if_pos hw, if_pos hw]
        · rw [if_neg hw, if_neg hw]
      · rw [if_neg hf0, if_neg hf0]
        cases ho : su_main_options (su_main_context argv).to_ g.1 with
        | error c => simp only [ho]
        | ok to1 =>
            simp only [ho]
            cases need_client with
            | true => simp only [if_true]
            | false =>
                simp only [Bool.false_eq_true, if_false]
                cases ht : su_main_target to1 argv g.2 env with
                | error c => simp only [ht]
                | ok to2 => simp only [ht]

/-- A non-empty vector that worker-mode `su_main` accepts ends in `execvp` when
`malloc` succeeds. -/
theorem su_main_exec_of_request (argv : List (List Char)) (p : SuProc) (env : SuEnv)
    (to2 : su_request) (hargv : argv ≠ [])
    (hnd : ¬ (argv.length = 2 ∧ strcmp_eq (argv.getD 1 []) "--daemon".toList = true))
    (hfork : env.fork_ret = 0) (hm : env.malloc_ok = true)
    (hreq : su_main_request argv env = .ok to2) :
    ∃ call : ExecCall, su_main argv false p env = .exec call := by
  have hall := su_main_eq_allow argv p env to2 hnd hfork hreq
  simp only [su_main_request] at hreq
  cases ho : su_main_options (su_main_context argv).to_
      (getopt_scan "c:hlmps:Vv".toList long_opts (argv.drop 1) 1).1 with
  | error c => rw [ho] at hreq; cases hreq
  | ok to1 =>
      rw [ho] at hreq
      simp only at hreq
      have hlen : 1 ≤ argv.length := by
        cases argv with
        | nil => exact absurd rfl hargv
        | cons a t => simp
      have hev := getopt_scan_optarg (argv.drop 1).length (argv.drop 1) 1 (le_refl _)
      have hoi := getopt_scan_optind (argv.drop 1).length (argv.drop 1) 1 (le_refl _)
      have hdl : (argv.drop 1).length = argv.length - 1 := List.length_drop 1 argv
      obtain ⟨ho1, ho2⟩ := su_main_options_inv _ _ to1 hev ho
      obtain ⟨ht1, ht2, ht3, k, hk1, hk2, hk3⟩ := su_main_target_inv to1 to2 argv _ env
        (by omega) hreq
      have hinv : to2.command.isSome = true → to2.shell.isSome = true := by
        rw [ht1, ht2]
        exact ho2 (fun h => by simp [su_main_context] at h)
      have hmem : to2.argv = { orig := argv, writes := [] } := by
        rw [ht3, ho1]; rfl
      obtain ⟨call, a0, hc1, _⟩ := allow_resolved
        { su_main_context argv with to_ := to2 }
        { p with environ := unsec_vars.foldl unsetenv p.environ } env argv k hk3 hmem hk1 hm
        hinv
      exact ⟨call, hall.trans hc1⟩

/-- C16. Let worker-mode `su_main` (in the process that goes on after
`fork_for_samsung`) accept an argument vector: the option loop and the
resolution of the target end in the request `to2` without an exit.  Then, with
the statements that follow the call `allow(&ctx)` taken into account, and for
every behaviour of the authority and of the calls of the handshake: `su_main`
ends as `allow` on that request ends, and no step of the handshake is taken (no
listener is created, no connection is accepted, no request is sent, no response
is read); so the outcome is the same for any two behaviours of the authority.
When the vector is not empty and `malloc` succeeds, the outcome is one and the
same call of `execvp`. -/
theorem su_main_before_handshake (argv : List (List Char)) (p : SuProc) (env : SuEnv)
    (to2 : su_request)
    (hnd : ¬ (argv.length = 2 ∧ strcmp_eq (argv.getD 1 []) "--daemon".toList = true))
    (hfork : env.fork_ret = 0) (hreq : su_main_request argv env = .ok to2) :
    (∀ a : AuthorityEnv,
      su_main_text argv false p env a =
        (allow { su_main_context argv with to_ := to2 }
          { p with environ := unsec_vars.foldl unsetenv p.environ } env, [])) ∧
    (∀ a : AuthorityEnv, (su_main_text argv false p env a).2 = []) ∧
    (∀ a b : AuthorityEnv, su_main_text argv false p env a = su_main_text argv false p env b) ∧
    (argv ≠ [] → env.malloc_ok = true →
      ∃ call : ExecCall, ∀ a : AuthorityEnv,
        su_main_text argv false p env a = (.exec call, [])) := by
  have hall := su_main_eq_allow argv p env to2 hnd hfork hreq
  refine ⟨fun a => ?_, fun a => ?_, fun a b => ?_, fun hargv hm => ?_⟩
  · rw [su_main_text_eq, hall]
  · rw [su_main_text_eq]
  · rw [su_main_text_eq, su_main_text_eq]
  · obtain ⟨call, hc⟩ := su_main_exec_of_request argv p env to2 hargv hnd hfork hm hreq
    exact ⟨call, fun a => by rw [su_main_text_eq, hc]⟩

/-- C16 at `su -c id`: the outcome with an authority that answers `socket:fail`
and with one that never connects is the outcome with one that answers
`socket:ALLOW`, the call `execvp("/system/bin/sh", ["sh", "-c", "id"])`, and no
step of the handshake is taken.  The statements after the call `allow(&ctx)`,
were they run, would tell these authorities apart. -/
theorem su_main_before_handshake_witness :
    su_main_text ["su".toList, "-c".toList, "id".toList] false sample_su_proc sample_su_env
        (sample_authority "socket:fail".toList) =
      su_main_text ["su".toList, "-c".toList, "id".toList] false sample_su_proc sample_su_env
        (sample_authority "socket:ALLOW".toList) ∧
    su_main_text ["su".toList, "-c".toList, "id".toList] false sample_su_proc sample_su_env
        sample_silent_authority =
      su_main_text ["su".toList, "-c".toList, "id".toList] false sample_su_proc sample_su_env
        (sample_authority "socket:ALLOW".toList) ∧
    (exec_summary
        (su_main_text ["su".toList, "-c".toList, "id".toList] false sample_su_proc
          sample_su_env (sample_authority "socket:fail".toList)).1 =
      some (DEFAULT_SHELL, ["sh".toList, "-c".toList, "id".toList]) ∧
     (su_main_text ["su".toList, "-c".toList, "id".toList] false sample_su_proc
          sample_su_env (sample_authority "socket:fail".toList)).2 = []) ∧
    ((su_main_handshake sample_request_ctx (sample_authority "socket:fail".toList)
        sample_su_proc sample_su_env).1 = .exit EXIT_FAILURE ∧
     exec_summary (su_main_handshake sample_request_ctx
        (sample_authority "socket:ALLOW".toList) sample_su_proc sample_su_env).1 =
        some (DEFAULT_SHELL, ["sh".toList, "-c".toList, "id".toList]) ∧
     su_main_handshake sample_request_ctx sample_silent_authority
        sample_su_proc sample_su_env = (.exit EXIT_FAILURE, [.create 3, .accept (-1)])) :=
  ⟨(su_main_before_handshake ["su".toList, "-c".toList, "id".toList] sample_su_proc
      sample_su_env sample_request (by decide) rfl rfl).2.2.1 _ _,
   by decide, by decide, by decide⟩

end Sud
